import Mathlib

/-! Chaincode support: query iterators, registries and the runtime launcher.

A shallow embedding of the parts of `core/chaincode` that the specification's
testable properties talk about.

* `mockResultsIterator` with `Next` and `Close` is translated from
  `core/chaincode/chaincode_support_test.go`.
* The transaction context registry, the handler registry and the runtime launcher
  are exercised by that test file but defined elsewhere in the package; they are
  modelled from the specification (sections 3, 4.1, 4.2 and 4.3).
* The lookups and the state operations of the message stream handler, `Execute`
  and `LaunchConfig` are likewise modelled from the specification (sections 3, 4.4,
  4.5, 6 and 8) and from what the tests expect of them.
* `InitCmdFactory` is translated from `peer/channel/channel.go`; the functions and
  variables of the package `common` that it uses are parameters.
* The fake `Runtime` is translated from `core/chaincode/mock/runtime.go`, the mock
  query simulator and the block counter from the test file, and the accessors of
  `VersionFieldProto` from `statecouchdb/msgs/msgs.pb.go`.
-/

namespace Justledger

/-! ## Functions of the Go library -/

namespace strings

/-- The parts of a list of characters between the occurrences of a separator. -/
def splitChars : List Char → Char → List (List Char)
  | [], _ => [[]]
  | c :: cs, sep =>
    if c = sep then
      [] :: splitChars cs sep
    else
      match splitChars cs sep with
      | p :: ps => (c :: p) :: ps
      | [] => [[c]]

/-- The function `strings.Split(s, sep)` of Go for a separator `sep` of one
character below U+0080, as `":"`: the substrings of `s` between the occurrences of
the separator.  Such a separator is one byte that occurs in no other character's
encoding, so the split of the bytes is the split of the characters. -/
def Split (s : String) (sep : Char) : List String :=
  (splitChars s.data sep).map String.mk

end strings

/-! ## Data model of the query iterator -/

/-- The message `plgr.KV`: a namespace, a key and a value (a byte string). -/
structure KV where
  Namespace : String
  Key : String
  Value : List Nat
deriving DecidableEq, Repr

/-- A value of the Go interface type `commonledger.QueryResult`.  `nil` is the nil
interface; `kv p` is an interface value that holds the pointer `p : *plgr.KV`
(`p = none` is the nil pointer, which still makes a non-nil interface value). -/
inductive QueryResult where
  | nil
  | kv (p : Option KV)
deriving DecidableEq, Repr

/-- The struct `mockResultsIterator`: `current` is a Go `int`, `kvs` a slice of
pointers `*plgr.KV` (`none` is the nil pointer). -/
structure mockResultsIterator where
  current : Int
  kvs : List (Option KV)
deriving DecidableEq, Repr

namespace mockResultsIterator

/-- The method `Next`.  The result is `none` when the index expression
`mri.kvs[mri.current]` panics (index out of range); otherwise it is the returned
pair `(QueryResult, error)` (a nil `error` is `none`) and the iterator afterwards.
`current + 1` cannot overflow, because `current < len(kvs)` there. -/
def Next (mri : mockResultsIterator) :
    Option ((QueryResult × Option String) × mockResultsIterator) :=
  if mri.current = mri.kvs.length then
    some ((QueryResult.nil, none), mri)
  else if 0 ≤ mri.current then
    match mri.kvs[mri.current.toNat]? with
    | some kv => some ((QueryResult.kv kv, none), { mri with current := mri.current + 1 })
    | none => none
  else
    none

/-- The method `Close`: it moves the position to the end of the results. -/
def Close (mri : mockResultsIterator) : mockResultsIterator :=
  { mri with current := mri.kvs.length }

end mockResultsIterator

/-- A call made on an iterator. -/
inductive Call where
  | next
  | close
deriving DecidableEq, Repr

/-- What one completed call did: the position before and after it, and for a
`Next` the pair it returned (a `Close` returns nothing). -/
structure Obs where
  call : Call
  before : Int
  after : Int
  result : Option (QueryResult × Option String)
deriving DecidableEq, Repr

/-- One call on an iterator; `none` when the call panics. -/
def call (mri : mockResultsIterator) : Call → Option (Obs × mockResultsIterator)
  | Call.next =>
    match mri.Next with
    | some (r, mri') =>
      some ({ call := Call.next, before := mri.current, after := mri'.current,
              result := some r }, mri')
    | none => none
  | Call.close =>
    some ({ call := Call.close, before := mri.current, after := mri.Close.current,
            result := none }, mri.Close)

/-- A sequence of calls made one after the other on an iterator: the observations
of the calls that completed, and the iterator they leave.  A panic ends the
sequence. -/
def run : mockResultsIterator → List Call → List Obs × mockResultsIterator
  | mri, [] => ([], mri)
  | mri, c :: cs =>
    match call mri c with
    | some (o, mri') => (o :: (run mri' cs).1, (run mri' cs).2)
    | none => ([], mri)

/-- The pairs returned by the `Next` calls of a run, in order. -/
def nextResults (os : List Obs) : List (QueryResult × Option String) :=
  os.filterMap (fun o => o.result)

/-- The positions that a run goes through: the starting one, then the one after
each completed call. -/
def positions (mri : mockResultsIterator) (os : List Obs) : List Int :=
  mri.current :: os.map (fun o => o.after)

/-- The indices of the items handed out by the `Next` calls of a run, in order: a
`Next` that returns a non-nil result returns the item at the position it started
from. -/
def returnedIndices (os : List Obs) : List Int :=
  os.filterMap (fun o =>
    match o.result with
    | some (QueryResult.kv _, _) => some o.before
    | _ => none)

/-! ## Transaction context registry -/

/-- Modelled from the spec: the type `TransactionContext` is not among the sources.
A context is keyed by `(channelID, txID)`; it holds the ledger simulator handle
taken from the caller's context, the stored signed proposal and proposal, and the
query iterators opened in the transaction, by iterator id (section 3). -/
structure TransactionContext where
  channelID : String
  txID : String
  signedProposal : Option (List Nat)
  proposal : Option (List Nat)
  simulator : Option Nat
  iterators : List (String × mockResultsIterator)
deriving DecidableEq, Repr

/-- Modelled from the spec: the error of the transaction context registry
(sections 4.1 and 7). -/
inductive TxContextError where
  | DuplicateTransactionError (channelID txID : String)
deriving DecidableEq, Repr

/-- Modelled from the spec: the type `TransactionContexts` is not among the
sources.  The registry owns the live contexts (section 2). -/
structure TransactionContexts where
  contexts : List TransactionContext
deriving DecidableEq, Repr

/-- Modelled from the spec: `NewTransactionContexts` is not among the sources; a new
registry holds no context. -/
def NewTransactionContexts : TransactionContexts := ⟨[]⟩

namespace TransactionContexts

/-- Modelled from the spec: `Get` is not among the sources.  Section 4.1:
`Get(channelID, txID) -> TransactionContext | nil`, a lookup without side effects. -/
def Get (r : TransactionContexts) (channelID txID : String) : Option TransactionContext :=
  r.contexts.find? (fun c => decide (c.channelID = channelID ∧ c.txID = txID))

/-- Modelled from the spec: `Create` is not among the sources.  Section 4.1:
`Create(ctx, channelID, txID, signedProposal, proposal)` fails with the duplicate
error if a live context already exists for the key; otherwise it makes the context,
which stores the proposal and the signed proposal, and the registry keeps it.  The
argument `ctx` is the simulator handle carried by the caller's context. -/
def Create (r : TransactionContexts) (ctx : Option Nat) (channelID txID : String)
    (signedProposal proposal : Option (List Nat)) :
    Except TxContextError (TransactionContext × TransactionContexts) :=
  match r.Get channelID txID with
  | some _ => Except.error (TxContextError.DuplicateTransactionError channelID txID)
  | none =>
    Except.ok
      ({ channelID := channelID, txID := txID, signedProposal := signedProposal,
         proposal := proposal, simulator := ctx, iterators := [] },
       ⟨{ channelID := channelID, txID := txID, signedProposal := signedProposal,
          proposal := proposal, simulator := ctx, iterators := [] } :: r.contexts⟩)

/-- Modelled from the spec: `Delete` is not among the sources.  Section 4.1:
`Delete(channelID, txID)` drops the context of the key, with its simulator and its
iterators; it is idempotent. -/
def Delete (r : TransactionContexts) (channelID txID : String) : TransactionContexts :=
  ⟨r.contexts.filter (fun c => !decide (c.channelID = channelID ∧ c.txID = txID))⟩

/-- The number of contexts that the registry holds for a key. -/
def liveCount (r : TransactionContexts) (channelID txID : String) : Nat :=
  r.contexts.countP (fun c => decide (c.channelID = channelID ∧ c.txID = txID))

end TransactionContexts

/-- An operation that changes the transaction context registry. -/
inductive TxOp where
  | create (ctx : Option Nat) (channelID txID : String)
      (signedProposal proposal : Option (List Nat))
  | delete (channelID txID : String)
deriving DecidableEq, Repr

/-- The registry after one operation; a `Create` that fails leaves it as it is. -/
def TransactionContexts.apply (r : TransactionContexts) : TxOp → TransactionContexts
  | TxOp.create ctx channelID txID signedProposal proposal =>
    match r.Create ctx channelID txID signedProposal proposal with
    | Except.ok (_, r') => r'
    | Except.error _ => r
  | TxOp.delete channelID txID => r.Delete channelID txID

/-! ## Handler registry -/

/-- The message `pb.ChaincodeID`, as far as the registry uses it: in a handler the
field `Name` carries the canonical name `name:version`. -/
structure ChaincodeID where
  Name : String
  Version : String
deriving DecidableEq, Repr

/-- Modelled from the spec: the type `Handler` is not among the sources.  The
registry uses the chaincode identity of a handler; each message stream handler owns
its set of transaction contexts (section 3). -/
structure Handler where
  chaincodeID : ChaincodeID
  TXContexts : TransactionContexts
deriving DecidableEq, Repr

/-- Modelled from the spec: the states of a handler registration,
`Launching → Established → Ready` (section 3). -/
inductive RegistrationState where
  | Launching
  | Established
  | Ready
deriving DecidableEq, Repr

/-- Modelled from the spec: a `HandlerRegistration` (section 3), keyed by the
canonical name of the chaincode. -/
structure HandlerRegistration where
  name : String
  state : RegistrationState
  handler : Option Handler
deriving DecidableEq, Repr

/-- Modelled from the spec: the error of the handler registry (sections 4.2 and
7). -/
inductive RegistryError where
  | AlreadyRegisteredError (name : String)
deriving DecidableEq, Repr

/-- Modelled from the spec: the type `HandlerRegistry` is not among the sources.
The registry tracks the launched chaincode instances and their lifecycle state
(section 2). -/
structure HandlerRegistry where
  registrations : List HandlerRegistration
deriving DecidableEq, Repr

/-- Modelled from the spec: `NewHandlerRegistry` is not among the sources; the tests
call it with a flag to which the spec gives no role.  A new registry is empty. -/
def NewHandlerRegistry (_flag : Bool) : HandlerRegistry := ⟨[]⟩

namespace HandlerRegistry

/-- The registration of a name, if there is one. -/
def lookup (r : HandlerRegistry) (name : String) : Option HandlerRegistration :=
  r.registrations.find? (fun g => decide (g.name = name))

/-- A name is registered when a handler has been registered for it: its
registration is `Established` or `Ready`. -/
def registered (r : HandlerRegistry) (name : String) : Bool :=
  match r.lookup name with
  | some g => decide (g.state ≠ RegistrationState.Launching)
  | none => false

/-- Modelled from the spec: `Register` is not among the sources.  Section 4.2:
`Register(handler) -> ok | AlreadyRegisteredError`, keyed by the canonical name; a
registration that is being launched moves forward to `Established`, a name without
registration gets one, and a name already registered is rejected. -/
def Register (r : HandlerRegistry) (h : Handler) : Except RegistryError HandlerRegistry :=
  match r.lookup h.chaincodeID.Name with
  | some g =>
    if g.state = RegistrationState.Launching then
      Except.ok ⟨r.registrations.map (fun g' =>
        if g'.name = h.chaincodeID.Name then
          { g' with state := RegistrationState.Established, handler := some h }
        else g')⟩
    else
      Except.error (RegistryError.AlreadyRegisteredError h.chaincodeID.Name)
  | none =>
    Except.ok ⟨{ name := h.chaincodeID.Name, state := RegistrationState.Established,
                 handler := some h } :: r.registrations⟩

/-- Modelled from the spec: `Ready` is not among the sources.  Section 4.2:
`Ready(name)` marks a pending registration as ready for dispatch. -/
def Ready (r : HandlerRegistry) (name : String) : HandlerRegistry :=
  ⟨r.registrations.map (fun g =>
    if g.name = name then { g with state := RegistrationState.Ready } else g)⟩

/-- Modelled from the spec: `Deregister` is not among the sources.  Section 4.2:
`Deregister(name)` removes the entry. -/
def Deregister (r : HandlerRegistry) (name : String) : HandlerRegistry :=
  ⟨r.registrations.filter (fun g => !decide (g.name = name))⟩

/-- Modelled from the spec: `Launching` is not among the sources.  Section 4.2:
`Launching(name) -> started`; `started` tells that the name is already launching or
registered, and otherwise a registration in state `Launching` is entered. -/
def Launching (r : HandlerRegistry) (name : String) : Bool × HandlerRegistry :=
  match r.lookup name with
  | some _ => (true, r)
  | none =>
    (false, ⟨{ name := name, state := RegistrationState.Launching, handler := none }
              :: r.registrations⟩)

end HandlerRegistry

/-! ## Runtime launcher -/

/-- The chaincode context `ccprovider.CCContext`, as the tests build it.  The tests
assign to `Version` and to `TxID` of a context that is already built and go on
using it for the instance it was built for, so the canonical name is kept in a
field of its own, written once when the context is built. -/
structure CCContext where
  ChainID : String
  Name : String
  Version : String
  TxID : String
  Syscc : Bool
  SignedProposal : Option (List Nat)
  Proposal : Option (List Nat)
  canonicalName : String
deriving DecidableEq, Repr

/-- Modelled from the spec: `ccprovider.NewCCContext` is not among the sources; the
tests call it with the channel, the chaincode name and version, the transaction id,
the system-chaincode flag and the two proposals.  Section 3 and the glossary: the
canonical name is the string `name:version`. -/
def NewCCContext (cid name version txid : String) (syscc : Bool)
    (signedProp prop : Option (List Nat)) : CCContext :=
  { ChainID := cid, Name := name, Version := version, TxID := txid, Syscc := syscc,
    SignedProposal := signedProp, Proposal := prop,
    canonicalName := name ++ ":" ++ version }

/-- Modelled from the spec: `GetCanonicalName` is not among the sources; it gives
the canonical name that the context was built with. -/
def CCContext.GetCanonicalName (cccid : CCContext) : String :=
  cccid.canonicalName

/-- The message `pb.ChaincodeDeploymentSpec`, as the tests build it: the chaincode
identity and the code package. -/
structure ChaincodeDeploymentSpec where
  ChaincodeId : ChaincodeID
  CodePackage : List Nat
deriving DecidableEq, Repr

/-- Modelled from the spec: the Runtime interface is not among the sources.  This is
what an asynchronous call of the Runtime capability's `Start` does, as the launcher
can observe it (section 4.3).  Times are in nanoseconds since the call.
`ready` lists the moments at which the handler registry is told `Ready(name)`;
`returnsAt` is the moment at which `Start` returns (`none`: it has not returned by
any time of interest) and `result` the error it returns (`none` is nil). -/
structure StartCall where
  ready : List (Nat × String)
  returnsAt : Option Nat
  result : Option String
deriving DecidableEq, Repr

/-- Modelled from the spec: the Runtime capability (section 6), reduced to its
`Start` operation. -/
structure Runtime where
  Start : CCContext → ChaincodeDeploymentSpec → StartCall

/-- Modelled from the spec: the errors of the launcher (sections 4.3 and 7), the
launch error, which carries its message, and the launch timeout. -/
inductive LaunchError where
  | StartFailed (message : String)
  | LaunchTimeoutError
deriving DecidableEq, Repr

/-- Modelled from the spec: the type `RuntimeLauncher` is not among the sources; the
tests build it from a Runtime, a handler registry and a startup timeout (a
`time.Duration`, in nanoseconds). -/
structure RuntimeLauncher where
  Runtime : Runtime
  Registry : HandlerRegistry
  StartupTimeout : Nat

/-- Signal (a) of the race: the moment at which the Runtime call returns an error,
and the error. -/
def StartCall.failure (sc : StartCall) : Option (Nat × String) :=
  match sc.returnsAt, sc.result with
  | some t, some e => some (t, e)
  | _, _ => none

/-- Signal (b) of the race: the first moment at which the registry is told `Ready`
for the name. -/
def StartCall.readyAt (sc : StartCall) (cname : String) : Option Nat :=
  ((sc.ready.filter (fun p => decide (p.2 = cname))).map (fun p => p.1)).min?

/-- Modelled from the spec: the message of a launch error, the Runtime's error
behind a fixed text (section 8). -/
def startFailedMessage (e : String) : String :=
  "error starting container: " ++ e

/-- Modelled from the spec: the three signals of section 4.3 that can end a launch,
each with its moment and the result it gives: the Runtime's error, `Ready` for the
name (the nil result), the timeout. -/
def launchSignals (sc : StartCall) (cname : String) (timeout : Nat) :
    List (Nat × Option LaunchError) :=
  (match sc.failure with
    | some (t, e) => [(t, some (LaunchError.StartFailed (startFailedMessage e)))]
    | none => []) ++
  (match sc.readyAt cname with
    | some t => [(t, none)]
    | none => []) ++
  [(timeout, some LaunchError.LaunchTimeoutError)]

/-- Modelled from the spec: the race of section 4.3 (the launcher's code is not
among the sources).  Whichever signal occurs first determines the result; signals
that occur at the same moment leave either result possible, so the value is the
list of the possible results. -/
def race (signals : List (Nat × Option LaunchError)) : List (Option LaunchError) :=
  match (signals.map (fun p => p.1)).min? with
  | some first => (signals.filter (fun p => decide (p.1 = first))).map (fun p => p.2)
  | none => []

/-- Modelled from the spec: `RuntimeLauncher.start` is not among the sources.
Section 4.3: if the chaincode is already launching or ready, return at once (with a
nil error); otherwise invoke the Runtime's `Start` asynchronously and race the three
signals.  The value is the list of the errors that the call can return (`none` is
nil). -/
def RuntimeLauncher.start (l : RuntimeLauncher) (cccid : CCContext)
    (cds : ChaincodeDeploymentSpec) : List (Option LaunchError) :=
  if (l.Registry.Launching cccid.GetCanonicalName).1 then
    [none]
  else
    race (launchSignals (l.Runtime.Start cccid cds) cccid.GetCanonicalName l.StartupTimeout)

/-! ## Message stream handler: transaction context lookup -/

/-- Modelled from the spec: the message types of the protocol between the peer and
a chaincode (section 6). -/
inductive ChaincodeMessageType where
  | REGISTER
  | REGISTERED
  | READY
  | TRANSACTION
  | RESPONSE
  | ERROR
  | COMPLETED
  | PUT_STATE
  | GET_STATE
  | DEL_STATE
  | GET_STATE_BY_RANGE
  | GET_QUERY_RESULT
  | GET_HISTORY_FOR_KEY
  | QUERY_STATE_NEXT
  | QUERY_STATE_CLOSE
  | INVOKE_CHAINCODE
deriving DecidableEq, Repr

/-- Modelled from the spec: a chaincode message carries its type, an opaque payload
(bytes), a transaction id and a channel id (section 6). -/
structure ChaincodeMessage where
  MsgType : ChaincodeMessageType
  Payload : List Nat
  Txid : String
  ChannelId : String
deriving DecidableEq, Repr

/-- The bytes of a text, as the conversion `[]byte(s)` gives them. -/
def bytesOf (s : String) : List Nat :=
  s.toUTF8.data.toList.map (fun b => b.toNat)

namespace Handler

/-- Modelled from the spec: `isValidTxSim` is not among the sources.  Sections 4.1
and 4.4: the context of the transaction is looked up in the registry, without side
effect; when it is absent the caller gets a chaincode message of type `ERROR`, whose
payload is the text `errStr` that the format and its arguments give.  The value is
the returned pair and the handler afterwards. -/
def isValidTxSim (h : Handler) (channelID txid : String) (errStr : String) :
    (Option TransactionContext × Option ChaincodeMessage) × Handler :=
  match h.TXContexts.Get channelID txid with
  | some txContext => ((some txContext, none), h)
  | none =>
    ((none, some { MsgType := ChaincodeMessageType.ERROR, Payload := bytesOf errStr,
                   Txid := txid, ChannelId := channelID }), h)

/-- Modelled from the spec: `getTxContextForInvoke` is not among the sources.
Section 4.4: the context of the transaction is looked up; the absence of a ledger
context for a non-empty payload is an error, delivered as a chaincode message of
type `ERROR`; for an empty payload the absence is no error. -/
def getTxContextForInvoke (h : Handler) (channelID txid : String) (payload : List Nat)
    (errStr : String) : (Option TransactionContext × Option ChaincodeMessage) × Handler :=
  match h.TXContexts.Get channelID txid with
  | some txContext => ((some txContext, none), h)
  | none =>
    if payload = [] then
      ((none, none), h)
    else
      ((none, some { MsgType := ChaincodeMessageType.ERROR, Payload := bytesOf errStr,
                     Txid := txid, ChannelId := channelID }), h)

end Handler

/-- Whether an operation is the `Create` of a key. -/
def TxOp.createsKey (channelID txID : String) : TxOp → Bool
  | TxOp.create _ ch tx _ _ => decide (ch = channelID ∧ tx = txID)
  | TxOp.delete _ _ => false

/-! ## Message stream handler: state operations -/

/-- Modelled from the spec: the ledger TxSimulator capability (section 6 and the
glossary) is an external collaborator; here it is a transaction-scoped buffer that
keeps a value for a namespace, a collection (the empty collection is the public
state) and a key.  The field `validKey` is the ledger's rule for the keys it
takes. -/
structure TxSimulator where
  validKey : String → Bool
  values : List ((String × String × String) × List Nat)

namespace TxSimulator

/-- The value kept for a namespace, a collection and a key, if there is one. -/
def read (sim : TxSimulator) (ns collection key : String) : Option (List Nat) :=
  (sim.values.find? (fun e => decide (e.1 = (ns, collection, key)))).map (fun e => e.2)

/-- The buffer without the value of a namespace, a collection and a key. -/
def erase (sim : TxSimulator) (ns collection key : String) : TxSimulator :=
  { sim with values := sim.values.filter (fun e => !decide (e.1 = (ns, collection, key))) }

/-- The buffer with a new value for a namespace, a collection and a key. -/
def write (sim : TxSimulator) (ns collection key : String) (value : List Nat) :
    TxSimulator :=
  { sim with values := ((ns, collection, key), value) :: (sim.erase ns collection key).values }

/-- Modelled from the spec: `SetState` of the capability; it fails on a key that
the ledger does not take. -/
def SetState (sim : TxSimulator) (ns key : String) (value : List Nat) :
    Except String TxSimulator :=
  if sim.validKey key then Except.ok (sim.write ns "" key value)
  else Except.error "invalid key"

/-- Modelled from the spec: the read of the public state by the query layer. -/
def GetState (sim : TxSimulator) (ns key : String) : Except String (Option (List Nat)) :=
  if sim.validKey key then Except.ok (sim.read ns "" key)
  else Except.error "invalid key"

/-- Modelled from the spec: `DeleteState` of the capability. -/
def DeleteState (sim : TxSimulator) (ns key : String) : Except String TxSimulator :=
  if sim.validKey key then Except.ok (sim.erase ns "" key)
  else Except.error "invalid key"

/-- Modelled from the spec: the write of a value of a private-data collection. -/
def SetPrivateData (sim : TxSimulator) (ns collection key : String) (value : List Nat) :
    Except String TxSimulator :=
  if sim.validKey key then Except.ok (sim.write ns collection key value)
  else Except.error "invalid key"

/-- Modelled from the spec: the read of a value of a private-data collection. -/
def GetPrivateData (sim : TxSimulator) (ns collection key : String) :
    Except String (Option (List Nat)) :=
  if sim.validKey key then Except.ok (sim.read ns collection key)
  else Except.error "invalid key"

/-- Modelled from the spec: the deletion of a value of a private-data collection. -/
def DeletePrivateData (sim : TxSimulator) (ns collection key : String) :
    Except String TxSimulator :=
  if sim.validKey key then Except.ok (sim.erase ns collection key)
  else Except.error "invalid key"

/-- Modelled from the spec: a range query opens a results iterator on the simulator
(section 4.4): the values of the namespace and the collection whose key is from
`startKey` on and before `endKey`. -/
def GetStateRangeScanIterator (sim : TxSimulator) (ns collection startKey endKey : String) :
    mockResultsIterator :=
  { current := 0,
    kvs := (sim.values.filter (fun e =>
        decide (e.1.1 = ns ∧ e.1.2.1 = collection ∧ startKey ≤ e.1.2.2 ∧ e.1.2.2 < endKey))).map
      (fun e => some { Namespace := ns, Key := e.1.2.2, Value := e.2 }) }

end TxSimulator

/-- Modelled from the spec: the errors of a state operation (section 7): the
not-yet-supported error of a private-data operation without the capability, and an
error of the ledger. -/
inductive StateError where
  | NotYetSupportedError
  | LedgerError (message : String)
deriving DecidableEq, Repr

namespace Handler

/-- Modelled from the spec: the gate of section 4.4 and section 7: an operation on
a non-empty collection fails with the not-yet-supported error when the channel's
capability does not support private data. -/
def errorIfPrivateDataNotSupported (privateDataSupported : Bool) (collection : String) :
    Except StateError Unit :=
  if collection ≠ "" ∧ privateDataSupported = false then
    Except.error StateError.NotYetSupportedError
  else
    Except.ok ()

/-- Modelled from the spec: the handling of `PUT_STATE` is not among the sources.
Section 4.4: the operation is forwarded to the simulator of the transaction
context, in the namespace of the handler's chaincode, unless the gate stops it. -/
def HandlePutState (h : Handler) (privateDataSupported : Bool) (sim : TxSimulator)
    (collection key : String) (value : List Nat) : Except StateError TxSimulator :=
  match errorIfPrivateDataNotSupported privateDataSupported collection with
  | Except.error e => Except.error e
  | Except.ok _ =>
    match (if collection = "" then sim.SetState h.chaincodeID.Name key value
           else sim.SetPrivateData h.chaincodeID.Name collection key value) with
    | Except.ok sim' => Except.ok sim'
    | Except.error m => Except.error (StateError.LedgerError m)

/-- Modelled from the spec: the handling of `GET_STATE` is not among the sources;
the read is forwarded to the query layer unless the gate stops it.  A key without
value gives a nil value, not an error. -/
def HandleGetState (h : Handler) (privateDataSupported : Bool) (sim : TxSimulator)
    (collection key : String) : Except StateError (Option (List Nat)) :=
  match errorIfPrivateDataNotSupported privateDataSupported collection with
  | Except.error e => Except.error e
  | Except.ok _ =>
    match (if collection = "" then sim.GetState h.chaincodeID.Name key
           else sim.GetPrivateData h.chaincodeID.Name collection key) with
    | Except.ok v => Except.ok v
    | Except.error m => Except.error (StateError.LedgerError m)

/-- Modelled from the spec: the handling of `DEL_STATE` is not among the sources. -/
def HandleDelState (h : Handler) (privateDataSupported : Bool) (sim : TxSimulator)
    (collection key : String) : Except StateError TxSimulator :=
  match errorIfPrivateDataNotSupported privateDataSupported collection with
  | Except.error e => Except.error e
  | Except.ok _ =>
    match (if collection = "" then sim.DeleteState h.chaincodeID.Name key
           else sim.DeletePrivateData h.chaincodeID.Name collection key) with
    | Except.ok sim' => Except.ok sim'
    | Except.error m => Except.error (StateError.LedgerError m)

/-- Modelled from the spec: the handling of `GET_STATE_BY_RANGE` is not among the
sources.  The range query is a private-data operation when its collection is not
empty, so the same gate applies (section 7); otherwise it opens a results iterator
on the simulator. -/
def HandleGetStateByRange (h : Handler) (privateDataSupported : Bool) (sim : TxSimulator)
    (collection startKey endKey : String) : Except StateError mockResultsIterator :=
  match errorIfPrivateDataNotSupported privateDataSupported collection with
  | Except.error e => Except.error e
  | Except.ok _ =>
    Except.ok (sim.GetStateRangeScanIterator h.chaincodeID.Name collection startKey endKey)

end Handler

/-! ## Chaincode support: execution -/

/-- Modelled from the spec: the response of a chaincode, a status code with a
message and a payload (section 4.4). -/
structure Response where
  Status : Nat
  Message : String
  Payload : List Nat
deriving DecidableEq, Repr

/-- Modelled from the spec: the errors of an execution (section 7).  The duplicate
transaction error is the one of the transaction context registry; the tests quote
its log text, "Another request pending for this Txid. Cannot process." -/
inductive ExecuteError where
  | DuplicateTransactionError (channelID txID : String)
  | ACLDeniedError (resource channelID : String)
  | LaunchError (err : LaunchError)
  | NotRunningError (name : String)
  | ChaincodeError (message : String)
deriving DecidableEq, Repr

/-- Modelled from the spec: the chaincode support orchestrator (section 2) owns the
handler registry, and through it the handlers and their transaction contexts. -/
structure ChaincodeSupport where
  HandlerRegistry : HandlerRegistry
deriving DecidableEq, Repr

/-- What a chaincode does with a transaction that is sent to it: the messages it
sends while the transaction runs can change the state of the chaincode support
(a call of another chaincode does), and it ends with a response or with the message
of an error. -/
abbrev Chaincode := ChaincodeSupport → Except String Response × ChaincodeSupport

namespace HandlerRegistry

/-- Modelled from the spec: the handler registered for a canonical name, if the
name is registered (section 4.5, step 1). -/
def handlerOf (r : HandlerRegistry) (name : String) : Option Handler :=
  match r.lookup name with
  | some g => if g.state = RegistrationState.Launching then none else g.handler
  | none => none

/-- The registry in which the registration of a name holds a new state of its
handler. -/
def setHandler (r : HandlerRegistry) (name : String) (h : Handler) :
    HandlerRegistry :=
  ⟨r.registrations.map (fun g => if g.name = name then { g with handler := some h } else g)⟩

end HandlerRegistry

namespace ChaincodeSupport

/-- Modelled from the spec: steps 2 and 3 of `Execute` on the handler of a
canonical name (section 4.5; the code is not among the sources).  The transaction
context for `(channelID, txid)` is created on the handler, and a second context
for a live pair is refused (sections 3 and 4.1); the transaction is sent to the
chaincode and its response or error is the result; at the end the context is
deleted. -/
def execute (cs : ChaincodeSupport) (cname : String) (ctx : Option Nat)
    (channelID txid : String) (signedProp prop : Option (List Nat))
    (chaincode : Chaincode) : Except ExecuteError Response × ChaincodeSupport :=
  match cs.HandlerRegistry.handlerOf cname with
  | none => (Except.error (ExecuteError.NotRunningError cname), cs)
  | some h =>
    match h.TXContexts.Create ctx channelID txid signedProp prop with
    | Except.error _ =>
      (Except.error (ExecuteError.DuplicateTransactionError channelID txid), cs)
    | Except.ok (_, r') =>
      match chaincode ⟨cs.HandlerRegistry.setHandler cname { h with TXContexts := r' }⟩ with
      | (res, cs') =>
        ((match res with
          | Except.ok resp => Except.ok resp
          | Except.error m => Except.error (ExecuteError.ChaincodeError m)),
         (match cs'.HandlerRegistry.handlerOf cname with
          | some h' =>
            ⟨cs'.HandlerRegistry.setHandler cname
              { h' with TXContexts := h'.TXContexts.Delete channelID txid }⟩
          | none => cs'))

/-- Modelled from the spec: the target of a cross-chaincode call, a canonical name
with an optional suffix `/channelID` that means another channel (sections 3 and
4.4). -/
def parseTarget (target : String) : String × Option String :=
  match strings.Split target '/' with
  | [name] => (name, none)
  | name :: channel :: _ => (name, some channel)
  | [] => (target, none)

/-- Modelled from the spec: the handling of `INVOKE_CHAINCODE` is not among the
sources.  Section 4.4: the target is parsed; the access-control check for the
resource `Peer_ChaincodeToChaincode` is run for the source channel and, if the call
crosses channels, for the target channel; then the call is dispatched into the
target's handler with the same transaction id, where the duplicate guard of the
transaction context registry rejects a re-entry, and the response of the callee is
relayed. -/
def HandleInvokeChaincode (cs : ChaincodeSupport)
    (CheckACL : String → String → Option (List Nat) → Bool) (ctx : Option Nat)
    (channelID txid : String) (signedProp prop : Option (List Nat)) (target : String)
    (callee : Chaincode) : Except ExecuteError Response × ChaincodeSupport :=
  match parseTarget target with
  | (name, channel) =>
    if CheckACL "Peer_ChaincodeToChaincode" channelID signedProp = false then
      (Except.error (ExecuteError.ACLDeniedError "Peer_ChaincodeToChaincode" channelID), cs)
    else if channel.getD channelID ≠ channelID ∧
        CheckACL "Peer_ChaincodeToChaincode" (channel.getD channelID) signedProp = false then
      (Except.error
        (ExecuteError.ACLDeniedError "Peer_ChaincodeToChaincode" (channel.getD channelID)), cs)
    else
      cs.execute name ctx (channel.getD channelID) txid signedProp prop callee

/-- Modelled from the spec: `Execute` is not among the sources.  Section 4.5, step
1: the handler is resolved through the handler registry, by the canonical name that
the context was built with; when it is absent the Runtime Launcher is invoked, and
`launched` is what it gives: an error, which is fatal to the call, or the handler
that the launched chaincode registered under this canonical name.  Steps 2 and 3:
the transaction is run on the handler.  A request whose version is not the one of a
running instance is thus never dispatched to that instance. -/
def Execute (cs : ChaincodeSupport) (ctx : Option Nat) (cccid : CCContext)
    (launched : Except LaunchError Handler) (chaincode : Chaincode) :
    Except ExecuteError Response × ChaincodeSupport :=
  match cs.HandlerRegistry.handlerOf cccid.GetCanonicalName with
  | some _ =>
    cs.execute cccid.GetCanonicalName ctx cccid.ChainID cccid.TxID cccid.SignedProposal
      cccid.Proposal chaincode
  | none =>
    match launched with
    | Except.error e => (Except.error (ExecuteError.LaunchError e), cs)
    | Except.ok h =>
      execute
        ⟨⟨{ name := cccid.GetCanonicalName, state := RegistrationState.Ready,
            handler := some h } ::
          (cs.HandlerRegistry.Deregister cccid.GetCanonicalName).registrations⟩⟩
        cccid.GetCanonicalName ctx cccid.ChainID cccid.TxID cccid.SignedProposal
        cccid.Proposal chaincode

end ChaincodeSupport

/-- The chaincode support of the tests once the chaincode `shimTestCC`, version
`0`, has registered and is ready: one handler, without transaction in flight. -/
def exampleSupport : ChaincodeSupport :=
  ⟨⟨[{ name := "shimTestCC:0", state := RegistrationState.Ready,
       handler := some ⟨⟨"shimTestCC:0", ""⟩, NewTransactionContexts⟩ }]⟩⟩

/-- A chaincode that completes every transaction with the status 200 and the
payload "OK". -/
def exampleChaincode : Chaincode :=
  fun cs => (Except.ok { Status := 200, Message := "", Payload := [79, 75] }, cs)

/-! ## Launch configuration -/

/-- The chaincode types `pb.ChaincodeSpec_Type` that the tests launch, and the rest. -/
inductive ChaincodeSpecType where
  | GOLANG
  | NODE
  | OTHER
deriving DecidableEq, Repr

/-- Modelled from the spec: the derived, read-only launch configuration (sections 3
and 6): the arguments of the start command, the environment variables and the
files to stage, by path. -/
structure LaunchConfig where
  Args : List String
  Envs : List String
  Files : List (String × List Nat)
deriving DecidableEq, Repr

/-- The key and the certificate that the certificate generator makes for a
chaincode. -/
structure CertKeyPair where
  Key : List Nat
  Cert : List Nat
deriving DecidableEq, Repr

/-- Modelled from the spec: the type `ContainerRuntime` is not among the sources.
The tests show its field `CertGenerator`, which is nil when TLS is disabled; the
other fields are the settings that the launch configuration exports: the root
certificate, the address of the peer and the two logging levels.  Section 3 lists
the peer address among the environment variables; neither the spec nor the tests
give the text of that entry, so it is a field, `PeerAddressEnv`. -/
structure ContainerRuntime where
  CertGenerator : Option (String → CertKeyPair)
  CACert : List Nat
  PeerAddress : String
  PeerAddressEnv : String
  LogLevel : String
  ShimLogLevel : String

namespace ContainerRuntime

/-- The paths in the container of the TLS material, as the tests expect them. -/
def TLSClientKeyPath : String := "/etc/hyperledger/fabric/client.key"

/-- The path of the client certificate. -/
def TLSClientCertPath : String := "/etc/hyperledger/fabric/client.crt"

/-- The path of the root certificate. -/
def TLSClientRootCertPath : String := "/etc/hyperledger/fabric/peer.crt"

/-- Modelled from the spec: `LaunchConfig` is not among the sources.  Sections 3 and
6: the arguments are the start command of the chaincode type with the address of
the peer; the environment holds the logging levels, the peer address, the chaincode
id, the TLS enablement and, with TLS, the three paths of the TLS material; with TLS
the three files of the TLS material are staged.  The texts of the entries are those
that the tests name, for all but the entry of the peer address. -/
def LaunchConfig (cr : ContainerRuntime) (cname : String) (ccType : ChaincodeSpecType) :
    Except String Justledger.LaunchConfig :=
  match (match ccType with
    | ChaincodeSpecType.GOLANG => some ["chaincode", "-peer.address=" ++ cr.PeerAddress]
    | ChaincodeSpecType.NODE =>
      some ["/bin/sh", "-c",
        "cd /usr/local/src; npm start -- --peer.address " ++ cr.PeerAddress]
    | ChaincodeSpecType.OTHER => none) with
  | none => Except.error "unknown chaincodeType"
  | some args =>
    match cr.CertGenerator with
    | some generate =>
      Except.ok
        { Args := args,
          Envs := ["CORE_CHAINCODE_LOGGING_LEVEL=" ++ cr.LogLevel,
                   "CORE_CHAINCODE_LOGGING_SHIM=" ++ cr.ShimLogLevel,
                   cr.PeerAddressEnv,
                   "CORE_CHAINCODE_ID_NAME=" ++ cname,
                   "CORE_PEER_TLS_ENABLED=true",
                   "CORE_TLS_CLIENT_KEY_PATH=" ++ TLSClientKeyPath,
                   "CORE_TLS_CLIENT_CERT_PATH=" ++ TLSClientCertPath,
                   "CORE_PEER_TLS_ROOTCERT_FILE=" ++ TLSClientRootCertPath],
          Files := [(TLSClientKeyPath, (generate cname).Key),
                    (TLSClientCertPath, (generate cname).Cert),
                    (TLSClientRootCertPath, cr.CACert)] }
    | none =>
      Except.ok
        { Args := args,
          Envs := ["CORE_CHAINCODE_LOGGING_LEVEL=" ++ cr.LogLevel,
                   "CORE_CHAINCODE_LOGGING_SHIM=" ++ cr.ShimLogLevel,
                   cr.PeerAddressEnv,
                   "CORE_CHAINCODE_ID_NAME=" ++ cname,
                   "CORE_PEER_TLS_ENABLED=false"],
          Files := [] }

end ContainerRuntime

/-- The container runtime of the tests: the logging levels `info` and `warning`,
with TLS when a certificate generator is given. -/
def exampleRuntime (generator : Option (String → CertKeyPair)) : ContainerRuntime :=
  { CertGenerator := generator, CACert := [1], PeerAddress := "0.0.0.0:7052",
    PeerAddressEnv := "CORE_PEER_ADDRESS=0.0.0.0:7052",
    LogLevel := "info", ShimLogLevel := "warning" }

/-! ## Channel command factory -/

/-- The interface `msp.SigningIdentity`, an identity handed out by the package
`common`. -/
structure SigningIdentity where
  id : String
deriving DecidableEq, Repr

/-- The interface `pb.EndorserClient`. -/
structure EndorserClient where
  id : String
deriving DecidableEq, Repr

/-- The interface `common.BroadcastClient`. -/
structure BroadcastClient where
  id : String
deriving DecidableEq, Repr

/-- The interface `deliverClientIntf`. -/
structure DeliverClient where
  id : String
deriving DecidableEq, Repr

/-- The type `BroadcastClientFactory`: `func() (common.BroadcastClient, error)`; the
result is the returned pair, a nil value or a nil error being `none`. -/
abbrev BroadcastClientFactory := Unit → Option BroadcastClient × Option String

/-- The struct `ChannelCmdFactory`; a nil field is `none`. -/
structure ChannelCmdFactory where
  EndorserClient : Option EndorserClient
  Signer : Option SigningIdentity
  BroadcastClient : Option BroadcastClient
  DeliverClient : Option DeliverClient
  BroadcastFactory : Option BroadcastClientFactory

/-- What `InitCmdFactory` reads from outside its file: the function variables and
the variable `OrderingEndpoint` of the package `common`, the constant
`common.UndefinedParamValue`, and the flag variable `channelID` of the package.  A
function that returns `(value, error)` gives the pair of the value and the message
of the error, each of them `none` when it is nil; nothing keeps a function from
returning a nil value with a nil error. -/
structure Globals where
  GetDefaultSignerFnc : Option SigningIdentity × Option String
  GetBroadcastClientFnc : Option BroadcastClient × Option String
  GetEndorserClientFnc : String → String → Option EndorserClient × Option String
  NewDeliverClientForPeer : String → Option DeliverClient × Option String
  NewDeliverClientForOrderer : String → Option DeliverClient × Option String
  OrderingEndpoint : String
  UndefinedParamValue : String
  channelID : String

/-- The errors that `InitCmdFactory` returns, one for each `return nil, ...` of
the function, with what the error is made from. -/
inductive InitError where
  | singleDeliverSource
  | defaultSigner (cause : String)
  | endorserClient (cause : String)
  | peerDeliverClient (cause : String)
  | orderingEndpoint (endpoint : String)
  | ordererDeliverClient (cause : String)
deriving DecidableEq, Repr

/-- The message of an error of `InitCmdFactory`: `errors.New` and `errors.Errorf`
give their text, `errors.WithMessage(err, msg)` gives `msg: ` before the message of
`err`, and the error of the orderer deliver client is returned as it is. -/
def InitError.Error : InitError → String
  | InitError.singleDeliverSource =>
    "ERROR - only a single deliver source is currently supported"
  | InitError.defaultSigner cause => "error getting default signer" ++ ": " ++ cause
  | InitError.endorserClient cause =>
    "error getting endorser client for channel" ++ ": " ++ cause
  | InitError.peerDeliverClient cause =>
    "error getting deliver client for channel" ++ ": " ++ cause
  | InitError.orderingEndpoint endpoint =>
    "ordering service endpoint " ++ endpoint ++ " is not valid or missing"
  | InitError.ordererDeliverClient cause => cause

/-- A call that `InitCmdFactory` makes to the package `common`. -/
inductive Request where
  | GetDefaultSigner
  | GetEndorserClient (address tlsRootCertFile : String)
  | NewDeliverClientForPeer (channelID : String)
  | NewDeliverClientForOrderer (channelID : String)
deriving DecidableEq, Repr

/-- The block `if isEndorserRequired` of `InitCmdFactory`: the factory or the error
it leaves, and the calls it makes.  Only the error is tested; the value is stored
as it is. -/
def endorserStage (g : Globals) (isEndorserRequired : Bool) (cf : ChannelCmdFactory) :
    Except InitError ChannelCmdFactory × List Request :=
  if isEndorserRequired then
    match (g.GetEndorserClientFnc g.UndefinedParamValue g.UndefinedParamValue).2 with
    | some err =>
      (Except.error (InitError.endorserClient err),
        [Request.GetEndorserClient g.UndefinedParamValue g.UndefinedParamValue])
    | none =>
      (Except.ok { cf with
          EndorserClient :=
            (g.GetEndorserClientFnc g.UndefinedParamValue g.UndefinedParamValue).1 },
        [Request.GetEndorserClient g.UndefinedParamValue g.UndefinedParamValue])
  else
    (Except.ok cf, [])

/-- The block `if isPeerDeliverRequired` of `InitCmdFactory`. -/
def peerDeliverStage (g : Globals) (isPeerDeliverRequired : Bool) (cf : ChannelCmdFactory) :
    Except InitError ChannelCmdFactory × List Request :=
  if isPeerDeliverRequired then
    match (g.NewDeliverClientForPeer g.channelID).2 with
    | some err =>
      (Except.error (InitError.peerDeliverClient err),
        [Request.NewDeliverClientForPeer g.channelID])
    | none =>
      (Except.ok { cf with DeliverClient := (g.NewDeliverClientForPeer g.channelID).1 },
        [Request.NewDeliverClientForPeer g.channelID])
  else
    (Except.ok cf, [])

/-- The block `if isOrdererRequired` of `InitCmdFactory`. -/
def ordererStage (g : Globals) (isOrdererRequired : Bool) (cf : ChannelCmdFactory) :
    Except InitError ChannelCmdFactory × List Request :=
  if isOrdererRequired then
    if (strings.Split g.OrderingEndpoint ':').length ≠ 2 then
      (Except.error (InitError.orderingEndpoint g.OrderingEndpoint), [])
    else
      match (g.NewDeliverClientForOrderer g.channelID).2 with
      | some err =>
        (Except.error (InitError.ordererDeliverClient err),
          [Request.NewDeliverClientForOrderer g.channelID])
      | none =>
        (Except.ok { cf with DeliverClient := (g.NewDeliverClientForOrderer g.channelID).1 },
          [Request.NewDeliverClientForOrderer g.channelID])
  else
    (Except.ok cf, [])

/-- The function `InitCmdFactory`.  The value is the returned pair
`(*ChannelCmdFactory, error)` (nil is `none`) and the calls made to the package
`common`, in order.  After each call only the error is tested, and the value that
came with a nil error is stored in the factory as it is.  The log line at the end
is left out. -/
def InitCmdFactory (g : Globals)
    (isEndorserRequired isPeerDeliverRequired isOrdererRequired : Bool) :
    (Option ChannelCmdFactory × Option InitError) × List Request :=
  if isPeerDeliverRequired && isOrdererRequired then
    ((none, some InitError.singleDeliverSource), [])
  else
    match g.GetDefaultSignerFnc.2 with
    | some err =>
      ((none, some (InitError.defaultSigner err)), [Request.GetDefaultSigner])
    | none =>
      match endorserStage g isEndorserRequired
          { EndorserClient := none, Signer := g.GetDefaultSignerFnc.1,
            BroadcastClient := none,
            DeliverClient := none,
            BroadcastFactory := some (fun _ => g.GetBroadcastClientFnc) } with
      | (Except.error e1, l1) => ((none, some e1), Request.GetDefaultSigner :: l1)
      | (Except.ok cf1, l1) =>
        match peerDeliverStage g isPeerDeliverRequired cf1 with
        | (Except.error e2, l2) => ((none, some e2), Request.GetDefaultSigner :: (l1 ++ l2))
        | (Except.ok cf2, l2) =>
          match ordererStage g isOrdererRequired cf2 with
          | (Except.error e3, l3) =>
            ((none, some e3), Request.GetDefaultSigner :: (l1 ++ l2 ++ l3))
          | (Except.ok cf3, l3) =>
            ((some cf3, none), Request.GetDefaultSigner :: (l1 ++ l2 ++ l3))

/-- A setting of the package `common` in which every client is there and the
ordering endpoint is `localhost:7050`, for the channel `mychannel`. -/
def exampleGlobals : Globals :=
  { GetDefaultSignerFnc := (some ⟨"admin"⟩, none)
    GetBroadcastClientFnc := (some ⟨"broadcast"⟩, none)
    GetEndorserClientFnc := fun _ _ => (some ⟨"endorser"⟩, none)
    NewDeliverClientForPeer := fun ch => (some ⟨"peer deliver " ++ ch⟩, none)
    NewDeliverClientForOrderer := fun ch => (some ⟨"orderer deliver " ++ ch⟩, none)
    OrderingEndpoint := "localhost:7050"
    UndefinedParamValue := ""
    channelID := "mychannel" }

/-! ## Go maps -/

/-- The value that a Go map holds for a key.  A map is `none` when it is the nil
map, and otherwise the list of its entries, one for each key; reading the nil map
finds nothing. -/
def mapLookup {κ ν : Type} [DecidableEq κ] (m : Option (List (κ × ν))) (k : κ) : Option ν :=
  match m with
  | none => none
  | some entries => (entries.find? (fun e => decide (e.1 = k))).map (fun e => e.2)

/-- The entries of a map after the assignment `m[k] = v`. -/
def mapStore {κ ν : Type} [DecidableEq κ] (entries : List (κ × ν)) (k : κ) (v : ν) :
    List (κ × ν) :=
  (k, v) :: entries.filter (fun e => !decide (e.1 = k))

/-! ## The fake Runtime -/

namespace mock

/-- The three arguments of a call of `Start` or `Stop`: the context, the chaincode
context and the deployment spec (the two pointers can be nil). -/
structure CallArgs where
  ctxt : Option Nat
  cccid : Option CCContext
  cds : Option ChaincodeDeploymentSpec
deriving DecidableEq, Repr

/-- The struct `Runtime` of the package `mock`, without its mutexes.  A stub is a
function of the three arguments that gives the returned error (nil is `none`); the
maps `startReturnsOnCall` and `stopReturnsOnCall` have keys of type `int`. -/
structure Runtime where
  StartStub : Option (Option Nat → Option CCContext → Option ChaincodeDeploymentSpec →
    Option String)
  startArgsForCall : List CallArgs
  startReturns : Option String
  startReturnsOnCall : Option (List (Int × Option String))
  StopStub : Option (Option Nat → Option CCContext → Option ChaincodeDeploymentSpec →
    Option String)
  stopArgsForCall : List CallArgs
  stopReturns : Option String
  stopReturnsOnCall : Option (List (Int × Option String))
  invocations : Option (List (String × List CallArgs))

/-- The zero value `Runtime{}`. -/
def Runtime.zero : Runtime :=
  { StartStub := none, startArgsForCall := [], startReturns := none,
    startReturnsOnCall := none, StopStub := none, stopArgsForCall := [],
    stopReturns := none, stopReturnsOnCall := none, invocations := none }

namespace Runtime

/-- The method `recordInvocation`: the map is made if it is nil, the slice of the
key is made if it is nil, and the arguments are appended to it. -/
def recordInvocation (fake : Runtime) (key : String) (args : CallArgs) : Runtime :=
  { fake with
    invocations :=
      some (mapStore (fake.invocations.getD []) key
        (((mapLookup (some (fake.invocations.getD [])) key).getD []) ++ [args])) }

/-- The method `Start`: the returned error and the fake afterwards.  The per-call
return is read for the number of calls recorded so far, then the call is recorded;
the stub, if there is one, decides the result, then the per-call return, then the
default return. -/
def Start (fake : Runtime) (ctxt : Option Nat) (cccid : Option CCContext)
    (cds : Option ChaincodeDeploymentSpec) : Option String × Runtime :=
  ((match fake.StartStub with
    | some stub => stub ctxt cccid cds
    | none =>
      match mapLookup fake.startReturnsOnCall (fake.startArgsForCall.length : Int) with
      | some ret => ret
      | none => fake.startReturns),
   ({ fake with
        startArgsForCall := fake.startArgsForCall ++ [CallArgs.mk ctxt cccid cds]
      }).recordInvocation "Start" (CallArgs.mk ctxt cccid cds))

/-- The method `StartCallCount`. -/
def StartCallCount (fake : Runtime) : Int :=
  fake.startArgsForCall.length

/-- The method `StartArgsForCall`; `none` when the index expression panics. -/
def StartArgsForCall (fake : Runtime) (i : Int) : Option CallArgs :=
  if 0 ≤ i then fake.startArgsForCall[i.toNat]? else none

/-- The method `StartReturns`. -/
def StartReturns (fake : Runtime) (result1 : Option String) : Runtime :=
  { fake with StartStub := none, startReturns := result1 }

/-- The method `StartReturnsOnCall`: the map is made if it is nil. -/
def StartReturnsOnCall (fake : Runtime) (i : Int) (result1 : Option String) : Runtime :=
  { fake with
    StartStub := none,
    startReturnsOnCall := some (mapStore (fake.startReturnsOnCall.getD []) i result1) }

/-- The method `Stop`. -/
def Stop (fake : Runtime) (ctxt : Option Nat) (cccid : Option CCContext)
    (cds : Option ChaincodeDeploymentSpec) : Option String × Runtime :=
  ((match fake.StopStub with
    | some stub => stub ctxt cccid cds
    | none =>
      match mapLookup fake.stopReturnsOnCall (fake.stopArgsForCall.length : Int) with
      | some ret => ret
      | none => fake.stopReturns),
   ({ fake with
        stopArgsForCall := fake.stopArgsForCall ++ [CallArgs.mk ctxt cccid cds]
      }).recordInvocation "Stop" (CallArgs.mk ctxt cccid cds))

/-- The method `StopCallCount`. -/
def StopCallCount (fake : Runtime) : Int :=
  fake.stopArgsForCall.length

/-- The method `StopArgsForCall`; `none` when the index expression panics. -/
def StopArgsForCall (fake : Runtime) (i : Int) : Option CallArgs :=
  if 0 ≤ i then fake.stopArgsForCall[i.toNat]? else none

/-- The method `StopReturns`. -/
def StopReturns (fake : Runtime) (result1 : Option String) : Runtime :=
  { fake with StopStub := none, stopReturns := result1 }

/-- The method `StopReturnsOnCall`. -/
def StopReturnsOnCall (fake : Runtime) (i : Int) (result1 : Option String) : Runtime :=
  { fake with
    StopStub := none,
    stopReturnsOnCall := some (mapStore (fake.stopReturnsOnCall.getD []) i result1) }

end Runtime

/-- What a test does with a fake: a call of one of its methods, or an assignment to
one of the two exported stub fields. -/
inductive Op where
  | Start (args : CallArgs)
  | Stop (args : CallArgs)
  | StartReturns (result1 : Option String)
  | StartReturnsOnCall (i : Int) (result1 : Option String)
  | StopReturns (result1 : Option String)
  | StopReturnsOnCall (i : Int) (result1 : Option String)
  | SetStartStub (stub : Option (Option Nat → Option CCContext →
      Option ChaincodeDeploymentSpec → Option String))
  | SetStopStub (stub : Option (Option Nat → Option CCContext →
      Option ChaincodeDeploymentSpec → Option String))

/-- The fake after one operation. -/
def Runtime.apply (fake : Runtime) : Op → Runtime
  | Op.Start args => (fake.Start args.ctxt args.cccid args.cds).2
  | Op.Stop args => (fake.Stop args.ctxt args.cccid args.cds).2
  | Op.StartReturns result1 => fake.StartReturns result1
  | Op.StartReturnsOnCall i result1 => fake.StartReturnsOnCall i result1
  | Op.StopReturns result1 => fake.StopReturns result1
  | Op.StopReturnsOnCall i result1 => fake.StopReturnsOnCall i result1
  | Op.SetStartStub stub => { fake with StartStub := stub }
  | Op.SetStopStub stub => { fake with StopStub := stub }

/-- The arguments of the calls of `Start` in a sequence of operations, in order. -/
def startArgsOf (ops : List Op) : List CallArgs :=
  ops.filterMap (fun op =>
    match op with
    | Op.Start args => some args
    | _ => none)

/-- The arguments of the calls of `Stop` in a sequence of operations, in order. -/
def stopArgsOf (ops : List Op) : List CallArgs :=
  ops.filterMap (fun op =>
    match op with
    | Op.Stop args => some args
    | _ => none)

/-- Whether an operation is a call of `Start`. -/
def Op.isStart : Op → Bool
  | Op.Start _ => true
  | _ => false

/-- Whether an operation is a call of `Stop`. -/
def Op.isStop : Op → Bool
  | Op.Stop _ => true
  | _ => false

end mock

/-! ## The bounds invariant of the query iterator -/

/-- The predicate `0 <= current <= len(kvs)`. -/
def mockResultsIterator.Inv (mri : mockResultsIterator) : Prop :=
  0 ≤ mri.current ∧ mri.current ≤ mri.kvs.length

instance (mri : mockResultsIterator) : Decidable mri.Inv :=
  inferInstanceAs (Decidable (0 ≤ mri.current ∧ mri.current ≤ mri.kvs.length))

/-! ## The mock query simulator -/

/-- A value of the Go interface type `commonledger.ResultsIterator`.  `nil` is the
nil interface; `mock p` is an interface value that holds the pointer
`p : *mockResultsIterator` (the nil pointer `none` still makes a non-nil interface
value). -/
inductive ResultsIterator where
  | nil
  | mock (p : Option mockResultsIterator)
deriving DecidableEq, Repr

/-- The field `resultsIter` of the struct `mockExecQuerySimulator`, a
`map[string]map[string]*mockResultsIterator`: the nil map is `none`, and so are a
nil map stored for a namespace and a nil pointer stored for a query. -/
structure mockExecQuerySimulator where
  resultsIter : Option (List (String × Option (List (String × Option mockResultsIterator))))

namespace mockExecQuerySimulator

/-- The method `commonQuery`: the returned pair `(ResultsIterator, error)` and the
lines printed on the standard output.  Reading a map at a key that it does not hold
gives the zero value, which is nil for a map and for a pointer. -/
def commonQuery (meqe : mockExecQuerySimulator) (namespace_ query : String) :
    (ResultsIterator × Option String) × List String :=
  match meqe.resultsIter with
  | none => ((ResultsIterator.nil, some "query executor not initialized"), [])
  | some table =>
    match (mapLookup (some table) namespace_).join with
    | none =>
      ((ResultsIterator.nil,
        some ("namespace " ++ namespace_ ++ " not found for " ++ query)), [])
    | some nsiter =>
      match (mapLookup (some nsiter) query).join with
      | none =>
        ((ResultsIterator.mock none, none), ["iter not found for query " ++ query ++ "\n"])
      | some iter => ((ResultsIterator.mock (some iter), none), [])

/-- The method `GetHistoryForKey`. -/
def GetHistoryForKey (meqe : mockExecQuerySimulator) (namespace_ query : String) :
    (ResultsIterator × Option String) × List String :=
  meqe.commonQuery namespace_ query

/-- The method `ExecuteQuery`. -/
def ExecuteQuery (meqe : mockExecQuerySimulator) (namespace_ query : String) :
    (ResultsIterator × Option String) × List String :=
  meqe.commonQuery namespace_ query

end mockExecQuerySimulator

/-! ## The block counter of the tests -/

/-- How a test helper ends when it does not return: `t.Fatalf` with a message, or a
panic. -/
inductive Abort where
  | fatal (msg : String)
  | panic
deriving DecidableEq, Repr

/-- The loop of `initMockPeer` over the channel identifiers, on the entries of
`globalBlockNum`: the error that ended it (`none` when it ran to its end) and the
entries it leaves.  `MockCreateChain` gives the error of creating a channel. -/
def initMockPeerLoop (MockCreateChain : String → Option String) :
    List String → List (String × Nat) → Option String × List (String × Nat)
  | [], entries => (none, entries)
  | id :: ids, entries =>
    match MockCreateChain id with
    | some err => (some err, entries)
    | none => initMockPeerLoop MockCreateChain ids (mapStore entries id 1)

/-- The channels that the loop of `initMockPeer` creates: those of its list that
come before the first one for which `MockCreateChain` fails. -/
def createdChannels (MockCreateChain : String → Option String) (chainIDs : List String) :
    List String :=
  chainIDs.takeWhile (fun id => (MockCreateChain id).isNone)

/-- The function `initMockPeer`, as far as the package variable `globalBlockNum` (a
`map[string]uint64`) goes: the returned error and the value of `globalBlockNum`
afterwards, a new map filled by the loop. -/
def initMockPeer (MockCreateChain : String → Option String) (chainIDs : List String) :
    Option String × Option (List (String × Nat)) :=
  ((initMockPeerLoop MockCreateChain chainIDs []).1,
   some (initMockPeerLoop MockCreateChain chainIDs []).2)

/-- The function `endTx` on the package variable `globalBlockNum`.
`endTxSimulationCIS` gives the error of ending the simulation with the block number
read for the channel (a missing key reads as 0); with an error the test ends in
`t.Fatalf`.  Otherwise the entry of the channel is assigned its value plus one, in
`uint64` arithmetic; assigning to an entry of the nil map panics. -/
def endTx (globalBlockNum : Option (List (String × Nat))) (ChainID : String)
    (endTxSimulationCIS : Nat → Option String) :
    Except Abort (Option (List (String × Nat))) :=
  match endTxSimulationCIS ((mapLookup globalBlockNum ChainID).getD 0) with
  | some err => Except.error (Abort.fatal ("simulation failed with error " ++ err))
  | none =>
    match globalBlockNum with
    | none => Except.error Abort.panic
    | some entries =>
      Except.ok (some (mapStore entries ChainID
        ((((mapLookup (some entries) ChainID).getD 0) + 1) % 2 ^ 64)))

/-- Calls of `endTx` made one after the other, each with its channel and its
simulation; the first call that does not return ends the sequence. -/
def endTxAll : Option (List (String × Nat)) → List (String × (Nat → Option String)) →
    Except Abort (Option (List (String × Nat)))
  | globalBlockNum, [] => Except.ok globalBlockNum
  | globalBlockNum, c :: cs =>
    match endTx globalBlockNum c.1 c.2 with
    | Except.ok globalBlockNum' => endTxAll globalBlockNum' cs
    | Except.error a => Except.error a

/-! ## The message `VersionFieldProto` -/

/-- The struct `VersionFieldProto`.  A `[]byte` is `none` when it is the nil slice;
`XXX_sizecache` is an `int32`. -/
structure VersionFieldProto where
  VersionBytes : Option (List Nat)
  Metadata : Option (List Nat)
  XXX_NoUnkeyedLiteral : Unit
  XXX_unrecognized : Option (List Nat)
  XXX_sizecache : Int
deriving DecidableEq, Repr

namespace VersionFieldProto

/-- The zero value `VersionFieldProto{}`. -/
def zero : VersionFieldProto :=
  { VersionBytes := none, Metadata := none, XXX_NoUnkeyedLiteral := (),
    XXX_unrecognized := none, XXX_sizecache := 0 }

/-- The method `Reset` on the pointer `m` (`none` is the nil pointer): the struct
that `m` points to afterwards.  The result is `none` when the assignment `*m = ...`
panics, which it does for the nil pointer. -/
def Reset (m : Option VersionFieldProto) : Option VersionFieldProto :=
  match m with
  | none => none
  | some _ => some zero

/-- The method `GetVersionBytes` on the pointer `m`. -/
def GetVersionBytes (m : Option VersionFieldProto) : Option (List Nat) :=
  match m with
  | some v => v.VersionBytes
  | none => none

/-- The method `GetMetadata` on the pointer `m`. -/
def GetMetadata (m : Option VersionFieldProto) : Option (List Nat) :=
  match m with
  | some v => v.Metadata
  | none => none

end VersionFieldProto

/-! ## The query iterator: `Next` and `Close` -/

namespace mockResultsIterator

theorem Next_at_end (mri : mockResultsIterator) (h : mri.current = mri.kvs.length) :
    mri.Next = some ((QueryResult.nil, none), mri) := by
  simp [Next, h]

theorem Next_in_range (mri : mockResultsIterator) (h0 : 0 ≤ mri.current)
    (h1 : mri.current < mri.kvs.length) :
    ∃ p, mri.kvs[mri.current.toNat]? = some p ∧
      mri.Next = some ((QueryResult.kv p, none), { mri with current := mri.current + 1 }) := by
  have hlt : mri.current.toNat < mri.kvs.length := by omega
  refine ⟨mri.kvs[mri.current.toNat], List.getElem?_eq_getElem hlt, ?_⟩
  have hne : mri.current ≠ mri.kvs.length := by omega
  simp [Next, hne, h0, List.getElem?_eq_getElem hlt]

theorem Next_negative (mri : mockResultsIterator) (h : mri.current < 0) : mri.Next = none := by
  have hne : mri.current ≠ mri.kvs.length := by omega
  have h0 : ¬ 0 ≤ mri.current := by omega
  simp [Next, hne, h0]

theorem Close_at_end (mri : mockResultsIterator) (h : mri.current = mri.kvs.length) :
    mri.Close = mri := by
  cases mri with
  | mk c l =>
    simp only [Close]
    simp only at h
    rw [h]

end mockResultsIterator

/-- What a completed call does, from a position that is not past the end. -/
theorem call_spec (mri mri' : mockResultsIterator) (c : Call) (o : Obs)
    (h : mri.current ≤ mri.kvs.length) (hc : call mri c = some (o, mri')) :
    o.call = c ∧ o.before = mri.current ∧ o.after = mri'.current ∧
    mri.current ≤ mri'.current ∧ mri'.current ≤ mri'.kvs.length ∧ mri'.kvs = mri.kvs ∧
    (c = Call.close → o.result = none) ∧
    (c = Call.next → 0 ≤ mri.current ∧
      ((mri.current = mri.kvs.length ∧ o.result = some (QueryResult.nil, none) ∧ mri' = mri) ∨
       (mri.current < mri.kvs.length ∧ mri'.current = mri.current + 1 ∧
          ∃ p, mri.kvs[mri.current.toNat]? = some p ∧
            o.result = some (QueryResult.kv p, none)))) := by
  cases c with
  | close =>
    simp only [call, Option.some.injEq, Prod.mk.injEq] at hc
    obtain ⟨ho, hm⟩ := hc
    subst ho
    subst hm
    simp [mockResultsIterator.Close, h]
  | next =>
    by_cases hend : mri.current = mri.kvs.length
    · rw [call, mockResultsIterator.Next_at_end mri hend] at hc
      simp only [Option.some.injEq, Prod.mk.injEq] at hc
      obtain ⟨ho, hm⟩ := hc
      subst ho
      subst hm
      simp [hend]
    · by_cases hneg : mri.current < 0
      · rw [call, mockResultsIterator.Next_negative mri hneg] at hc
        simp at hc
      · have h0 : 0 ≤ mri.current := by omega
        have h1 : mri.current < mri.kvs.length := by omega
        obtain ⟨p, hp, hn⟩ := mockResultsIterator.Next_in_range mri h0 h1
        rw [call, hn] at hc
        simp only [Option.some.injEq, Prod.mk.injEq] at hc
        obtain ⟨ho, hm⟩ := hc
        subst ho
        subst hm
        refine ⟨rfl, rfl, rfl, ?_, ?_, rfl, ?_, ?_⟩
        · simp
        · simp only; omega
        · simp
        · intro _
          exact ⟨h0, Or.inr ⟨h1, rfl, p, hp, rfl⟩⟩

/-- From a position inside the results every call completes. -/
theorem call_total (mri : mockResultsIterator) (c : Call) (h0 : 0 ≤ mri.current)
    (h : mri.current ≤ mri.kvs.length) : ∃ o mri', call mri c = some (o, mri') := by
  cases c with
  | close => exact ⟨_, _, rfl⟩
  | next =>
    by_cases hend : mri.current = mri.kvs.length
    · exact ⟨_, _, by rw [call, mockResultsIterator.Next_at_end mri hend]⟩
    · have h1 : mri.current < mri.kvs.length := by omega
      obtain ⟨p, _, hn⟩ := mockResultsIterator.Next_in_range mri h0 h1
      exact ⟨_, _, by rw [call, hn]⟩

theorem run_nil (mri : mockResultsIterator) : run mri [] = ([], mri) := rfl

theorem run_cons_some (mri mri' : mockResultsIterator) (c : Call) (cs : List Call) (o : Obs)
    (hc : call mri c = some (o, mri')) :
    run mri (c :: cs) = (o :: (run mri' cs).1, (run mri' cs).2) := by
  simp [run, hc]

theorem run_cons_none (mri : mockResultsIterator) (c : Call) (cs : List Call)
    (hc : call mri c = none) : run mri (c :: cs) = ([], mri) := by
  simp [run, hc]

/-- From a position inside the results, no call of a sequence panics. -/
theorem run_complete (cs : List Call) :
    ∀ mri : mockResultsIterator, 0 ≤ mri.current → mri.current ≤ mri.kvs.length →
      (run mri cs).1.length = cs.length := by
  induction cs with
  | nil => intro mri _ _; rfl
  | cons c cs ih =>
    intro mri h0 h
    obtain ⟨o, mri', hc⟩ := call_total mri c h0 h
    obtain ⟨_, _, _, h4, h5, _, _, _⟩ := call_spec mri mri' c o h hc
    rw [run_cons_some mri mri' c cs o hc]
    simp [ih mri' (by omega) h5]

/-- At the end of the results every call leaves the iterator as it is, and every
`Next` returns the nil result with a nil error. -/
theorem run_at_end (cs : List Call) :
    ∀ mri : mockResultsIterator, mri.current = mri.kvs.length →
      (run mri cs).1.length = cs.length ∧ (run mri cs).2 = mri ∧
      ∀ o ∈ (run mri cs).1, o.before = mri.current ∧ o.after = mri.current ∧
        (o.call = Call.next → o.result = some (QueryResult.nil, none)) ∧
        (o.call = Call.close → o.result = none) := by
  induction cs with
  | nil => intro mri _; simp [run_nil]
  | cons c cs ih =>
    intro mri hend
    have h0 : 0 ≤ mri.current := by omega
    have h : mri.current ≤ mri.kvs.length := by omega
    obtain ⟨o, mri', hc⟩ := call_total mri c h0 h
    obtain ⟨h1, h2, h3, _, _, _, h7, h8⟩ := call_spec mri mri' c o h hc
    have hm : mri' = mri := by
      cases c with
      | close =>
        simp only [call, Option.some.injEq, Prod.mk.injEq] at hc
        rw [← hc.2]
        exact mockResultsIterator.Close_at_end mri hend
      | next =>
        rcases (h8 rfl).2 with ⟨_, _, hm⟩ | ⟨hlt, _⟩
        · exact hm
        · omega
    subst hm
    obtain ⟨ih1, ih2, ih3⟩ := ih mri' hend
    rw [run_cons_some mri' mri' c cs o hc]
    refine ⟨by simp [ih1], ih2, ?_⟩
    intro o' ho'
    rcases List.mem_cons.mp ho' with rfl | hmem
    · refine ⟨h2, h3, ?_, ?_⟩
      · intro hcall
        have hcn : c = Call.next := by rw [← h1]; exact hcall
        rcases (h8 hcn).2 with ⟨_, hr, _⟩ | ⟨hlt, _⟩
        · exact hr
        · omega
      · intro hcall
        exact h7 (by rw [← h1]; exact hcall)
    · exact ih3 o' hmem

/-- Along a run that starts at or before the end, no call starts before the
starting position, no call moves the position back, and no position is past
the end of the results. -/
theorem run_bounds (cs : List Call) :
    ∀ mri : mockResultsIterator, mri.current ≤ mri.kvs.length →
      ∀ o ∈ (run mri cs).1, mri.current ≤ o.before ∧ o.before ≤ o.after ∧
        o.after ≤ mri.kvs.length := by
  induction cs with
  | nil => intro mri _ o ho; simp [run_nil] at ho
  | cons c cs ih =>
    intro mri h o ho
    cases hc : call mri c with
    | none => rw [run_cons_none mri c cs hc] at ho; simp at ho
    | some r =>
      obtain ⟨o1, mri'⟩ := r
      obtain ⟨_, h2, h3, h4, h5, h6, _, _⟩ := call_spec mri mri' c o1 h hc
      rw [run_cons_some mri mri' c cs o1 hc] at ho
      rcases List.mem_cons.mp ho with rfl | hmem
      · refine ⟨by omega, by omega, ?_⟩
        rw [h3, ← h6]; exact h5
      · obtain ⟨a, b, d⟩ := ih mri' h5 o hmem
        refine ⟨by omega, b, ?_⟩
        rw [← h6]; exact d

/-- From position `c`, with `n` items left, `n + 1` calls of `Next` return the
remaining items in their stored order and then the nil result. -/
theorem run_next_from (n : Nat) :
    ∀ (c : Nat) (kvs : List (Option KV)), c + n = kvs.length →
      nextResults (run ⟨(c : Int), kvs⟩ (List.replicate (n + 1) Call.next)).1 =
        (kvs.drop c).map (fun p => (QueryResult.kv p, none)) ++ [(QueryResult.nil, none)] := by
  induction n with
  | zero =>
    intro c kvs hc
    have hend : (⟨(c : Int), kvs⟩ : mockResultsIterator).current
        = (⟨(c : Int), kvs⟩ : mockResultsIterator).kvs.length := by
      simp only; omega
    have hcall : call ⟨(c : Int), kvs⟩ Call.next
        = some (⟨Call.next, c, c, some (QueryResult.nil, none)⟩, ⟨(c : Int), kvs⟩) := by
      rw [call, mockResultsIterator.Next_at_end _ hend]
    have hdrop : kvs.drop c = [] := List.drop_eq_nil_of_le (by omega)
    simp only [zero_add, List.replicate_one]
    rw [run_cons_some _ _ _ _ _ hcall, run_nil, hdrop]
    simp [nextResults]
  | succ n ih =>
    intro c kvs hc
    have hlt : c < kvs.length := by omega
    obtain ⟨p, hp, hn⟩ := mockResultsIterator.Next_in_range ⟨(c : Int), kvs⟩
      (by simp) (by simp only; omega)
    simp only [Int.toNat_ofNat] at hp
    have hcall : call ⟨(c : Int), kvs⟩ Call.next
        = some (⟨Call.next, c, (c : Int) + 1, some (QueryResult.kv p, none)⟩,
            ⟨((c + 1 : Nat) : Int), kvs⟩) := by
      rw [call, hn]
      simp
    have hdrop : kvs.drop c = p :: kvs.drop (c + 1) := by
      rw [List.drop_eq_getElem_cons hlt]
      rw [List.getElem?_eq_getElem hlt] at hp
      simp only [Option.some.injEq] at hp
      rw [hp]
    rw [List.replicate_succ, run_cons_some _ _ _ _ _ hcall, hdrop]
    have := ih (c + 1) kvs (by omega)
    simp only [nextResults, List.filterMap_cons, List.map_cons, List.cons_append] at this ⊢
    rw [this]

/-- Membership in `returnedIndices`: the index is the starting position of a call
of the run. -/
theorem mem_returnedIndices (os : List Obs) (x : Int) (hx : x ∈ returnedIndices os) :
    ∃ o ∈ os, o.before = x := by
  simp only [returnedIndices, List.mem_filterMap] at hx
  obtain ⟨o, ho, hox⟩ := hx
  refine ⟨o, ho, ?_⟩
  split at hox
  · simpa using hox
  · simp at hox

/-- C1: an iterator that holds the `N` non-nil items `items` and stands at the
start (`current = 0`) answers `N + 1` calls of `Next` with exactly the `N` items in
their stored order, each with a nil error, and then with a nil result and a nil
error; none of the calls panics. -/
theorem C1_next_yields_items_then_nil (items : List KV) :
    nextResults (run ⟨0, items.map some⟩ (List.replicate (items.length + 1) Call.next)).1 =
      items.map (fun x => (QueryResult.kv (some x), none)) ++ [(QueryResult.nil, none)] := by
  have h := run_next_from items.length 0 (items.map some) (by simp)
  simp only [List.length_map, Nat.cast_zero, List.drop_zero, List.map_map] at h
  rw [h]
  rfl

/-- C2: from every state, so from every state with `current ≤ len(kvs)`, the call
of `Close` completes, `Close` on an exhausted iterator leaves the state as it is,
and a second `Close` changes nothing after the first. -/
theorem C2_close_safe (mri : mockResultsIterator) :
    (∃ o, call mri Call.close = some (o, mri.Close)) ∧
    (mri.current = mri.kvs.length → mri.Close = mri) ∧
    mri.Close.Close = mri.Close :=
  ⟨⟨_, rfl⟩, mockResultsIterator.Close_at_end mri, rfl⟩

/-- Witness of C2 on an exhausted iterator with two items. -/
theorem C2_close_safe_witness :
    (∃ o, call ⟨2, [some ⟨"ns", "a", [1]⟩, some ⟨"ns", "b", [2]⟩]⟩ Call.close =
        some (o, mockResultsIterator.Close ⟨2, [some ⟨"ns", "a", [1]⟩, some ⟨"ns", "b", [2]⟩]⟩)) ∧
    mockResultsIterator.Close ⟨2, [some ⟨"ns", "a", [1]⟩, some ⟨"ns", "b", [2]⟩]⟩ =
      ⟨2, [some ⟨"ns", "a", [1]⟩, some ⟨"ns", "b", [2]⟩]⟩ :=
  have h := C2_close_safe ⟨2, [some ⟨"ns", "a", [1]⟩, some ⟨"ns", "b", [2]⟩]⟩
  ⟨h.1, h.2.1 (by decide)⟩

/-- C3: after `Close`, from whatever state, every later call completes, every later
`Next` returns a nil result with a nil error (one such pair per `Next` call), and no
item is handed out again. -/
theorem C3_close_ends_iteration (mri : mockResultsIterator) (cs : List Call) :
    (run mri.Close cs).1.length = cs.length ∧
    nextResults (run mri.Close cs).1 =
      List.replicate (cs.count Call.next) (QueryResult.nil, none) ∧
    returnedIndices (run mri.Close cs).1 = [] := by
  have hend : mri.Close.current = mri.Close.kvs.length := rfl
  generalize mri.Close = s at hend
  induction cs with
  | nil => simp [run_nil, nextResults, returnedIndices]
  | cons c cs ih =>
    obtain ⟨ih1, ih2, ih3⟩ := ih
    cases c with
    | next =>
      have hcall : call s Call.next
          = some (⟨Call.next, s.current, s.current, some (QueryResult.nil, none)⟩, s) := by
        rw [call, mockResultsIterator.Next_at_end s hend]
      rw [run_cons_some s s _ cs _ hcall]
      refine ⟨by simp [ih1], ?_, ?_⟩
      · simp only [nextResults, List.filterMap_cons] at ih2 ⊢
        rw [ih2, List.count_cons_self, List.replicate_succ]
      · simp only [returnedIndices, List.filterMap_cons] at ih3 ⊢
        exact ih3
    | close =>
      have hcall : call s Call.close
          = some (⟨Call.close, s.current, s.Close.current, none⟩, s) := by
        rw [call, mockResultsIterator.Close_at_end s hend]
      rw [run_cons_some s s _ cs _ hcall]
      refine ⟨by simp [ih1], ?_, ?_⟩
      · simp only [nextResults, List.filterMap_cons] at ih2 ⊢
        rw [ih2, List.count_cons_of_ne (by decide)]
      · simp only [returnedIndices, List.filterMap_cons] at ih3 ⊢
        exact ih3

/-- C4, as stated, fails: at the position `-1`, which is `≤ len(kvs)`, the index
expression of `Next` panics, so `Next` returns no error value at all. -/
theorem C4_counterexample :
    (mockResultsIterator.mk (-1) [some ⟨"ns", "a", [1]⟩]).current ≤
        ((mockResultsIterator.mk (-1) [some ⟨"ns", "a", [1]⟩]).kvs.length : Int) ∧
    (mockResultsIterator.mk (-1) [some ⟨"ns", "a", [1]⟩]).Next = none := by
  decide

/-- C4 (amended): from every state with `0 ≤ current ≤ len(kvs)`, `Next` returns a
nil error, and its result is nil exactly when the results are exhausted. -/
theorem C4_next_error_nil (mri : mockResultsIterator) (h0 : 0 ≤ mri.current)
    (h : mri.current ≤ mri.kvs.length) :
    ∃ r mri', mri.Next = some ((r, none), mri') ∧
      (r = QueryResult.nil ↔ mri.current = mri.kvs.length) := by
  by_cases hend : mri.current = mri.kvs.length
  · exact ⟨QueryResult.nil, mri, mockResultsIterator.Next_at_end mri hend, by simp [hend]⟩
  · obtain ⟨p, _, hn⟩ := mockResultsIterator.Next_in_range mri h0 (by omega)
    exact ⟨QueryResult.kv p, _, hn, by simp [hend]⟩

/-- Witness of C4 (amended) on an iterator with one item left. -/
theorem C4_next_error_nil_witness :
    ∃ r mri', (mockResultsIterator.mk 1 [some ⟨"ns", "a", [1]⟩, some ⟨"ns", "b", [2]⟩]).Next =
        some ((r, none), mri') ∧
      (r = QueryResult.nil ↔
        (mockResultsIterator.mk 1 [some ⟨"ns", "a", [1]⟩, some ⟨"ns", "b", [2]⟩]).current =
          ((mockResultsIterator.mk 1 [some ⟨"ns", "a", [1]⟩, some ⟨"ns", "b", [2]⟩]).kvs.length
            : Int)) :=
  C4_next_error_nil ⟨1, [some ⟨"ns", "a", [1]⟩, some ⟨"ns", "b", [2]⟩]⟩ (by decide) (by decide)

/-- Over every finite sequence of `Next` and `Close` calls on an iterator with
`current ≤ len(kvs)`, the positions gone through never decrease, the indices of the
items handed out increase strictly (so no item is handed out twice), and once a
`Next` has returned the nil result every later `Next` returns the nil result with a
nil error; when also `0 ≤ current`, no call of the sequence panics. -/
theorem run_forward_only (mri : mockResultsIterator) (h : mri.current ≤ mri.kvs.length)
    (cs : List Call) :
    (positions mri (run mri cs).1).Pairwise (· ≤ ·) ∧
    (returnedIndices (run mri cs).1).Pairwise (· < ·) ∧
    (returnedIndices (run mri cs).1).Nodup ∧
    (nextResults (run mri cs).1).Pairwise
      (fun a b => a.1 = QueryResult.nil → b = (QueryResult.nil, none)) ∧
    (0 ≤ mri.current → (run mri cs).1.length = cs.length) := by
  have key : ∀ (cs : List Call) (mri : mockResultsIterator), mri.current ≤ mri.kvs.length →
      (positions mri (run mri cs).1).Pairwise (· ≤ ·) ∧
      (returnedIndices (run mri cs).1).Pairwise (· < ·) ∧
      (nextResults (run mri cs).1).Pairwise
        (fun a b => a.1 = QueryResult.nil → b = (QueryResult.nil, none)) := by
    intro cs
    induction cs with
    | nil =>
      intro mri _
      simp [run_nil, positions, returnedIndices, nextResults]
    | cons c cs ih =>
      intro mri h
      cases hc : call mri c with
      | none =>
        rw [run_cons_none mri c cs hc]
        simp [positions, returnedIndices, nextResults]
      | some r =>
        obtain ⟨o, mri'⟩ := r
        obtain ⟨h1, h2, h3, h4, h5, h6, h7, h8⟩ := call_spec mri mri' c o h hc
        obtain ⟨ihp, ihr, ihn⟩ := ih mri' h5
        have hb := run_bounds cs mri' h5
        rw [run_cons_some mri mri' c cs o hc]
        refine ⟨?_, ?_, ?_⟩
        · have hpos : positions mri (o :: (run mri' cs).1)
              = mri.current :: positions mri' (run mri' cs).1 := by
            simp [positions, h3]
          rw [hpos, List.pairwise_cons]
          refine ⟨?_, ihp⟩
          intro x hx
          simp only [positions, List.mem_cons, List.mem_map] at hx
          rcases hx with rfl | ⟨o', ho', rfl⟩
          · exact h4
          · have := hb o' ho'
            omega
        · simp only [returnedIndices, List.filterMap_cons] at ihr ⊢
          split
          · exact ihr
          · rename_i x hx
            rw [List.pairwise_cons]
            refine ⟨?_, ihr⟩
            intro y hy
            obtain ⟨o', ho', hy'⟩ := mem_returnedIndices _ y hy
            have hb' := hb o' ho'
            split at hx
            · rename_i p e hres
              simp only [Option.some.injEq] at hx
              cases c with
              | close => have := h7 rfl; rw [this] at hres; simp at hres
              | next =>
                rcases (h8 rfl).2 with ⟨_, hr, _⟩ | ⟨_, hs, _⟩
                · rw [hr] at hres; simp at hres
                · omega
            · simp at hx
        · simp only [nextResults, List.filterMap_cons] at ihn ⊢
          split
          · exact ihn
          · rename_i r hr
            rw [List.pairwise_cons]
            refine ⟨?_, ihn⟩
            intro b hb2 hnil
            cases c with
            | close => have := h7 rfl; rw [this] at hr; simp at hr
            | next =>
              rcases (h8 rfl).2 with ⟨hend, _, hm⟩ | ⟨_, _, p, _, hres⟩
              · subst hm
                obtain ⟨_, _, hall⟩ := run_at_end cs mri' hend
                simp only [List.mem_filterMap] at hb2
                obtain ⟨o', ho', hob⟩ := hb2
                obtain ⟨_, _, hnx, hcl⟩ := hall o' ho'
                cases hcall : o'.call with
                | next =>
                  have := hnx hcall
                  rw [this] at hob
                  simp only [Option.some.injEq] at hob
                  exact hob.symm
                | close =>
                  have := hcl hcall
                  rw [this] at hob
                  simp at hob
              · rw [hres] at hr
                simp only [Option.some.injEq] at hr
                rw [← hr] at hnil
                simp at hnil
  obtain ⟨k1, k2, k3⟩ := key cs mri h
  exact ⟨k1, k2, k2.imp (fun hab => ne_of_lt hab), k3, fun h0 => run_complete cs mri h0 h⟩

/-- C5: over every finite sequence of `Next` and `Close` calls on an iterator built
with its results (`current` is 0), all the calls complete, the positions gone
through never decrease, the indices of the items handed out increase strictly, so
that no item is handed out twice, and once a `Next` has returned the nil result
every later `Next` returns the nil result with a nil error.  The same holds from
every position within the bounds, which are the positions that the calls on a built
iterator reach. -/
theorem C5_forward_only (kvs : List (Option KV)) (mri : mockResultsIterator)
    (cs : List Call) :
    ((run ⟨0, kvs⟩ cs).1.length = cs.length ∧
      (positions ⟨0, kvs⟩ (run ⟨0, kvs⟩ cs).1).Pairwise (· ≤ ·) ∧
      (returnedIndices (run ⟨0, kvs⟩ cs).1).Pairwise (· < ·) ∧
      (returnedIndices (run ⟨0, kvs⟩ cs).1).Nodup ∧
      (nextResults (run ⟨0, kvs⟩ cs).1).Pairwise
        (fun a b => a.1 = QueryResult.nil → b = (QueryResult.nil, none))) ∧
    (mri.Inv →
      (run mri cs).1.length = cs.length ∧
      (positions mri (run mri cs).1).Pairwise (· ≤ ·) ∧
      (returnedIndices (run mri cs).1).Pairwise (· < ·) ∧
      (returnedIndices (run mri cs).1).Nodup ∧
      (nextResults (run mri cs).1).Pairwise
        (fun a b => a.1 = QueryResult.nil → b = (QueryResult.nil, none))) := by
  have hall : ∀ m : mockResultsIterator, m.Inv →
      (run m cs).1.length = cs.length ∧
      (positions m (run m cs).1).Pairwise (· ≤ ·) ∧
      (returnedIndices (run m cs).1).Pairwise (· < ·) ∧
      (returnedIndices (run m cs).1).Nodup ∧
      (nextResults (run m cs).1).Pairwise
        (fun a b => a.1 = QueryResult.nil → b = (QueryResult.nil, none)) := by
    intro m hm
    obtain ⟨h1, h2, h3, h4, h5⟩ := run_forward_only m hm.2 cs
    exact ⟨h5 hm.1, h1, h2, h3, h4⟩
  exact ⟨hall ⟨0, kvs⟩ ⟨le_refl _, by simp⟩, hall mri⟩

/-- Witness of C5: `Next`, `Close`, `Next` on an iterator at position 1 of two
items. -/
theorem C5_forward_only_witness :
    (run ⟨1, [some ⟨"ns", "a", [1]⟩, some ⟨"ns", "b", [2]⟩]⟩
        [Call.next, Call.close, Call.next]).1.length = 3 ∧
    (positions ⟨1, [some ⟨"ns", "a", [1]⟩, some ⟨"ns", "b", [2]⟩]⟩
      (run ⟨1, [some ⟨"ns", "a", [1]⟩, some ⟨"ns", "b", [2]⟩]⟩
        [Call.next, Call.close, Call.next]).1).Pairwise (· ≤ ·) :=
  have h := (C5_forward_only [] ⟨1, [some ⟨"ns", "a", [1]⟩, some ⟨"ns", "b", [2]⟩]⟩
    [Call.next, Call.close, Call.next]).2 (by decide)
  ⟨h.1, h.2.1⟩

/-! ## The transaction context registry -/

/-- A search through a filtered list finds the same element when the filter keeps
every element that the search accepts. -/
theorem find?_filter_of_imp {α : Type} (p q : α → Bool) (hpq : ∀ a, p a = true → q a = true) :
    ∀ l : List α, (l.filter q).find? p = l.find? p := by
  intro l
  induction l with
  | nil => rfl
  | cons a l ih =>
    cases hqa : q a with
    | true =>
      rw [List.filter_cons]
      simp only [hqa, ↓reduceIte, List.find?_cons, ih]
    | false =>
      have hpa : p a = false := by
        cases hp : p a with
        | false => rfl
        | true => rw [hpq a hp] at hqa; cases hqa
      rw [List.filter_cons]
      simp only [hqa, Bool.false_eq_true, ↓reduceIte, List.find?_cons, hpa, ih]

/-- The first element with a property is still the first with it after a filter
that keeps it. -/
theorem find?_filter_keeps {α : Type} (p q : α → Bool) (c : α) (hq : q c = true) :
    ∀ l : List α, l.find? p = some c → (l.filter q).find? p = some c := by
  intro l
  induction l with
  | nil => intro h; simp at h
  | cons a l ih =>
    intro h
    rw [List.find?_cons] at h
    cases hpa : p a with
    | true =>
      rw [hpa] at h
      simp only [Option.some.injEq] at h
      subst h
      rw [List.filter_cons, hq]
      simp only [↓reduceIte, List.find?_cons, hpa]
    | false =>
      rw [hpa] at h
      simp only at h
      rw [List.filter_cons]
      cases hqa : q a with
      | true =>
        simp only [↓reduceIte, List.find?_cons, hpa]
        exact ih h
      | false =>
        simp only [Bool.false_eq_true, ↓reduceIte]
        exact ih h

namespace TransactionContexts

theorem Get_eq_none_iff (r : TransactionContexts) (channelID txID : String) :
    r.Get channelID txID = none ↔ r.liveCount channelID txID = 0 := by
  simp only [Get, liveCount, List.find?_eq_none, List.countP_eq_zero]

theorem Get_some_key (r : TransactionContexts) (channelID txID : String)
    (c : TransactionContext) (h : r.Get channelID txID = some c) :
    c.channelID = channelID ∧ c.txID = txID := by
  have := List.find?_some h
  simpa using this

/-- `Create` fails with the duplicate error exactly on a key that has a context. -/
theorem Create_of_some (r : TransactionContexts) (ctx : Option Nat) (channelID txID : String)
    (sp p : Option (List Nat)) (c : TransactionContext) (h : r.Get channelID txID = some c) :
    r.Create ctx channelID txID sp p =
      Except.error (TxContextError.DuplicateTransactionError channelID txID) := by
  simp [Create, h]

theorem Create_of_none (r : TransactionContexts) (ctx : Option Nat) (channelID txID : String)
    (sp p : Option (List Nat)) (h : r.Get channelID txID = none) :
    r.Create ctx channelID txID sp p =
      Except.ok (⟨channelID, txID, sp, p, ctx, []⟩,
        ⟨⟨channelID, txID, sp, p, ctx, []⟩ :: r.contexts⟩) := by
  simp [Create, h]

/-- An operation other than the `Delete` of the key keeps the context of the key. -/
theorem Get_apply (r : TransactionContexts) (op : TxOp) (channelID txID : String)
    (c : TransactionContext) (h : r.Get channelID txID = some c)
    (hop : op ≠ TxOp.delete channelID txID) :
    (r.apply op).Get channelID txID = some c := by
  cases op with
  | create ctx ch tx sp p =>
    cases hg : r.Get ch tx with
    | some c' =>
      simp only [TransactionContexts.apply, Create_of_some r ctx ch tx sp p c' hg]
      exact h
    | none =>
      simp only [TransactionContexts.apply, Create_of_none r ctx ch tx sp p hg]
      have hne : ¬ (ch = channelID ∧ tx = txID) := by
        rintro ⟨rfl, rfl⟩
        rw [hg] at h
        simp at h
      simp only [Get, List.find?_cons, hne, decide_False]
      exact h
  | delete ch tx =>
    have hne : ¬ (channelID = ch ∧ txID = tx) := by
      rintro ⟨rfl, rfl⟩
      exact hop rfl
    obtain ⟨hc1, hc2⟩ := Get_some_key r channelID txID c h
    simp only [TransactionContexts.apply, Delete, Get] at h ⊢
    apply find?_filter_keeps _ _ c _ _ h
    rw [hc1, hc2]
    simp [hne]

theorem Get_foldl_apply (ops : List TxOp) (channelID txID : String) (c : TransactionContext)
    (hops : ∀ op ∈ ops, op ≠ TxOp.delete channelID txID) :
    ∀ r : TransactionContexts, r.Get channelID txID = some c →
      (ops.foldl TransactionContexts.apply r).Get channelID txID = some c := by
  induction ops with
  | nil => intro r h; exact h
  | cons op ops ih =>
    intro r h
    simp only [List.foldl_cons]
    exact ih (fun o ho => hops o (List.mem_cons_of_mem _ ho)) _
      (Get_apply r op channelID txID c h (hops op (List.mem_cons_self _ _)))

/-- No operation makes a second context for a key. -/
theorem liveCount_apply (r : TransactionContexts) (op : TxOp)
    (h : ∀ channelID txID, r.liveCount channelID txID ≤ 1) :
    ∀ channelID txID, (r.apply op).liveCount channelID txID ≤ 1 := by
  intro channelID txID
  cases op with
  | create ctx ch tx sp p =>
    cases hg : r.Get ch tx with
    | some c' =>
      simp only [TransactionContexts.apply, Create_of_some r ctx ch tx sp p c' hg]
      exact h channelID txID
    | none =>
      simp only [TransactionContexts.apply, Create_of_none r ctx ch tx sp p hg]
      by_cases hk : ch = channelID ∧ tx = txID
      · obtain ⟨rfl, rfl⟩ := hk
        have h0 := (Get_eq_none_iff r ch tx).mp hg
        simp only [liveCount] at h0 ⊢
        rw [List.countP_cons, h0]
        simp
      · have := h channelID txID
        simp only [liveCount] at this ⊢
        rw [List.countP_cons]
        simp only [hk, decide_False, Bool.false_eq_true, ↓reduceIte, add_zero]
        exact this
  | delete ch tx =>
    have := h channelID txID
    simp only [TransactionContexts.apply, Delete, liveCount] at this ⊢
    rw [List.countP_filter]
    refine le_trans ?_ this
    apply List.countP_mono_left
    intro x _ hx
    simp only [Bool.and_eq_true] at hx
    exact hx.1

theorem liveCount_foldl_apply (ops : List TxOp) :
    ∀ r : TransactionContexts, (∀ channelID txID, r.liveCount channelID txID ≤ 1) →
      ∀ channelID txID, (ops.foldl TransactionContexts.apply r).liveCount channelID txID ≤ 1 := by
  induction ops with
  | nil => intro r h; exact h
  | cons op ops ih =>
    intro r h
    simp only [List.foldl_cons]
    exact ih _ (liveCount_apply r op h)

end TransactionContexts

/-- C6: in every registry reached from a new one by `Create` and `Delete` calls,
no key `(channelID, txID)` has more than one context; and when the key has no live
context, `Create` succeeds, the registry then holds the context it returned, and as
long as the key is not deleted a further `Create` for the key fails with the
duplicate-transaction error. -/
theorem C6_duplicate_guard (ops ops' : List TxOp) (channelID txID : String)
    (ctx ctx' : Option Nat) (sp p sp' p' : Option (List Nat)) :
    (ops.foldl TransactionContexts.apply NewTransactionContexts).liveCount channelID txID ≤ 1 ∧
    ((ops.foldl TransactionContexts.apply NewTransactionContexts).Get channelID txID = none →
      ∃ c r',
        (ops.foldl TransactionContexts.apply NewTransactionContexts).Create
            ctx channelID txID sp p = Except.ok (c, r') ∧
        r'.Get channelID txID = some c ∧
        r'.liveCount channelID txID = 1 ∧
        ((∀ op ∈ ops', op ≠ TxOp.delete channelID txID) →
          (ops'.foldl TransactionContexts.apply r').Create ctx' channelID txID sp' p' =
            Except.error (TxContextError.DuplicateTransactionError channelID txID))) := by
  refine ⟨TransactionContexts.liveCount_foldl_apply ops NewTransactionContexts
    (fun _ _ => by simp [TransactionContexts.liveCount, NewTransactionContexts])
    channelID txID, ?_⟩
  intro hnone
  refine ⟨_, _, TransactionContexts.Create_of_none _ ctx channelID txID sp p hnone, ?_, ?_, ?_⟩
  · simp [TransactionContexts.Get]
  · have h0 := (TransactionContexts.Get_eq_none_iff _ channelID txID).mp hnone
    simp only [TransactionContexts.liveCount] at h0 ⊢
    rw [List.countP_cons, h0]
    simp
  · intro hops
    apply TransactionContexts.Create_of_some _ ctx' channelID txID sp' p' ⟨channelID, txID, sp, p, ctx, []⟩
    apply TransactionContexts.Get_foldl_apply ops' channelID txID _ hops
    simp [TransactionContexts.Get]

/-- Witness of C6: in a registry that holds a context for another transaction,
`Create` for `("test", "1")` succeeds, and after a `Create` for yet another key a
second `Create` for `("test", "1")` is a duplicate. -/
theorem C6_duplicate_guard_witness :
    ∃ c r',
      ([TxOp.create (some 7) "test" "0" none none].foldl TransactionContexts.apply
          NewTransactionContexts).Create (some 1) "test" "1" none none = Except.ok (c, r') ∧
      r'.Get "test" "1" = some c ∧
      r'.liveCount "test" "1" = 1 ∧
      ([TxOp.create (some 3) "" "2" none none].foldl TransactionContexts.apply r').Create
          (some 2) "test" "1" none none =
        Except.error (TxContextError.DuplicateTransactionError "test" "1") :=
  have h := (C6_duplicate_guard [TxOp.create (some 7) "test" "0" none none]
    [TxOp.create (some 3) "" "2" none none] "test" "1" (some 1) (some 2)
    none none none none).2 (by decide)
  match h with
  | ⟨c, r', h1, h2, h3, h4⟩ => ⟨c, r', h1, h2, h3, h4 (by decide)⟩

/-! ## The handler registry -/

namespace HandlerRegistry

/-- After a change of the registrations that keeps their names, the registration
found for a name is the changed one. -/
theorem find?_map_name (name : String) (f : HandlerRegistration → HandlerRegistration)
    (hf : ∀ g, (f g).name = g.name) :
    ∀ l : List HandlerRegistration,
      (l.map f).find? (fun g => decide (g.name = name)) =
        (l.find? (fun g => decide (g.name = name))).map f := by
  intro l
  induction l with
  | nil => rfl
  | cons a l ih =>
    simp only [List.map_cons, List.find?_cons, hf]
    by_cases ha : a.name = name
    · simp [ha]
    · simp only [ha, decide_False]
      exact ih

theorem lookup_Deregister (r : HandlerRegistry) (name : String) :
    (r.Deregister name).lookup name = none := by
  simp [lookup, Deregister, List.find?_eq_none]

theorem Register_of_registered (r : HandlerRegistry) (h : Handler)
    (hr : r.registered h.chaincodeID.Name = true) :
    r.Register h = Except.error (RegistryError.AlreadyRegisteredError h.chaincodeID.Name) := by
  simp only [registered] at hr
  cases hl : r.lookup h.chaincodeID.Name with
  | none => rw [hl] at hr; simp at hr
  | some g =>
    rw [hl] at hr
    simp only [ne_eq, decide_not, Bool.not_eq_true', decide_eq_false_iff_not] at hr
    simp [Register, hl, hr]

theorem Register_of_absent (r : HandlerRegistry) (h : Handler)
    (hl : r.lookup h.chaincodeID.Name = none) :
    r.Register h = Except.ok ⟨⟨h.chaincodeID.Name, RegistrationState.Established, some h⟩
      :: r.registrations⟩ := by
  simp [Register, hl]

/-- A successful `Register` leaves the name registered, in state `Established` and
with the handler that was given. -/
theorem lookup_Register (r r' : HandlerRegistry) (h : Handler)
    (hok : r.Register h = Except.ok r') :
    r'.lookup h.chaincodeID.Name =
      some ⟨h.chaincodeID.Name, RegistrationState.Established, some h⟩ := by
  cases hl : r.lookup h.chaincodeID.Name with
  | none =>
    rw [Register_of_absent r h hl] at hok
    simp only [Except.ok.injEq] at hok
    subst hok
    simp [lookup]
  | some g =>
    by_cases hs : g.state = RegistrationState.Launching
    · simp only [Register, hl, hs, ↓reduceIte, Except.ok.injEq] at hok
      subst hok
      simp only [lookup] at hl ⊢
      rw [find?_map_name h.chaincodeID.Name _ (by intro g'; by_cases hg : g'.name = h.chaincodeID.Name <;> simp [hg]),
        hl]
      have hname : g.name = h.chaincodeID.Name := by
        have := List.find?_some hl
        simpa using this
      simp [hname]
    · simp [Register, hl, hs] at hok

theorem registered_of_lookup (r : HandlerRegistry) (name : String) (g : HandlerRegistration)
    (hl : r.lookup name = some g) (hs : g.state ≠ RegistrationState.Launching) :
    r.registered name = true := by
  simp [registered, hl, hs]

end HandlerRegistry

/-- C7: for every registry and every canonical name, `Register` of a handler for a
name that is already registered fails with the already-registered error; a
successful `Register` leaves the name registered, so that a second `Register` for
it fails; and after `Deregister` of the name a new `Register` for it succeeds and
registers the new handler. -/
theorem C7_register_once (r : HandlerRegistry) (h h' : Handler)
    (hn : h'.chaincodeID.Name = h.chaincodeID.Name) :
    (r.registered h.chaincodeID.Name = true →
      r.Register h' =
        Except.error (RegistryError.AlreadyRegisteredError h.chaincodeID.Name)) ∧
    (∀ r', r.Register h = Except.ok r' →
      r'.registered h.chaincodeID.Name = true ∧
      r'.Register h' =
        Except.error (RegistryError.AlreadyRegisteredError h.chaincodeID.Name)) ∧
    (∃ r'', (r.Deregister h.chaincodeID.Name).Register h' = Except.ok r'' ∧
      r''.lookup h.chaincodeID.Name =
        some ⟨h.chaincodeID.Name, RegistrationState.Established, some h'⟩ ∧
      r''.registered h.chaincodeID.Name = true) := by
  refine ⟨?_, ?_, ?_⟩
  · intro hr
    rw [← hn] at hr ⊢
    exact HandlerRegistry.Register_of_registered r h' hr
  · intro r' hok
    have hl := HandlerRegistry.lookup_Register r r' h hok
    have hreg := HandlerRegistry.registered_of_lookup r' _ _ hl (by simp)
    refine ⟨hreg, ?_⟩
    rw [← hn] at hreg ⊢
    exact HandlerRegistry.Register_of_registered r' h' hreg
  · rw [← hn]
    have hab := HandlerRegistry.lookup_Deregister r h'.chaincodeID.Name
    have hok := HandlerRegistry.Register_of_absent _ h' hab
    have hl := HandlerRegistry.lookup_Register _ _ h' hok
    exact ⟨_, hok, hl, HandlerRegistry.registered_of_lookup _ _ _ hl (by simp)⟩

/-- Witness of C7 with the name of the test, `shimTestCC:0`: registered once in a
new registry, the name cannot be registered again until it is deregistered. -/
theorem C7_register_once_witness :
    (∀ r', (NewHandlerRegistry true).Register ⟨⟨"shimTestCC:0", ""⟩, NewTransactionContexts⟩ = Except.ok r' →
      r'.registered "shimTestCC:0" = true ∧
      r'.Register ⟨⟨"shimTestCC:0", "1"⟩, NewTransactionContexts⟩ =
        Except.error (RegistryError.AlreadyRegisteredError "shimTestCC:0")) ∧
    (∃ r'', ((NewHandlerRegistry true).Deregister "shimTestCC:0").Register
        ⟨⟨"shimTestCC:0", "1"⟩, NewTransactionContexts⟩ = Except.ok r'' ∧
      r''.lookup "shimTestCC:0" =
        some ⟨"shimTestCC:0", RegistrationState.Established, some ⟨⟨"shimTestCC:0", "1"⟩, NewTransactionContexts⟩⟩ ∧
      r''.registered "shimTestCC:0" = true) :=
  (C7_register_once (NewHandlerRegistry true) ⟨⟨"shimTestCC:0", ""⟩, NewTransactionContexts⟩
    ⟨⟨"shimTestCC:0", "1"⟩, NewTransactionContexts⟩ rfl).2

/-! ## The runtime launcher -/

theorem StartCall.failure_of_result_none (sc : StartCall) (h : sc.result = none) :
    sc.failure = none := by
  simp only [StartCall.failure, h]
  cases sc.returnsAt <;> rfl

theorem StartCall.failure_eq_some (sc : StartCall) (t : Nat) (e : String)
    (ht : sc.returnsAt = some t) (he : sc.result = some e) : sc.failure = some (t, e) := by
  simp [StartCall.failure, ht, he]

theorem StartCall.failure_some_inv (sc : StartCall) (t : Nat) (e : String)
    (h : sc.failure = some (t, e)) : sc.returnsAt = some t ∧ sc.result = some e := by
  simp only [StartCall.failure] at h
  cases h1 : sc.returnsAt with
  | none => rw [h1] at h; simp at h
  | some t' =>
    cases h2 : sc.result with
    | none => rw [h1, h2] at h; simp at h
    | some e' =>
      rw [h1, h2] at h
      simp only [Option.some.injEq, Prod.mk.injEq] at h
      rw [h.1, h.2]
      exact ⟨rfl, rfl⟩

/-- The moment of the `Ready` signal for a name is the earliest moment at which the
registry is told `Ready` for it. -/
theorem StartCall.readyAt_eq_some (sc : StartCall) (cname : String) (t0 : Nat) :
    sc.readyAt cname = some t0 ↔
      (t0, cname) ∈ sc.ready ∧ ∀ t, (t, cname) ∈ sc.ready → t0 ≤ t := by
  simp only [StartCall.readyAt, List.min?_eq_some_iff', List.mem_map, List.mem_filter,
    decide_eq_true_eq]
  constructor
  · rintro ⟨⟨⟨a, b⟩, ⟨hm, hb⟩, ha⟩, hle⟩
    simp only at hb ha
    subst hb; subst ha
    exact ⟨hm, fun t ht => hle t ⟨(t, b), ⟨ht, rfl⟩, rfl⟩⟩
  · rintro ⟨hm, hle⟩
    refine ⟨⟨(t0, cname), ⟨hm, rfl⟩, rfl⟩, ?_⟩
    rintro b ⟨⟨a, c⟩, ⟨hm', hc⟩, ha⟩
    simp only at hc ha
    subst hc; subst ha
    exact hle a hm'

theorem StartCall.readyAt_eq_none (sc : StartCall) (cname : String) :
    sc.readyAt cname = none ↔ ∀ t, (t, cname) ∉ sc.ready := by
  simp only [StartCall.readyAt, List.min?_eq_none_iff, List.map_eq_nil_iff,
    List.filter_eq_nil_iff, decide_eq_true_eq]
  constructor
  · intro h t ht
    exact h (t, cname) ht rfl
  · rintro h ⟨a, b⟩ hm hb
    simp only at hb
    subst hb
    exact h a hm

/-- The race when only the timeout signal is there. -/
theorem race_timeout_only (timeout : Nat) :
    race [(timeout, some LaunchError.LaunchTimeoutError)] =
      [some LaunchError.LaunchTimeoutError] := by
  simp [race]

/-- The race of one signal against a later timeout. -/
theorem race_before_timeout (t timeout : Nat) (x : Option LaunchError) (h : t < timeout) :
    race [(t, x), (timeout, some LaunchError.LaunchTimeoutError)] = [x] := by
  have hmin : min t timeout = t := Nat.min_eq_left (Nat.le_of_lt h)
  have hne : ¬ timeout = t := by omega
  simp [race, List.min?_cons', hmin, hne]

/-- The race of one signal against an earlier timeout. -/
theorem race_after_timeout (t timeout : Nat) (x : Option LaunchError) (h : timeout < t) :
    race [(t, x), (timeout, some LaunchError.LaunchTimeoutError)] =
      [some LaunchError.LaunchTimeoutError] := by
  have hmin : min t timeout = timeout := Nat.min_eq_right (Nat.le_of_lt h)
  have hne : ¬ t = timeout := by omega
  simp [race, List.min?_cons', hmin, hne]

/-- The race of two signals against a timeout. -/
theorem race_three (t1 t2 timeout : Nat) (x1 x2 : Option LaunchError) :
    (t1 < t2 → t1 < timeout →
      race [(t1, x1), (t2, x2), (timeout, some LaunchError.LaunchTimeoutError)] = [x1]) ∧
    (t2 < t1 → t2 < timeout →
      race [(t1, x1), (t2, x2), (timeout, some LaunchError.LaunchTimeoutError)] = [x2]) ∧
    (timeout < t1 → timeout < t2 →
      race [(t1, x1), (t2, x2), (timeout, some LaunchError.LaunchTimeoutError)] =
        [some LaunchError.LaunchTimeoutError]) := by
  refine ⟨?_, ?_, ?_⟩
  · intro h1 h2
    have hmin : min t1 (min t2 timeout) = t1 := by omega
    have hne1 : ¬ t2 = t1 := by omega
    have hne2 : ¬ timeout = t1 := by omega
    simp [race, List.min?_cons', hmin, hne1, hne2]
  · intro h1 h2
    have hmin : min t1 (min t2 timeout) = t2 := by omega
    have hne1 : ¬ t1 = t2 := by omega
    have hne2 : ¬ timeout = t2 := by omega
    simp [race, List.min?_cons', hmin, hne1, hne2]
  · intro h1 h2
    have hmin : min t1 (min t2 timeout) = timeout := by omega
    have hne1 : ¬ t1 = timeout := by omega
    have hne2 : ¬ t2 = timeout := by omega
    simp [race, List.min?_cons', hmin, hne1, hne2]

/-- C8, as stated, fails: a Runtime whose `Start` returns the error "Bad lunch;
upset stomach" after one second, under a startup timeout of half a second, makes
the launcher return the timeout error, not the wrapped error. -/
theorem C8_counterexample :
    ((⟨fun _ _ => ⟨[], some 1000000000, some "Bad lunch; upset stomach"⟩⟩ : Runtime).Start
        (NewCCContext "testchannel" "testcc" "0" "landwtimertest_txid" false none none)
        ⟨⟨"testcc", "0"⟩, []⟩).result = some "Bad lunch; upset stomach" ∧
    (RuntimeLauncher.mk ⟨fun _ _ => ⟨[], some 1000000000, some "Bad lunch; upset stomach"⟩⟩
        (NewHandlerRegistry false) 500000000).start
      (NewCCContext "testchannel" "testcc" "0" "landwtimertest_txid" false none none)
      ⟨⟨"testcc", "0"⟩, []⟩ = [some LaunchError.LaunchTimeoutError] := by
  decide

/-- C8 (amended): when the launcher invokes the Runtime's `Start` and `Start`
returns an error `e` before the startup timeout elapses and before the registry is
told `Ready` for the chaincode, the launcher's start fails, and the message of its
error is exactly "error starting container: " followed by `e`. -/
theorem C8_launch_error (l : RuntimeLauncher) (cccid : CCContext)
    (cds : ChaincodeDeploymentSpec) (t : Nat) (e : String)
    (hstart : (l.Registry.Launching cccid.GetCanonicalName).1 = false)
    (hret : (l.Runtime.Start cccid cds).returnsAt = some t)
    (herr : (l.Runtime.Start cccid cds).result = some e)
    (ht : t < l.StartupTimeout)
    (hready : ∀ t', (t', cccid.GetCanonicalName) ∈ (l.Runtime.Start cccid cds).ready → t < t') :
    l.start cccid cds = [some (LaunchError.StartFailed ("error starting container: " ++ e))] := by
  have hf := StartCall.failure_eq_some _ t e hret herr
  simp only [RuntimeLauncher.start, hstart, Bool.false_eq_true, ↓reduceIte, launchSignals, hf]
  cases hr : (l.Runtime.Start cccid cds).readyAt cccid.GetCanonicalName with
  | none => exact race_before_timeout t _ _ ht
  | some tr =>
    have htr := hready tr ((StartCall.readyAt_eq_some _ _ tr).mp hr).1
    exact (race_three t tr l.StartupTimeout _ none).1 htr ht

/-- Witness of C8 (amended) with the values of the test: `Start` fails at once with
"Bad lunch; upset stomach" under a timeout of ten seconds. -/
theorem C8_launch_error_witness :
    (RuntimeLauncher.mk ⟨fun _ _ => ⟨[], some 0, some "Bad lunch; upset stomach"⟩⟩
        (NewHandlerRegistry false) 10000000000).start
      (NewCCContext "testchannel" "testcc" "0" "landwtimertest_txid" false none none)
      ⟨⟨"testcc", "0"⟩, []⟩ =
    [some (LaunchError.StartFailed "error starting container: Bad lunch; upset stomach")] :=
  C8_launch_error
    (RuntimeLauncher.mk ⟨fun _ _ => ⟨[], some 0, some "Bad lunch; upset stomach"⟩⟩
      (NewHandlerRegistry false) 10000000000)
    (NewCCContext "testchannel" "testcc" "0" "landwtimertest_txid" false none none)
    ⟨⟨"testcc", "0"⟩, []⟩ 0 "Bad lunch; upset stomach" (by decide) rfl rfl (by decide)
    (fun _ h => by simp at h)

/-- C9: when the launcher invokes the Runtime's `Start`, and within the startup
timeout `Start` neither returns an error nor is the registry told `Ready` for the
chaincode, the launcher's start returns the timeout error, which is not nil;
whether and when `Start` returns nil plays no part. -/
theorem C9_launch_timeout (l : RuntimeLauncher) (cccid : CCContext)
    (cds : ChaincodeDeploymentSpec)
    (hstart : (l.Registry.Launching cccid.GetCanonicalName).1 = false)
    (hfail : ∀ t e, (l.Runtime.Start cccid cds).returnsAt = some t →
      (l.Runtime.Start cccid cds).result = some e → l.StartupTimeout < t)
    (hready : ∀ t, (t, cccid.GetCanonicalName) ∈ (l.Runtime.Start cccid cds).ready →
      l.StartupTimeout < t) :
    l.start cccid cds = [some LaunchError.LaunchTimeoutError] ∧
    none ∉ l.start cccid cds := by
  have key : l.start cccid cds = [some LaunchError.LaunchTimeoutError] := by
    simp only [RuntimeLauncher.start, hstart, Bool.false_eq_true, ↓reduceIte, launchSignals]
    cases hf : (l.Runtime.Start cccid cds).failure with
    | none =>
      cases hr : (l.Runtime.Start cccid cds).readyAt cccid.GetCanonicalName with
      | none => exact race_timeout_only _
      | some tr =>
        have htr := hready tr ((StartCall.readyAt_eq_some _ _ tr).mp hr).1
        exact race_after_timeout tr _ _ htr
    | some te =>
      obtain ⟨tf, e⟩ := te
      obtain ⟨h1, h2⟩ := StartCall.failure_some_inv _ tf e hf
      have htf := hfail tf e h1 h2
      cases hr : (l.Runtime.Start cccid cds).readyAt cccid.GetCanonicalName with
      | none => exact race_after_timeout tf _ _ htf
      | some tr =>
        have htr := hready tr ((StartCall.readyAt_eq_some _ _ tr).mp hr).1
        exact (race_three tf tr l.StartupTimeout _ none).2.2 htf htr
  rw [key]
  exact ⟨rfl, by simp⟩

/-- Witness of C9 with the values of the test: `Start` sleeps one second and returns
nil, under a timeout of half a second. -/
theorem C9_launch_timeout_witness :
    (RuntimeLauncher.mk ⟨fun _ _ => ⟨[], some 1000000000, none⟩⟩
        (NewHandlerRegistry false) 500000000).start
      (NewCCContext "testchannel" "testcc" "0" "landwtimertest_txid" false none none)
      ⟨⟨"testcc", "0"⟩, []⟩ = [some LaunchError.LaunchTimeoutError] :=
  (C9_launch_timeout
    (RuntimeLauncher.mk ⟨fun _ _ => ⟨[], some 1000000000, none⟩⟩
      (NewHandlerRegistry false) 500000000)
    (NewCCContext "testchannel" "testcc" "0" "landwtimertest_txid" false none none)
    ⟨⟨"testcc", "0"⟩, []⟩ (by decide)
    (fun _ _ _ h => by simp at h) (fun _ h => by simp at h)).1

/-- C10: when the registry is told `Ready` for the canonical name of the chaincode
before the startup timeout elapses, and the Runtime's `Start` returns nil, the
launcher's start returns nil. -/
theorem C10_launch_success (l : RuntimeLauncher) (cccid : CCContext)
    (cds : ChaincodeDeploymentSpec) (t : Nat)
    (hready : (t, cccid.GetCanonicalName) ∈ (l.Runtime.Start cccid cds).ready)
    (ht : t < l.StartupTimeout)
    (hret : (l.Runtime.Start cccid cds).result = none) :
    l.start cccid cds = [none] := by
  simp only [RuntimeLauncher.start]
  split
  · rfl
  · have hf := StartCall.failure_of_result_none _ hret
    simp only [launchSignals, hf]
    cases hr : (l.Runtime.Start cccid cds).readyAt cccid.GetCanonicalName with
    | none => exact absurd hready ((StartCall.readyAt_eq_none _ _).mp hr t)
    | some tr =>
      have htr := ((StartCall.readyAt_eq_some _ _ tr).mp hr).2 t hready
      exact race_before_timeout tr _ _ (by omega)

/-- Witness of C10 with the values of the test: for the name `testcc` and the
version `0` the canonical name is `testcc:0`; `Start` tells the registry `Ready`
for it and returns nil at once, under a timeout of ten seconds. -/
theorem C10_launch_success_witness :
    (NewCCContext "testchannel" "testcc" "0" "landwtimertest_txid" false none
        none).GetCanonicalName = "testcc:0" ∧
    (RuntimeLauncher.mk ⟨fun _ _ => ⟨[(0, "testcc:0")], some 0, none⟩⟩
        (NewHandlerRegistry false) 10000000000).start
      (NewCCContext "testchannel" "testcc" "0" "landwtimertest_txid" false none none)
      ⟨⟨"testcc", "0"⟩, []⟩ = [none] :=
  ⟨by decide,
   C10_launch_success
    (RuntimeLauncher.mk ⟨fun _ _ => ⟨[(0, "testcc:0")], some 0, none⟩⟩
      (NewHandlerRegistry false) 10000000000)
    (NewCCContext "testchannel" "testcc" "0" "landwtimertest_txid" false none none)
    ⟨⟨"testcc", "0"⟩, []⟩ 0 (by decide) (by decide) rfl⟩

/-! ## The channel command factory -/

namespace strings

theorem splitChars_ne_nil (l : List Char) (sep : Char) : splitChars l sep ≠ [] := by
  induction l with
  | nil => simp [splitChars]
  | cons c cs ih =>
    simp only [splitChars]
    split
    · simp
    · split
      · simp
      · simp

/-- The split has one part more than there are separators. -/
theorem length_splitChars (l : List Char) (sep : Char) :
    (splitChars l sep).length = l.count sep + 1 := by
  induction l with
  | nil => simp [splitChars]
  | cons c cs ih =>
    simp only [splitChars]
    by_cases hc : c = sep
    · subst hc
      simp [ih]
    · simp only [hc, ↓reduceIte]
      have hcount : (c :: cs).count sep = cs.count sep := by
        rw [List.count_cons_of_ne (Ne.symm hc)]
      rw [hcount, ← ih]
      split
      · rename_i p ps heq
        rw [heq]
        simp
      · rename_i heq
        exact absurd heq (splitChars_ne_nil cs sep)

theorem length_Split (s : String) (sep : Char) :
    (Split s sep).length = s.data.count sep + 1 := by
  simp [Split, length_splitChars]

end strings

/-- C18: for either value of `isEndorserRequired`, `InitCmdFactory` with both deliver
sources required returns a nil factory and the error "ERROR - only a single deliver
source is currently supported", and it makes no call for the signer, the endorser
client or a deliver client. -/
theorem C18_single_deliver_source (g : Globals) (isEndorserRequired : Bool) :
    InitCmdFactory g isEndorserRequired true true =
      ((none, some InitError.singleDeliverSource), []) ∧
    InitError.singleDeliverSource.Error =
      "ERROR - only a single deliver source is currently supported" := by
  constructor
  · simp [InitCmdFactory]
  · rfl

/-- With the orderer required and the peer deliver source not, once the signer and
the endorser client (if required) have come without error, the result of
`InitCmdFactory` is the one of the orderer block, on a factory without deliver
client. -/
theorem InitCmdFactory_orderer (g : Globals) (isEndorserRequired : Bool)
    (hs : g.GetDefaultSignerFnc.2 = none)
    (he : isEndorserRequired = true →
      (g.GetEndorserClientFnc g.UndefinedParamValue g.UndefinedParamValue).2 = none) :
    ∃ cf l, (∀ ch, Request.NewDeliverClientForOrderer ch ∉ l) ∧
      InitCmdFactory g isEndorserRequired false true =
        match ordererStage g true cf with
        | (Except.error e3, l3) => ((none, some e3), Request.GetDefaultSigner :: (l ++ l3))
        | (Except.ok cf3, l3) => ((some cf3, none), Request.GetDefaultSigner :: (l ++ l3)) := by
  cases isEndorserRequired with
  | false =>
    refine ⟨{ EndorserClient := none, Signer := g.GetDefaultSignerFnc.1,
              BroadcastClient := none, DeliverClient := none,
              BroadcastFactory := some (fun _ => g.GetBroadcastClientFnc) }, [], by simp, ?_⟩
    simp only [InitCmdFactory, Bool.false_and, Bool.false_eq_true, ↓reduceIte, hs,
      endorserStage, peerDeliverStage, List.append_nil, List.nil_append]
  | true =>
    have hc := he rfl
    refine ⟨{ EndorserClient :=
                (g.GetEndorserClientFnc g.UndefinedParamValue g.UndefinedParamValue).1,
              Signer := g.GetDefaultSignerFnc.1, BroadcastClient := none,
              DeliverClient := none,
              BroadcastFactory := some (fun _ => g.GetBroadcastClientFnc) },
      [Request.GetEndorserClient g.UndefinedParamValue g.UndefinedParamValue],
      by simp, ?_⟩
    simp only [InitCmdFactory, Bool.false_and, Bool.false_eq_true, ↓reduceIte, hs,
      endorserStage, hc, peerDeliverStage, List.append_nil]

/-- C19: with the orderer required, the peer deliver source not required, and the
signer and (if required) the endorser client obtained without error,
`InitCmdFactory` fails with the error "ordering service endpoint E is not valid or
missing" if and only if `strings.Split(E, ":")` does not have exactly two parts,
which is the case if and only if `E` does not contain exactly one colon; an empty
endpoint is rejected; in the rejected case the factory is nil and no orderer
deliver client is asked for, and otherwise one is asked for. -/
theorem C19_ordering_endpoint (g : Globals) (isEndorserRequired : Bool)
    (hs : g.GetDefaultSignerFnc.2 = none)
    (he : isEndorserRequired = true →
      (g.GetEndorserClientFnc g.UndefinedParamValue g.UndefinedParamValue).2 = none) :
    ((InitCmdFactory g isEndorserRequired false true).1.2 =
        some (InitError.orderingEndpoint g.OrderingEndpoint) ↔
      (strings.Split g.OrderingEndpoint ':').length ≠ 2) ∧
    ((strings.Split g.OrderingEndpoint ':').length ≠ 2 ↔
      g.OrderingEndpoint.data.count ':' ≠ 1) ∧
    ((strings.Split g.OrderingEndpoint ':').length ≠ 2 →
      (InitCmdFactory g isEndorserRequired false true).1.1 = none ∧
      ∀ ch, Request.NewDeliverClientForOrderer ch ∉
        (InitCmdFactory g isEndorserRequired false true).2) ∧
    ((strings.Split g.OrderingEndpoint ':').length = 2 →
      Request.NewDeliverClientForOrderer g.channelID ∈
        (InitCmdFactory g isEndorserRequired false true).2) ∧
    (g.OrderingEndpoint = "" →
      (InitCmdFactory g isEndorserRequired false true).1.2 =
        some (InitError.orderingEndpoint "")) ∧
    (InitError.orderingEndpoint g.OrderingEndpoint).Error =
      "ordering service endpoint " ++ g.OrderingEndpoint ++ " is not valid or missing" := by
  obtain ⟨cf, l, hl, heq⟩ := InitCmdFactory_orderer g isEndorserRequired hs he
  have hbad : (strings.Split g.OrderingEndpoint ':').length ≠ 2 →
      InitCmdFactory g isEndorserRequired false true =
        ((none, some (InitError.orderingEndpoint g.OrderingEndpoint)),
          Request.GetDefaultSigner :: (l ++ [])) := by
    intro h
    rw [heq]
    simp only [ordererStage, ↓reduceIte, h, ne_eq, not_false_eq_true]
  have hgood : (strings.Split g.OrderingEndpoint ':').length = 2 →
      (InitCmdFactory g isEndorserRequired false true).1.2 ≠
        some (InitError.orderingEndpoint g.OrderingEndpoint) ∧
      Request.NewDeliverClientForOrderer g.channelID ∈
        (InitCmdFactory g isEndorserRequired false true).2 := by
    intro h
    rw [heq]
    simp only [ordererStage, ↓reduceIte, h, ne_eq, not_true_eq_false]
    cases (g.NewDeliverClientForOrderer g.channelID).2 with
    | none => simp
    | some err => simp
  refine ⟨⟨?_, ?_⟩, ?_, ?_, ?_, ?_, rfl⟩
  · intro h hlen
    exact (hgood hlen).1 h
  · intro h
    rw [hbad h]
  · rw [strings.length_Split]
    omega
  · intro h
    rw [hbad h]
    refine ⟨rfl, ?_⟩
    intro ch hmem
    simp only [List.append_nil, List.mem_cons] at hmem
    rcases hmem with hmem | hmem
    · cases hmem
    · exact hl ch hmem
  · intro h
    exact (hgood h).2
  · intro h
    have hlen : (strings.Split g.OrderingEndpoint ':').length ≠ 2 := by
      rw [strings.length_Split, h]
      decide
    rw [hbad hlen, h]

/-- Witness of C19: with the signer there and no endorser required, the endpoint
`orderer.example.com`, without port, is rejected before any orderer deliver client
is asked for, and the endpoint `localhost:7050` is not rejected. -/
theorem C19_ordering_endpoint_witness :
    (InitCmdFactory
        { GetDefaultSignerFnc := (some ⟨"admin"⟩, none)
          GetBroadcastClientFnc := (some ⟨"broadcast"⟩, none)
          GetEndorserClientFnc := fun _ _ => (some ⟨"endorser"⟩, none)
          NewDeliverClientForPeer := fun _ => (some ⟨"peer"⟩, none)
          NewDeliverClientForOrderer := fun _ => (some ⟨"orderer"⟩, none)
          OrderingEndpoint := "orderer.example.com"
          UndefinedParamValue := ""
          channelID := "mychannel" } false false true).1.2 =
      some (InitError.orderingEndpoint "orderer.example.com") ∧
    Request.NewDeliverClientForOrderer "mychannel" ∈
      (InitCmdFactory
        { GetDefaultSignerFnc := (some ⟨"admin"⟩, none)
          GetBroadcastClientFnc := (some ⟨"broadcast"⟩, none)
          GetEndorserClientFnc := fun _ _ => (some ⟨"endorser"⟩, none)
          NewDeliverClientForPeer := fun _ => (some ⟨"peer"⟩, none)
          NewDeliverClientForOrderer := fun _ => (some ⟨"orderer"⟩, none)
          OrderingEndpoint := "localhost:7050"
          UndefinedParamValue := ""
          channelID := "mychannel" } false false true).2 :=
  ⟨(C19_ordering_endpoint
      { GetDefaultSignerFnc := (some ⟨"admin"⟩, none)
        GetBroadcastClientFnc := (some ⟨"broadcast"⟩, none)
        GetEndorserClientFnc := fun _ _ => (some ⟨"endorser"⟩, none)
        NewDeliverClientForPeer := fun _ => (some ⟨"peer"⟩, none)
        NewDeliverClientForOrderer := fun _ => (some ⟨"orderer"⟩, none)
        OrderingEndpoint := "orderer.example.com"
        UndefinedParamValue := ""
        channelID := "mychannel" } false rfl (fun h => by simp at h)).1.2
      (by decide),
   (C19_ordering_endpoint
      { GetDefaultSignerFnc := (some ⟨"admin"⟩, none)
        GetBroadcastClientFnc := (some ⟨"broadcast"⟩, none)
        GetEndorserClientFnc := fun _ _ => (some ⟨"endorser"⟩, none)
        NewDeliverClientForPeer := fun _ => (some ⟨"peer"⟩, none)
        NewDeliverClientForOrderer := fun _ => (some ⟨"orderer"⟩, none)
        OrderingEndpoint := "localhost:7050"
        UndefinedParamValue := ""
        channelID := "mychannel" } false rfl (fun h => by simp at h)).2.2.2.1
      (by decide)⟩

/-- C20, as stated, fails when a getter returns a nil value with a nil error: with
a default signer and an endorser client that are nil and come without error,
`InitCmdFactory` with the endorser required succeeds, and the factory holds neither
a signer nor an endorser client. -/
theorem C20_counterexample :
    ∃ cf, (InitCmdFactory
        { exampleGlobals with
          GetDefaultSignerFnc := (none, none)
          GetEndorserClientFnc := fun _ _ => (none, none) } true false false).1 =
        (some cf, none) ∧
      cf.Signer = none ∧ cf.EndorserClient = none :=
  ⟨_, rfl, rfl, rfl⟩

/-- C20, amended: whenever `InitCmdFactory` succeeds, `BroadcastFactory` is the
function that asks for the broadcast client and `Signer` is the value that came
from `GetDefaultSignerFnc` with a nil error; `EndorserClient` is the value that came
from `GetEndorserClientFnc` if `isEndorserRequired` and nil otherwise;
`DeliverClient` is the value that came from `NewDeliverClientForPeer` for
`channelID` if `isPeerDeliverRequired`, from `NewDeliverClientForOrderer` for
`channelID` if `isOrdererRequired`, and nil if neither is required.  So `Signer` is
set when the value of the signer is not nil, and `EndorserClient` is set if and only
if `isEndorserRequired` when the value of the endorser client is not nil. -/
theorem C20_factory_clients (g : Globals)
    (isEndorserRequired isPeerDeliverRequired isOrdererRequired : Bool)
    (cf : ChannelCmdFactory)
    (h : (InitCmdFactory g isEndorserRequired isPeerDeliverRequired isOrdererRequired).1 =
      (some cf, none)) :
    (g.GetDefaultSignerFnc.2 = none ∧ cf.Signer = g.GetDefaultSignerFnc.1) ∧
    (∃ f, cf.BroadcastFactory = some f ∧ f () = g.GetBroadcastClientFnc) ∧
    (isEndorserRequired = true →
      (g.GetEndorserClientFnc g.UndefinedParamValue g.UndefinedParamValue).2 = none ∧
      cf.EndorserClient =
        (g.GetEndorserClientFnc g.UndefinedParamValue g.UndefinedParamValue).1) ∧
    (isEndorserRequired = false → cf.EndorserClient = none) ∧
    (isPeerDeliverRequired = true →
      (g.NewDeliverClientForPeer g.channelID).2 = none ∧
      cf.DeliverClient = (g.NewDeliverClientForPeer g.channelID).1) ∧
    (isOrdererRequired = true →
      (g.NewDeliverClientForOrderer g.channelID).2 = none ∧
      cf.DeliverClient = (g.NewDeliverClientForOrderer g.channelID).1) ∧
    (isPeerDeliverRequired = false → isOrdererRequired = false → cf.DeliverClient = none) ∧
    (g.GetDefaultSignerFnc.1 ≠ none → cf.Signer.isSome = true) ∧
    ((g.GetEndorserClientFnc g.UndefinedParamValue g.UndefinedParamValue).1 ≠ none →
      cf.EndorserClient.isSome = isEndorserRequired) := by
  cases hs : g.GetDefaultSignerFnc.2 with
  | some err =>
    cases isPeerDeliverRequired <;> cases isOrdererRequired <;>
      simp [InitCmdFactory, hs] at h
  | none =>
    cases hen : (g.GetEndorserClientFnc g.UndefinedParamValue g.UndefinedParamValue).2 <;>
    cases hp : (g.NewDeliverClientForPeer g.channelID).2 <;>
    cases ho : (g.NewDeliverClientForOrderer g.channelID).2 <;>
    cases isEndorserRequired <;> cases isPeerDeliverRequired <;> cases isOrdererRequired <;>
    by_cases hlen : (strings.Split g.OrderingEndpoint ':').length = 2 <;>
    simp [InitCmdFactory, endorserStage, peerDeliverStage, ordererStage, hs, hen, hp, ho,
      hlen] at h <;>
    subst h <;> simp [Option.isSome_iff_ne_none]

/-- Witness of C20 (amended): with the endorser and the orderer required, in a
setting where every client is there, `InitCmdFactory` succeeds and the factory holds
the signer, the endorser client and the orderer deliver client for the channel. -/
theorem C20_factory_clients_witness :
    ∃ cf, (InitCmdFactory exampleGlobals true false true).1 = (some cf, none) ∧
      cf.Signer = some ⟨"admin"⟩ ∧ cf.EndorserClient = some ⟨"endorser"⟩ ∧
      cf.DeliverClient = some ⟨"orderer deliver mychannel"⟩ ∧
      cf.EndorserClient.isSome = true :=
  have hok : (InitCmdFactory exampleGlobals true false true).1 =
      (some { EndorserClient := some ⟨"endorser"⟩, Signer := some ⟨"admin"⟩,
              BroadcastClient := none,
              DeliverClient := some ⟨"orderer deliver mychannel"⟩,
              BroadcastFactory := some (fun _ => exampleGlobals.GetBroadcastClientFnc) },
        none) := by
    have hlen : (strings.Split "localhost:7050" ':').length = 2 := by decide
    simp [InitCmdFactory, endorserStage, peerDeliverStage, ordererStage, hlen,
      exampleGlobals]
  have h := C20_factory_clients exampleGlobals true false true _ hok
  ⟨_, hok, h.1.2, (h.2.2.1 rfl).2, (h.2.2.2.2.2.1 rfl).2, h.2.2.2.2.2.2.2.2 (by decide)⟩

/-! ## The message stream handler: transaction context lookup -/

namespace TransactionContexts

/-- An operation that does not create the key leaves the key without context. -/
theorem Get_apply_none (r : TransactionContexts) (op : TxOp) (channelID txID : String)
    (h : r.Get channelID txID = none) (hop : op.createsKey channelID txID = false) :
    (r.apply op).Get channelID txID = none := by
  cases op with
  | create ctx ch tx sp p =>
    simp only [TxOp.createsKey, decide_eq_false_iff_not] at hop
    cases hg : r.Get ch tx with
    | some c' =>
      simp only [TransactionContexts.apply, Create_of_some r ctx ch tx sp p c' hg]
      exact h
    | none =>
      simp only [TransactionContexts.apply, Create_of_none r ctx ch tx sp p hg]
      simp only [Get, List.find?_cons, hop, decide_False]
      exact h
  | delete ch tx =>
    simp only [TransactionContexts.apply, Delete, Get, List.find?_eq_none] at h ⊢
    intro x hx
    exact h x (List.mem_of_mem_filter hx)

theorem Get_foldl_apply_none (ops : List TxOp) (channelID txID : String)
    (hops : ∀ op ∈ ops, op.createsKey channelID txID = false) :
    ∀ r : TransactionContexts, r.Get channelID txID = none →
      (ops.foldl TransactionContexts.apply r).Get channelID txID = none := by
  induction ops with
  | nil => intro r h; exact h
  | cons op ops ih =>
    intro r h
    simp only [List.foldl_cons]
    exact ih (fun o ho => hops o (List.mem_cons_of_mem _ ho)) _
      (Get_apply_none r op channelID txID h (hops op (List.mem_cons_self _ _)))

end TransactionContexts

/-- C11: for every `(channelID, txID)`, the empty channel id included, after a
successful `Create` on the handler's registry both lookups of the handler,
`getTxContextForInvoke` with any payload, so with a non-empty one, and
`isValidTxSim`, return exactly the context that `Create` returned, with no
message, and leave the handler, and so its registry, as it is. -/
theorem C11_lookup_after_create (chaincodeID : ChaincodeID) (r r' : TransactionContexts)
    (ctx : Option Nat) (channelID txID : String) (sp p : Option (List Nat))
    (c : TransactionContext) (payload : List Nat) (errStr : String)
    (hcreate : r.Create ctx channelID txID sp p = Except.ok (c, r')) :
    Handler.getTxContextForInvoke ⟨chaincodeID, r'⟩ channelID txID payload errStr =
      ((some c, none), ⟨chaincodeID, r'⟩) ∧
    Handler.isValidTxSim ⟨chaincodeID, r'⟩ channelID txID errStr =
      ((some c, none), ⟨chaincodeID, r'⟩) := by
  have hget : r'.Get channelID txID = some c := by
    cases hg : r.Get channelID txID with
    | some c' =>
      rw [TransactionContexts.Create_of_some r ctx channelID txID sp p c' hg] at hcreate
      cases hcreate
    | none =>
      rw [TransactionContexts.Create_of_none r ctx channelID txID sp p hg] at hcreate
      simp only [Except.ok.injEq, Prod.mk.injEq] at hcreate
      obtain ⟨hc, hr⟩ := hcreate
      subst hc
      subst hr
      simp [TransactionContexts.Get]
  simp [Handler.getTxContextForInvoke, Handler.isValidTxSim, hget]

/-- Witness of C11 with the empty channel id, as in the test for a system chaincode
without channel: transaction `2` created on a new handler. -/
theorem C11_lookup_after_create_witness :
    Handler.getTxContextForInvoke
        ⟨⟨"lscc:0", ""⟩, ⟨[⟨"", "2", none, none, some 1, []⟩]⟩⟩ "" "2" [10, 4] "no context" =
      ((some ⟨"", "2", none, none, some 1, []⟩, none),
        ⟨⟨"lscc:0", ""⟩, ⟨[⟨"", "2", none, none, some 1, []⟩]⟩⟩) ∧
    Handler.isValidTxSim
        ⟨⟨"lscc:0", ""⟩, ⟨[⟨"", "2", none, none, some 1, []⟩]⟩⟩ "" "2" "no context" =
      ((some ⟨"", "2", none, none, some 1, []⟩, none),
        ⟨⟨"lscc:0", ""⟩, ⟨[⟨"", "2", none, none, some 1, []⟩]⟩⟩) :=
  C11_lookup_after_create ⟨"lscc:0", ""⟩ NewTransactionContexts
    ⟨[⟨"", "2", none, none, some 1, []⟩]⟩ (some 1) "" "2" none none
    ⟨"", "2", none, none, some 1, []⟩ [10, 4] "no context" rfl

/-- C12: for every `(channelID, txID)` for which no context was created, whatever
other transactions the registry was used for, `getTxContextForInvoke` with a
non-empty payload returns a nil context together with a chaincode message of type
`ERROR` for the transaction, and with an empty payload it returns a nil context;
the handler is left as it is. -/
theorem C12_no_ledger_context (chaincodeID : ChaincodeID) (ops : List TxOp)
    (channelID txID : String) (payload : List Nat) (errStr : String)
    (hops : ∀ op ∈ ops, op.createsKey channelID txID = false) :
    (payload ≠ [] →
      ∃ msg, Handler.getTxContextForInvoke
          ⟨chaincodeID, ops.foldl TransactionContexts.apply NewTransactionContexts⟩
          channelID txID payload errStr =
        ((none, some msg),
          ⟨chaincodeID, ops.foldl TransactionContexts.apply NewTransactionContexts⟩) ∧
        msg.MsgType = ChaincodeMessageType.ERROR ∧ msg.Txid = txID ∧
        msg.ChannelId = channelID) ∧
    (payload = [] →
      (Handler.getTxContextForInvoke
          ⟨chaincodeID, ops.foldl TransactionContexts.apply NewTransactionContexts⟩
          channelID txID payload errStr).1.1 = none) := by
  have hget := TransactionContexts.Get_foldl_apply_none ops channelID txID hops
    NewTransactionContexts (by simp [TransactionContexts.Get, NewTransactionContexts])
  constructor
  · intro hp
    simp [Handler.getTxContextForInvoke, hget, hp]
  · intro hp
    simp [Handler.getTxContextForInvoke, hget, hp]

/-- Witness of C12 with the values of the test: on a handler where the transactions
`1` to `4` were created, transaction `5` on the empty channel has no context. -/
theorem C12_no_ledger_context_witness :
    ∃ msg, Handler.getTxContextForInvoke
        ⟨⟨"shimTestCC:0", ""⟩,
          [TxOp.create (some 1) "test" "1" none none, TxOp.create (some 2) "" "2" none none,
           TxOp.create (some 3) "TEST" "3" none none,
           TxOp.create (some 4) "" "4" none none].foldl
            TransactionContexts.apply NewTransactionContexts⟩
        "" "5" [10, 4] "no context" =
      ((none, some msg),
        ⟨⟨"shimTestCC:0", ""⟩,
          [TxOp.create (some 1) "test" "1" none none, TxOp.create (some 2) "" "2" none none,
           TxOp.create (some 3) "TEST" "3" none none,
           TxOp.create (some 4) "" "4" none none].foldl
            TransactionContexts.apply NewTransactionContexts⟩) ∧
      msg.MsgType = ChaincodeMessageType.ERROR ∧ msg.Txid = "5" ∧ msg.ChannelId = "" :=
  (C12_no_ledger_context ⟨"shimTestCC:0", ""⟩
    [TxOp.create (some 1) "test" "1" none none, TxOp.create (some 2) "" "2" none none,
     TxOp.create (some 3) "TEST" "3" none none, TxOp.create (some 4) "" "4" none none]
    "" "5" [10, 4] "no context" (by decide)).1 (by decide)

/-! ## The message stream handler: state operations -/

namespace TxSimulator

theorem read_write (sim : TxSimulator) (ns collection key : String) (value : List Nat) :
    (sim.write ns collection key value).read ns collection key = some value := by
  simp [read, write]

theorem read_erase (sim : TxSimulator) (ns collection key : String) :
    (sim.erase ns collection key).read ns collection key = none := by
  simp [read, erase, List.find?_eq_none]

end TxSimulator

/-- C13: on a channel whose private-data capability is disabled, `PUT_STATE`,
`GET_STATE` and `DEL_STATE` with the empty collection succeed for every key that the
ledger takes: the value put is the value read afterwards, a read gives the value of
the simulator, and after the deletion the key has no value; and with any non-empty
collection these operations and the range query fail with the not-yet-supported
error. -/
theorem C13_collection_gate (h : Handler) (sim : TxSimulator) (collection key : String)
    (value : List Nat) (startKey endKey : String) :
    (sim.validKey key = true →
      (∃ sim', h.HandlePutState false sim "" key value = Except.ok sim' ∧
        h.HandleGetState false sim' "" key = Except.ok (some value)) ∧
      h.HandleGetState false sim "" key = Except.ok (sim.read h.chaincodeID.Name "" key) ∧
      (∃ sim', h.HandleDelState false sim "" key = Except.ok sim' ∧
        h.HandleGetState false sim' "" key = Except.ok none)) ∧
    (collection ≠ "" →
      h.HandlePutState false sim collection key value =
        Except.error StateError.NotYetSupportedError ∧
      h.HandleGetState false sim collection key =
        Except.error StateError.NotYetSupportedError ∧
      h.HandleDelState false sim collection key =
        Except.error StateError.NotYetSupportedError ∧
      h.HandleGetStateByRange false sim collection startKey endKey =
        Except.error StateError.NotYetSupportedError) := by
  constructor
  · intro hv
    have hw : (sim.write h.chaincodeID.Name "" key value).validKey key = true := hv
    have he : (sim.erase h.chaincodeID.Name "" key).validKey key = true := hv
    refine ⟨⟨sim.write h.chaincodeID.Name "" key value, ?_, ?_⟩, ?_,
      ⟨sim.erase h.chaincodeID.Name "" key, ?_, ?_⟩⟩
    · simp [Handler.HandlePutState, Handler.errorIfPrivateDataNotSupported,
        TxSimulator.SetState, hv]
    · simp [Handler.HandleGetState, Handler.errorIfPrivateDataNotSupported,
        TxSimulator.GetState, hw, TxSimulator.read_write]
    · simp [Handler.HandleGetState, Handler.errorIfPrivateDataNotSupported,
        TxSimulator.GetState, hv]
    · simp [Handler.HandleDelState, Handler.errorIfPrivateDataNotSupported,
        TxSimulator.DeleteState, hv]
    · simp [Handler.HandleGetState, Handler.errorIfPrivateDataNotSupported,
        TxSimulator.GetState, he, TxSimulator.read_erase]
  · intro hc
    simp [Handler.HandlePutState, Handler.HandleGetState, Handler.HandleDelState,
      Handler.HandleGetStateByRange, Handler.errorIfPrivateDataNotSupported, hc]

/-- Witness of C13 with the values of the test: the key `A` put with the value
"100" in the public state, and the collection `c1`. -/
theorem C13_collection_gate_witness :
    (∃ sim', Handler.HandlePutState ⟨⟨"shimTestCC:0", ""⟩, NewTransactionContexts⟩ false
        ⟨fun k => decide (k ≠ ""), []⟩ "" "A" [49, 48, 48] = Except.ok sim' ∧
      Handler.HandleGetState ⟨⟨"shimTestCC:0", ""⟩, NewTransactionContexts⟩ false sim' "" "A" =
        Except.ok (some [49, 48, 48])) ∧
    Handler.HandlePutState ⟨⟨"shimTestCC:0", ""⟩, NewTransactionContexts⟩ false
        ⟨fun k => decide (k ≠ ""), []⟩ "c1" "A" [49, 48, 48] =
      Except.error StateError.NotYetSupportedError :=
  have h := C13_collection_gate ⟨⟨"shimTestCC:0", ""⟩, NewTransactionContexts⟩
    ⟨fun k => decide (k ≠ ""), []⟩ "c1" "A" [49, 48, 48] "A" "B"
  ⟨(h.1 (by decide)).1, (h.2 (by decide)).1⟩

/-! ## Chaincode support: execution -/

namespace HandlerRegistry

/-- The handler of a registered name after `setHandler` is the new handler. -/
theorem handlerOf_setHandler (r : HandlerRegistry) (name : String) (h h' : Handler)
    (hh : r.handlerOf name = some h) : (r.setHandler name h').handlerOf name = some h' := by
  simp only [handlerOf] at hh
  cases hl : r.lookup name with
  | none => rw [hl] at hh; simp at hh
  | some g =>
    rw [hl] at hh
    simp only at hh
    have hs : g.state ≠ RegistrationState.Launching := by
      intro hs
      simp [hs] at hh
    have hname : g.name = name := by
      have := List.find?_some hl
      simpa using this
    have hl' : (r.setHandler name h').lookup name = some { g with handler := some h' } := by
      simp only [lookup, setHandler] at hl ⊢
      rw [find?_map_name name _
        (by intro g'; by_cases hg : g'.name = name <;> simp [hg]), hl]
      simp [hname]
    simp [handlerOf, hl', hs]

end HandlerRegistry

/-- C14: while a chaincode runs transaction `txid` on channel `channelID` (its
handler holds the live context that `execute` created for the pair, and `execute`
runs the chaincode in that state), a call of the same chaincode on the same channel
in the same transaction fails with the duplicate-transaction error and changes
nothing; a call of the same chaincode on another channel, for which no request is
pending and which access control allows, is dispatched and relays the response or
the error of the callee. -/
theorem C14_reentrancy (cs : ChaincodeSupport) (cname : String) (h : Handler)
    (CheckACL : String → String → Option (List Nat) → Bool) (ctx ctx' : Option Nat)
    (channelID otherChannel txid : String) (sp p : Option (List Nat))
    (c : TransactionContext) (r' : TransactionContexts)
    (sameTarget otherTarget : String) (sameSuffix : Option String)
    (hh : cs.HandlerRegistry.handlerOf cname = some h)
    (hcreate : h.TXContexts.Create ctx channelID txid sp p = Except.ok (c, r'))
    (hsame : ChaincodeSupport.parseTarget sameTarget = (cname, sameSuffix))
    (hsuffix : sameSuffix.getD channelID = channelID)
    (hother : ChaincodeSupport.parseTarget otherTarget = (cname, some otherChannel))
    (hne : otherChannel ≠ channelID)
    (hfree : r'.Get otherChannel txid = none)
    (hacl : CheckACL "Peer_ChaincodeToChaincode" channelID sp = true)
    (hacl' : CheckACL "Peer_ChaincodeToChaincode" otherChannel sp = true) :
    (∀ chaincode : Chaincode,
      (cs.execute cname ctx channelID txid sp p chaincode).1 =
        match (chaincode ⟨cs.HandlerRegistry.setHandler cname ⟨h.chaincodeID, r'⟩⟩).1 with
        | Except.ok resp => Except.ok resp
        | Except.error m => Except.error (ExecuteError.ChaincodeError m)) ∧
    (∀ callee : Chaincode,
      ChaincodeSupport.HandleInvokeChaincode
          ⟨cs.HandlerRegistry.setHandler cname ⟨h.chaincodeID, r'⟩⟩
          CheckACL ctx' channelID txid sp p sameTarget callee =
        (Except.error (ExecuteError.DuplicateTransactionError channelID txid),
          ⟨cs.HandlerRegistry.setHandler cname ⟨h.chaincodeID, r'⟩⟩)) ∧
    (∀ callee : Chaincode, ∃ r'',
      r'.Create ctx' otherChannel txid sp p = Except.ok
        (⟨otherChannel, txid, sp, p, ctx', []⟩, r'') ∧
      r''.Get channelID txid = some c ∧
      (ChaincodeSupport.HandleInvokeChaincode
          ⟨cs.HandlerRegistry.setHandler cname ⟨h.chaincodeID, r'⟩⟩
          CheckACL ctx' channelID txid sp p otherTarget callee).1 =
        match (callee ⟨(cs.HandlerRegistry.setHandler cname ⟨h.chaincodeID, r'⟩).setHandler
            cname ⟨h.chaincodeID, r''⟩⟩).1 with
        | Except.ok resp => Except.ok resp
        | Except.error m => Except.error (ExecuteError.ChaincodeError m)) := by
  have hget : r'.Get channelID txid = some c := by
    cases hg : h.TXContexts.Get channelID txid with
    | some c' =>
      rw [TransactionContexts.Create_of_some _ ctx channelID txid sp p c' hg] at hcreate
      cases hcreate
    | none =>
      rw [TransactionContexts.Create_of_none _ ctx channelID txid sp p hg] at hcreate
      simp only [Except.ok.injEq, Prod.mk.injEq] at hcreate
      obtain ⟨hc, hr⟩ := hcreate
      subst hc
      subst hr
      simp [TransactionContexts.Get]
  have hh1 := HandlerRegistry.handlerOf_setHandler cs.HandlerRegistry cname h
    ⟨h.chaincodeID, r'⟩ hh
  refine ⟨?_, ?_, ?_⟩
  · intro chaincode
    simp only [ChaincodeSupport.execute, hh, hcreate]
  · intro callee
    have hdup := TransactionContexts.Create_of_some r' ctx' channelID txid sp p c hget
    simp only [ChaincodeSupport.HandleInvokeChaincode, hsame, hacl, hsuffix,
      Bool.true_eq_false, ↓reduceIte, ne_eq, not_true_eq_false, false_and,
      ChaincodeSupport.execute, hh1, hdup]
  · intro callee
    have hok := TransactionContexts.Create_of_none r' ctx' otherChannel txid sp p hfree
    refine ⟨_, hok, ?_, ?_⟩
    · simpa [TransactionContexts.Get, List.find?_cons, hne] using hget
    · simp only [ChaincodeSupport.HandleInvokeChaincode, hother, hacl, hacl',
        Option.getD_some, Bool.true_eq_false, ↓reduceIte, and_false,
        ChaincodeSupport.execute, hh1, hok]

/-- Witness of C14 with the values of the test: in transaction `cctosamecctx` on
channel `mockchainid`, the chaincode `shimTestCC:0` calls itself on `mockchainid`,
which fails, and on `secondchain`, which succeeds. -/
theorem C14_reentrancy_witness :
    ChaincodeSupport.HandleInvokeChaincode
        ⟨exampleSupport.HandlerRegistry.setHandler "shimTestCC:0"
          ⟨⟨"shimTestCC:0", ""⟩, ⟨[⟨"mockchainid", "cctosamecctx", none, none, some 1, []⟩]⟩⟩⟩
        (fun _ _ _ => true) (some 1) "mockchainid" "cctosamecctx" none none
        "shimTestCC:0/mockchainid" exampleChaincode =
      (Except.error (ExecuteError.DuplicateTransactionError "mockchainid" "cctosamecctx"),
        ⟨exampleSupport.HandlerRegistry.setHandler "shimTestCC:0"
          ⟨⟨"shimTestCC:0", ""⟩,
            ⟨[⟨"mockchainid", "cctosamecctx", none, none, some 1, []⟩]⟩⟩⟩) ∧
    (ChaincodeSupport.HandleInvokeChaincode
        ⟨exampleSupport.HandlerRegistry.setHandler "shimTestCC:0"
          ⟨⟨"shimTestCC:0", ""⟩, ⟨[⟨"mockchainid", "cctosamecctx", none, none, some 1, []⟩]⟩⟩⟩
        (fun _ _ _ => true) (some 1) "mockchainid" "cctosamecctx" none none
        "shimTestCC:0/secondchain" exampleChaincode).1 =
      Except.ok { Status := 200, Message := "", Payload := [79, 75] } := by
  have h := C14_reentrancy exampleSupport "shimTestCC:0"
    ⟨⟨"shimTestCC:0", ""⟩, NewTransactionContexts⟩ (fun _ _ _ => true) (some 1) (some 1)
    "mockchainid" "secondchain" "cctosamecctx" none none
    ⟨"mockchainid", "cctosamecctx", none, none, some 1, []⟩
    ⟨[⟨"mockchainid", "cctosamecctx", none, none, some 1, []⟩]⟩
    "shimTestCC:0/mockchainid" "shimTestCC:0/secondchain" (some "mockchainid")
    (by decide) rfl (by decide) rfl (by decide) (by decide) (by decide) rfl rfl
  refine ⟨h.2.1 exampleChaincode, ?_⟩
  obtain ⟨r'', _, _, hres⟩ := h.2.2 exampleChaincode
  rw [hres]
  rfl

theorem canonical_ne (n v v' : String) (h : v' ≠ v) : n ++ ":" ++ v ≠ n ++ ":" ++ v' := by
  intro heq
  have hd := congrArg String.data heq
  simp only [String.data_append, List.append_assoc, List.append_cancel_left_eq] at hd
  exact h (String.ext hd).symm

namespace HandlerRegistry

/-- A registration that takes the place of the one of its name leaves the handlers
of the other names as they are. -/
theorem handlerOf_replace_ne (r : HandlerRegistry) (g : HandlerRegistration) (name : String)
    (hne : name ≠ g.name) :
    (HandlerRegistry.mk (g :: (r.Deregister g.name).registrations)).handlerOf name =
      r.handlerOf name := by
  have hg : decide (g.name = name) = false := by simp [Ne.symm hne]
  have hf : (r.registrations.filter (fun g' => !decide (g'.name = g.name))).find?
      (fun g' => decide (g'.name = name)) =
      r.registrations.find? (fun g' => decide (g'.name = name)) := by
    apply find?_filter_of_imp
    intro a ha
    simp only [decide_eq_true_eq] at ha
    simp [ha, hne]
  simp only [handlerOf, lookup, Deregister, List.find?_cons, hg, hf]

/-- A registration in the state `Ready` gives its handler. -/
theorem handlerOf_replace_self (r : HandlerRegistry) (name : String) (h : Handler) :
    (HandlerRegistry.mk
      ({ name := name, state := RegistrationState.Ready, handler := some h } ::
        (r.Deregister name).registrations)).handlerOf name = some h := by
  simp [handlerOf, lookup]

end HandlerRegistry

/-- C15, as stated, fails when the requested version can be launched: with
`shimTestCC:0` registered, an invocation whose context was built with the version
`1`, for which the launcher brings up `shimTestCC:1`, is run and returns the
response of the chaincode, not an error. -/
theorem C15_counterexample :
    exampleSupport.HandlerRegistry.handlerOf "shimTestCC:0" =
      some ⟨⟨"shimTestCC:0", ""⟩, NewTransactionContexts⟩ ∧
    exampleSupport.HandlerRegistry.handlerOf "shimTestCC:1" = none ∧
    (exampleSupport.Execute (some 1)
        (NewCCContext "mockchainid" "shimTestCC" "1" "tx1" false none none)
        (Except.ok ⟨⟨"shimTestCC:1", ""⟩, NewTransactionContexts⟩) exampleChaincode).1 =
      Except.ok { Status := 200, Message := "", Payload := [79, 75] } :=
  ⟨by decide, by decide, rfl⟩

/-- C15, amended: when an instance of the chaincode `n` is registered with version
`v`, and the context of an invocation was built with another version `v'` that is
not registered, `Execute` invokes the launcher for the canonical name `n:v'`.  When
the launch fails, `Execute` returns the launch error, whatever the chaincode would
do, and leaves the chaincode support as it is: no context is created and nothing
is sent to the running chaincode.  When the launch succeeds, the transaction is run
on the handler that was launched for `n:v'`, while the instance `n:v` stays
registered with its handler.  A context built with the registered version is run
on the running instance, also after its `Version` field was overwritten. -/
theorem C15_version_mismatch (cs : ChaincodeSupport) (ctx : Option Nat)
    (cid n v v' txid : String) (syscc : Bool) (sp p : Option (List Nat))
    (running : Handler) (launched : Except LaunchError Handler) (chaincode : Chaincode)
    (hrun : cs.HandlerRegistry.handlerOf (n ++ ":" ++ v) = some running)
    (hv : v' ≠ v)
    (habsent : cs.HandlerRegistry.handlerOf (n ++ ":" ++ v') = none) :
    (∀ e, launched = Except.error e →
      cs.Execute ctx (NewCCContext cid n v' txid syscc sp p) launched chaincode =
        (Except.error (ExecuteError.LaunchError e), cs)) ∧
    (∀ h, launched = Except.ok h →
      ∃ cs1 : ChaincodeSupport,
        cs1.HandlerRegistry.handlerOf (n ++ ":" ++ v') = some h ∧
        cs1.HandlerRegistry.handlerOf (n ++ ":" ++ v) = some running ∧
        cs.Execute ctx (NewCCContext cid n v' txid syscc sp p) launched chaincode =
          cs1.execute (n ++ ":" ++ v') ctx cid txid sp p chaincode) ∧
    (∀ w,
      cs.Execute ctx { NewCCContext cid n v txid syscc sp p with Version := w } launched
          chaincode =
        cs.execute (n ++ ":" ++ v) ctx cid txid sp p chaincode) := by
  refine ⟨?_, ?_, ?_⟩
  · intro e he
    simp only [ChaincodeSupport.Execute, CCContext.GetCanonicalName, NewCCContext, habsent, he]
  · intro h hh
    refine ⟨⟨⟨{ name := n ++ ":" ++ v', state := RegistrationState.Ready, handler := some h } ::
        (cs.HandlerRegistry.Deregister (n ++ ":" ++ v')).registrations⟩⟩, ?_, ?_, ?_⟩
    · exact HandlerRegistry.handlerOf_replace_self cs.HandlerRegistry (n ++ ":" ++ v') h
    · rw [← hrun]
      exact HandlerRegistry.handlerOf_replace_ne cs.HandlerRegistry
        { name := n ++ ":" ++ v', state := RegistrationState.Ready, handler := some h }
        (n ++ ":" ++ v) (canonical_ne n v v' hv)
    · simp only [ChaincodeSupport.Execute, CCContext.GetCanonicalName, NewCCContext, habsent,
        hh]
  · intro w
    simp only [ChaincodeSupport.Execute, CCContext.GetCanonicalName, NewCCContext, hrun]

/-- Witness of C15 (amended) with the values of the test: the context built with the
version `unknownver` against the registered `shimTestCC:0`, when the launch of
`shimTestCC:unknownver` times out. -/
theorem C15_version_mismatch_witness :
    exampleSupport.Execute (some 1)
        (NewCCContext "mockchainid" "shimTestCC" "unknownver" "tx1" false none none)
        (Except.error LaunchError.LaunchTimeoutError) exampleChaincode =
      (Except.error (ExecuteError.LaunchError LaunchError.LaunchTimeoutError),
        exampleSupport) :=
  (C15_version_mismatch exampleSupport (some 1) "mockchainid" "shimTestCC" "0"
    "unknownver" "tx1" false none none ⟨⟨"shimTestCC:0", ""⟩, NewTransactionContexts⟩
    (Except.error LaunchError.LaunchTimeoutError) exampleChaincode
    (by decide) (by decide) (by decide)).1 LaunchError.LaunchTimeoutError rfl

/-! ## Launch configuration -/

/-- C16: for every chaincode name `n` and version `v`, the canonical name of the
context built from them is `n`, a colon, `v`, and every launch configuration made
for this canonical name exports it as `CORE_CHAINCODE_ID_NAME`. -/
theorem C16_canonical_name (cid n v txid : String) (syscc : Bool)
    (sp p : Option (List Nat)) (cr : ContainerRuntime) (ccType : ChaincodeSpecType)
    (lc : LaunchConfig)
    (h : cr.LaunchConfig (NewCCContext cid n v txid syscc sp p).GetCanonicalName ccType =
      Except.ok lc) :
    (NewCCContext cid n v txid syscc sp p).GetCanonicalName = n ++ ":" ++ v ∧
    "CORE_CHAINCODE_ID_NAME=" ++ (n ++ ":" ++ v) ∈ lc.Envs := by
  refine ⟨rfl, ?_⟩
  simp only [CCContext.GetCanonicalName, NewCCContext, ContainerRuntime.LaunchConfig] at h
  cases ccType <;> cases hgen : cr.CertGenerator <;> simp [hgen] at h <;> subst h <;> simp

/-- Witness of C16 with the values of the test: the name `mycc` and the version
`v0` give `CORE_CHAINCODE_ID_NAME=mycc:v0`. -/
theorem C16_canonical_name_witness :
    (NewCCContext "dummyChannelId" "mycc" "v0" "dummyTxid" false none none).GetCanonicalName =
      "mycc:v0" ∧
    "CORE_CHAINCODE_ID_NAME=mycc:v0" ∈
      ({ Args := ["chaincode", "-peer.address=0.0.0.0:7052"],
         Envs := ["CORE_CHAINCODE_LOGGING_LEVEL=info", "CORE_CHAINCODE_LOGGING_SHIM=warning",
                  "CORE_PEER_ADDRESS=0.0.0.0:7052", "CORE_CHAINCODE_ID_NAME=mycc:v0",
                  "CORE_PEER_TLS_ENABLED=false"],
         Files := [] } : LaunchConfig).Envs :=
  C16_canonical_name "dummyChannelId" "mycc" "v0" "dummyTxid" false none none
    (exampleRuntime none) ChaincodeSpecType.GOLANG
    { Args := ["chaincode", "-peer.address=0.0.0.0:7052"],
      Envs := ["CORE_CHAINCODE_LOGGING_LEVEL=info", "CORE_CHAINCODE_LOGGING_SHIM=warning",
               "CORE_PEER_ADDRESS=0.0.0.0:7052", "CORE_CHAINCODE_ID_NAME=mycc:v0",
               "CORE_PEER_TLS_ENABLED=false"],
      Files := [] }
    rfl

/-- C17: with TLS enabled (a certificate generator present) the launch
configuration of a Go chaincode has exactly 8 environment entries, among them
`CORE_PEER_TLS_ENABLED=true` and the paths of the client key, the client
certificate and the root certificate, and exactly 3 files to stage; with TLS
disabled it has exactly 5 environment entries, among them
`CORE_PEER_TLS_ENABLED=false`, and no file to stage. -/
theorem C17_launch_config_tls (cr : ContainerRuntime) (cname : String) :
    (∀ generate, cr.CertGenerator = some generate →
      ∃ lc, cr.LaunchConfig cname ChaincodeSpecType.GOLANG = Except.ok lc ∧
        lc.Envs.length = 8 ∧
        "CORE_PEER_TLS_ENABLED=true" ∈ lc.Envs ∧
        "CORE_TLS_CLIENT_KEY_PATH=/etc/hyperledger/fabric/client.key" ∈ lc.Envs ∧
        "CORE_TLS_CLIENT_CERT_PATH=/etc/hyperledger/fabric/client.crt" ∈ lc.Envs ∧
        "CORE_PEER_TLS_ROOTCERT_FILE=/etc/hyperledger/fabric/peer.crt" ∈ lc.Envs ∧
        lc.Files.length = 3) ∧
    (cr.CertGenerator = none →
      ∃ lc, cr.LaunchConfig cname ChaincodeSpecType.GOLANG = Except.ok lc ∧
        lc.Envs.length = 5 ∧
        "CORE_PEER_TLS_ENABLED=false" ∈ lc.Envs ∧
        lc.Files.length = 0) := by
  constructor
  · intro generate hgen
    simp only [ContainerRuntime.LaunchConfig, hgen]
    refine ⟨_, rfl, rfl, ?_, ?_, ?_, ?_, rfl⟩
    · simp
    · have : "CORE_TLS_CLIENT_KEY_PATH=" ++ ContainerRuntime.TLSClientKeyPath =
          "CORE_TLS_CLIENT_KEY_PATH=/etc/hyperledger/fabric/client.key" := by decide
      simp [this]
    · have : "CORE_TLS_CLIENT_CERT_PATH=" ++ ContainerRuntime.TLSClientCertPath =
          "CORE_TLS_CLIENT_CERT_PATH=/etc/hyperledger/fabric/client.crt" := by decide
      simp [this]
    · have : "CORE_PEER_TLS_ROOTCERT_FILE=" ++ ContainerRuntime.TLSClientRootCertPath =
          "CORE_PEER_TLS_ROOTCERT_FILE=/etc/hyperledger/fabric/peer.crt" := by decide
      simp [this]
  · intro hgen
    simp only [ContainerRuntime.LaunchConfig, hgen]
    refine ⟨_, rfl, rfl, ?_, rfl⟩
    simp

/-- Witness of C17 with the runtime of the tests, first with a certificate
generator and then without one. -/
theorem C17_launch_config_tls_witness :
    (∃ lc, (exampleRuntime (some (fun _ => ⟨[2], [3]⟩))).LaunchConfig "mycc:v0"
        ChaincodeSpecType.GOLANG = Except.ok lc ∧ lc.Envs.length = 8 ∧ lc.Files.length = 3) ∧
    (∃ lc, (exampleRuntime none).LaunchConfig "mycc:v0" ChaincodeSpecType.GOLANG =
        Except.ok lc ∧ lc.Envs.length = 5) := by
  obtain ⟨lc, h1, h2, _, _, _, _, h3⟩ :=
    (C17_launch_config_tls (exampleRuntime (some (fun _ => ⟨[2], [3]⟩))) "mycc:v0").1
      (fun _ => ⟨[2], [3]⟩) rfl
  obtain ⟨lc', h1', h2', _, _⟩ := (C17_launch_config_tls (exampleRuntime none) "mycc:v0").2 rfl
  exact ⟨⟨lc, h1, h2, h3⟩, ⟨lc', h1', h2'⟩⟩

/-- C21: for every combination of the three flags and every outcome of the getters,
`InitCmdFactory` returns either a factory with a nil error or a nil factory with an
error; the default signer is asked for exactly when the two deliver flags are not
both set, and when it fails the error is "error getting default signer" followed by
": " and the message of the failure, the factory is nil and nothing else has been
asked for. -/
theorem C21_no_partial_factory (g : Globals)
    (isEndorserRequired isPeerDeliverRequired isOrdererRequired : Bool) :
    ((∃ cf, (InitCmdFactory g isEndorserRequired isPeerDeliverRequired
          isOrdererRequired).1 = (some cf, none)) ∨
      (∃ err, (InitCmdFactory g isEndorserRequired isPeerDeliverRequired
          isOrdererRequired).1 = (none, some err))) ∧
    (Request.GetDefaultSigner ∈
        (InitCmdFactory g isEndorserRequired isPeerDeliverRequired isOrdererRequired).2 ↔
      (isPeerDeliverRequired && isOrdererRequired) = false) ∧
    (∀ cause, (isPeerDeliverRequired && isOrdererRequired) = false →
      g.GetDefaultSignerFnc.2 = some cause →
      InitCmdFactory g isEndorserRequired isPeerDeliverRequired isOrdererRequired =
        ((none, some (InitError.defaultSigner cause)), [Request.GetDefaultSigner]) ∧
      (InitError.defaultSigner cause).Error =
        "error getting default signer" ++ (": " ++ cause)) := by
  refine ⟨?_, ?_, ?_⟩
  · cases hs : g.GetDefaultSignerFnc.2 <;>
    cases hen : (g.GetEndorserClientFnc g.UndefinedParamValue g.UndefinedParamValue).2 <;>
    cases hp : (g.NewDeliverClientForPeer g.channelID).2 <;>
    cases ho : (g.NewDeliverClientForOrderer g.channelID).2 <;>
    cases isEndorserRequired <;> cases isPeerDeliverRequired <;> cases isOrdererRequired <;>
    by_cases hlen : (strings.Split g.OrderingEndpoint ':').length = 2 <;>
    simp [InitCmdFactory, endorserStage, peerDeliverStage, ordererStage, hs, hen, hp, ho, hlen]
  · cases hs : g.GetDefaultSignerFnc.2 <;>
    cases hen : (g.GetEndorserClientFnc g.UndefinedParamValue g.UndefinedParamValue).2 <;>
    cases hp : (g.NewDeliverClientForPeer g.channelID).2 <;>
    cases ho : (g.NewDeliverClientForOrderer g.channelID).2 <;>
    cases isEndorserRequired <;> cases isPeerDeliverRequired <;> cases isOrdererRequired <;>
    by_cases hlen : (strings.Split g.OrderingEndpoint ':').length = 2 <;>
    simp [InitCmdFactory, endorserStage, peerDeliverStage, ordererStage, hs, hen, hp, ho, hlen]
  · intro cause hpo hs
    refine ⟨?_, ?_⟩
    · simp [InitCmdFactory, hpo, hs]
    · rw [InitError.Error, String.append_assoc]

/-- Witness of C21: with only the orderer required and a default signer that fails
with "no msp", the result is the nil factory with the error "error getting default
signer: no msp". -/
theorem C21_no_partial_factory_witness :
    InitCmdFactory { exampleGlobals with GetDefaultSignerFnc := (none, some "no msp") }
        false false true =
      ((none, some (InitError.defaultSigner "no msp")), [Request.GetDefaultSigner]) ∧
    (InitError.defaultSigner "no msp").Error = "error getting default signer: no msp" :=
  have h := (C21_no_partial_factory
    { exampleGlobals with GetDefaultSignerFnc := (none, some "no msp") }
    false false true).2.2 "no msp" rfl rfl
  ⟨h.1, h.2⟩

/-! ## The fake Runtime -/

/-- The assignment `m[k] = v` is read back at `k`. -/
theorem mapLookup_mapStore_self {κ ν : Type} [DecidableEq κ] (entries : List (κ × ν))
    (k : κ) (v : ν) : mapLookup (some (mapStore entries k v)) k = some v := by
  simp [mapLookup, mapStore]

/-- The assignment `m[k] = v` leaves the other keys as they are. -/
theorem mapLookup_mapStore_ne {κ ν : Type} [DecidableEq κ] (m : Option (List (κ × ν)))
    (k k' : κ) (v : ν) (h : k' ≠ k) :
    mapLookup (some (mapStore (m.getD []) k v)) k' = mapLookup m k' := by
  have hk : decide (k = k') = false := by simp [Ne.symm h]
  have hf : ∀ entries : List (κ × ν),
      (entries.filter (fun e => !decide (e.1 = k))).find? (fun e => decide (e.1 = k')) =
        entries.find? (fun e => decide (e.1 = k')) := by
    intro entries
    apply find?_filter_of_imp
    intro a ha
    simp only [decide_eq_true_eq] at ha
    simp [ha, h]
  cases m with
  | none => simp [mapLookup, mapStore, hk]
  | some entries =>
    simp only [mapLookup, mapStore, Option.getD_some, List.find?_cons, hk, hf]

namespace mock

/-- The calls of `Start` are recorded in order, after those recorded before. -/
theorem startArgsForCall_foldl (ops : List Op) :
    ∀ fake : Runtime, (ops.foldl Runtime.apply fake).startArgsForCall =
      fake.startArgsForCall ++ startArgsOf ops := by
  induction ops with
  | nil => intro fake; simp [startArgsOf]
  | cons op ops ih =>
    intro fake
    rw [List.foldl_cons, ih]
    cases op <;>
      simp [Runtime.apply, startArgsOf, Runtime.Start, Runtime.Stop, Runtime.recordInvocation,
        Runtime.StartReturns, Runtime.StartReturnsOnCall, Runtime.StopReturns,
        Runtime.StopReturnsOnCall]

/-- The calls of `Stop` are recorded in order, after those recorded before. -/
theorem stopArgsForCall_foldl (ops : List Op) :
    ∀ fake : Runtime, (ops.foldl Runtime.apply fake).stopArgsForCall =
      fake.stopArgsForCall ++ stopArgsOf ops := by
  induction ops with
  | nil => intro fake; simp [stopArgsOf]
  | cons op ops ih =>
    intro fake
    rw [List.foldl_cons, ih]
    cases op <;>
      simp [Runtime.apply, stopArgsOf, Runtime.Start, Runtime.Stop, Runtime.recordInvocation,
        Runtime.StartReturns, Runtime.StartReturnsOnCall, Runtime.StopReturns,
        Runtime.StopReturnsOnCall]

end mock

/-- C22: whenever `StartStub` is set at the time of the call, `Start` returns exactly
the result of the stub on the same three arguments, whatever the default and the
per-call returns are, and the call is recorded: `StartCallCount` grows by one and
the arguments are the last recorded ones; `Stop` does the same with `StopStub`. -/
theorem C22_stub_precedence (fake : mock.Runtime) (ctxt : Option Nat)
    (cccid : Option CCContext) (cds : Option ChaincodeDeploymentSpec) :
    (∀ stub, fake.StartStub = some stub →
      (fake.Start ctxt cccid cds).1 = stub ctxt cccid cds ∧
      (fake.Start ctxt cccid cds).2.StartCallCount = fake.StartCallCount + 1 ∧
      (fake.Start ctxt cccid cds).2.StartArgsForCall fake.StartCallCount =
        some ⟨ctxt, cccid, cds⟩) ∧
    (∀ stub, fake.StopStub = some stub →
      (fake.Stop ctxt cccid cds).1 = stub ctxt cccid cds ∧
      (fake.Stop ctxt cccid cds).2.StopCallCount = fake.StopCallCount + 1 ∧
      (fake.Stop ctxt cccid cds).2.StopArgsForCall fake.StopCallCount =
        some ⟨ctxt, cccid, cds⟩) := by
  constructor
  · intro stub h
    refine ⟨by simp [mock.Runtime.Start, h], ?_, ?_⟩
    · simp [mock.Runtime.Start, mock.Runtime.StartCallCount, mock.Runtime.recordInvocation]
    · simp [mock.Runtime.Start, mock.Runtime.StartCallCount, mock.Runtime.StartArgsForCall,
        mock.Runtime.recordInvocation]
  · intro stub h
    refine ⟨by simp [mock.Runtime.Stop, h], ?_, ?_⟩
    · simp [mock.Runtime.Stop, mock.Runtime.StopCallCount, mock.Runtime.recordInvocation]
    · simp [mock.Runtime.Stop, mock.Runtime.StopCallCount, mock.Runtime.StopArgsForCall,
        mock.Runtime.recordInvocation]

/-- Witness of C22 with the stub of the test, which returns the error "Bad lunch;
upset stomach", on a fake whose default return is another error. -/
theorem C22_stub_precedence_witness :
    (mock.Runtime.Start
        { mock.Runtime.zero with
          StartStub := some (fun _ _ _ => some "Bad lunch; upset stomach"),
          startReturns := some "default" } (some 1) none none).1 =
      some "Bad lunch; upset stomach" ∧
    (mock.Runtime.Start
        { mock.Runtime.zero with
          StartStub := some (fun _ _ _ => some "Bad lunch; upset stomach"),
          startReturns := some "default" } (some 1) none none).2.StartCallCount = 1 :=
  have h := (C22_stub_precedence
    { mock.Runtime.zero with
      StartStub := some (fun _ _ _ => some "Bad lunch; upset stomach"),
      startReturns := some "default" } (some 1) none none).1
    (fun _ _ _ => some "Bad lunch; upset stomach") rfl
  ⟨h.1, h.2.1⟩

namespace mock

/-- There are as many recorded arguments as calls of `Start`. -/
theorem length_startArgsOf (ops : List Op) :
    (startArgsOf ops).length = ops.countP Op.isStart := by
  induction ops with
  | nil => rfl
  | cons op ops ih =>
    cases op <;> simp [startArgsOf, Op.isStart] at ih ⊢ <;> exact ih

/-- There are as many recorded arguments as calls of `Stop`. -/
theorem length_stopArgsOf (ops : List Op) :
    (stopArgsOf ops).length = ops.countP Op.isStop := by
  induction ops with
  | nil => rfl
  | cons op ops ih =>
    cases op <;> simp [stopArgsOf, Op.isStop] at ih ⊢ <;> exact ih

end mock

/-- C23: starting from a zero-value fake, after any sequence of calls and
assignments of stubs, `StartCallCount` is the number of calls of `Start` in the
sequence and `StopCallCount` the number of calls of `Stop`; on every fake a call of
`Start` leaves the recorded calls of `Stop` (the slice, the count and the entry of
`invocations`), the returns configured for `Stop` and its stub as they are, and a
call of `Stop` does the same for `Start`. -/
theorem C23_call_counting (ops : List mock.Op) (fake : mock.Runtime) (ctxt : Option Nat)
    (cccid : Option CCContext) (cds : Option ChaincodeDeploymentSpec) :
    (ops.foldl mock.Runtime.apply mock.Runtime.zero).StartCallCount =
        ops.countP mock.Op.isStart ∧
    (ops.foldl mock.Runtime.apply mock.Runtime.zero).StopCallCount =
        ops.countP mock.Op.isStop ∧
    ((fake.Start ctxt cccid cds).2.stopArgsForCall = fake.stopArgsForCall ∧
      (fake.Start ctxt cccid cds).2.StopCallCount = fake.StopCallCount ∧
      mapLookup (fake.Start ctxt cccid cds).2.invocations "Stop" =
        mapLookup fake.invocations "Stop" ∧
      (fake.Start ctxt cccid cds).2.stopReturns = fake.stopReturns ∧
      (fake.Start ctxt cccid cds).2.stopReturnsOnCall = fake.stopReturnsOnCall ∧
      (fake.Start ctxt cccid cds).2.StopStub = fake.StopStub) ∧
    ((fake.Stop ctxt cccid cds).2.startArgsForCall = fake.startArgsForCall ∧
      (fake.Stop ctxt cccid cds).2.StartCallCount = fake.StartCallCount ∧
      mapLookup (fake.Stop ctxt cccid cds).2.invocations "Start" =
        mapLookup fake.invocations "Start" ∧
      (fake.Stop ctxt cccid cds).2.startReturns = fake.startReturns ∧
      (fake.Stop ctxt cccid cds).2.startReturnsOnCall = fake.startReturnsOnCall ∧
      (fake.Stop ctxt cccid cds).2.StartStub = fake.StartStub) := by
  refine ⟨?_, ?_, ⟨rfl, rfl, ?_, rfl, rfl, rfl⟩, ⟨rfl, rfl, ?_, rfl, rfl, rfl⟩⟩
  · rw [mock.Runtime.StartCallCount, mock.startArgsForCall_foldl, ← mock.length_startArgsOf]
    simp [mock.Runtime.zero]
  · rw [mock.Runtime.StopCallCount, mock.stopArgsForCall_foldl, ← mock.length_stopArgsOf]
    simp [mock.Runtime.zero]
  · exact mapLookup_mapStore_ne fake.invocations "Start" "Stop" _ (by decide)
  · exact mapLookup_mapStore_ne fake.invocations "Stop" "Start" _ (by decide)

/-- C24, as stated, fails for a negative index: after one call of `Start` the index
`-1` is smaller than `StartCallCount`, and `StartArgsForCall(-1)` panics. -/
theorem C24_counterexample :
    (-1 : Int) < (mock.Runtime.zero.Start (some 1) none none).2.StartCallCount ∧
    (mock.Runtime.zero.Start (some 1) none none).2.StartArgsForCall (-1) = none := by
  constructor
  · decide
  · rfl

/-- C24, amended: starting from a zero-value fake, for every `i` with
`0 <= i < StartCallCount`, `StartArgsForCall(i)` returns the three arguments of the
`i`-th call of `Start` (0-based, in call order), and operations made later never
change what it returns for `i`; the index is in range exactly when
`0 <= i < StartCallCount`. -/
theorem C24_argument_recording (ops later : List mock.Op) (i : Int) :
    (((ops.foldl mock.Runtime.apply mock.Runtime.zero).StartArgsForCall i).isSome = true ↔
      0 ≤ i ∧ i < (ops.foldl mock.Runtime.apply mock.Runtime.zero).StartCallCount) ∧
    (0 ≤ i → i < (ops.foldl mock.Runtime.apply mock.Runtime.zero).StartCallCount →
      ∃ args, (mock.startArgsOf ops)[i.toNat]? = some args ∧
        (ops.foldl mock.Runtime.apply mock.Runtime.zero).StartArgsForCall i = some args ∧
        ((ops ++ later).foldl mock.Runtime.apply mock.Runtime.zero).StartArgsForCall i =
          some args) := by
  have hrec : (ops.foldl mock.Runtime.apply mock.Runtime.zero).startArgsForCall =
      mock.startArgsOf ops := by
    rw [mock.startArgsForCall_foldl]; simp [mock.Runtime.zero]
  have hlater : ((ops ++ later).foldl mock.Runtime.apply mock.Runtime.zero).startArgsForCall =
      mock.startArgsOf ops ++ mock.startArgsOf later := by
    rw [List.foldl_append, mock.startArgsForCall_foldl, hrec]
  constructor
  · rw [mock.Runtime.StartArgsForCall, mock.Runtime.StartCallCount, hrec]
    by_cases h0 : 0 ≤ i
    · simp only [h0, ↓reduceIte, true_and]
      rw [← Option.ne_none_iff_isSome, ne_eq, List.getElem?_eq_none_iff, not_le]
      omega
    · simp [h0]
  · intro h0 hlt
    rw [mock.Runtime.StartCallCount, hrec] at hlt
    have hn : i.toNat < (mock.startArgsOf ops).length := by omega
    refine ⟨(mock.startArgsOf ops)[i.toNat], List.getElem?_eq_getElem hn, ?_, ?_⟩
    · rw [mock.Runtime.StartArgsForCall, hrec, if_pos h0, List.getElem?_eq_getElem hn]
    · rw [mock.Runtime.StartArgsForCall, hlater, if_pos h0, List.getElem?_append_left hn,
        List.getElem?_eq_getElem hn]

/-- Witness of C24: after two calls of `Start` with a call of `Stop` between them,
index 1 is in range and gives the arguments of the second call of `Start`, also
after one more call. -/
theorem C24_argument_recording_witness :
    ∃ args,
      (mock.startArgsOf [mock.Op.Start ⟨some 1, none, none⟩, mock.Op.Stop ⟨some 2, none, none⟩,
        mock.Op.Start ⟨some 3, none, none⟩])[(1 : Int).toNat]? = some args ∧
      (([mock.Op.Start ⟨some 1, none, none⟩, mock.Op.Stop ⟨some 2, none, none⟩,
        mock.Op.Start ⟨some 3, none, none⟩].foldl mock.Runtime.apply
          mock.Runtime.zero).StartArgsForCall 1 = some args) ∧
      ((([mock.Op.Start ⟨some 1, none, none⟩, mock.Op.Stop ⟨some 2, none, none⟩,
        mock.Op.Start ⟨some 3, none, none⟩] ++ [mock.Op.Start ⟨some 4, none, none⟩]).foldl
          mock.Runtime.apply mock.Runtime.zero).StartArgsForCall 1 = some args) :=
  (C24_argument_recording
    [mock.Op.Start ⟨some 1, none, none⟩, mock.Op.Stop ⟨some 2, none, none⟩,
      mock.Op.Start ⟨some 3, none, none⟩]
    [mock.Op.Start ⟨some 4, none, none⟩] 1).2 (by decide) (by decide)

namespace mock

/-- Calls of `Start` and `Stop` configure nothing: after a sequence of such calls
the stubs and the configured returns are those of before. -/
theorem calls_keep_configuration (ops : List Op)
    (hops : ∀ op ∈ ops, op.isStart = true ∨ op.isStop = true) :
    ∀ fake : Runtime,
      (ops.foldl Runtime.apply fake).StartStub = fake.StartStub ∧
      (ops.foldl Runtime.apply fake).startReturns = fake.startReturns ∧
      (ops.foldl Runtime.apply fake).startReturnsOnCall = fake.startReturnsOnCall ∧
      (ops.foldl Runtime.apply fake).StopStub = fake.StopStub ∧
      (ops.foldl Runtime.apply fake).stopReturns = fake.stopReturns ∧
      (ops.foldl Runtime.apply fake).stopReturnsOnCall = fake.stopReturnsOnCall := by
  induction ops with
  | nil => intro fake; exact ⟨rfl, rfl, rfl, rfl, rfl, rfl⟩
  | cons op ops ih =>
    intro fake
    have hrest : ∀ o ∈ ops, o.isStart = true ∨ o.isStop = true :=
      fun o ho => hops o (List.mem_cons_of_mem _ ho)
    have hop := hops op (List.mem_cons_self _ _)
    rw [List.foldl_cons]
    obtain ⟨h1, h2, h3, h4, h5, h6⟩ := ih hrest (fake.apply op)
    rw [h1, h2, h3, h4, h5, h6]
    cases op <;> simp [Op.isStart, Op.isStop] at hop <;> exact ⟨rfl, rfl, rfl, rfl, rfl, rfl⟩

end mock

/-- C25: when `StartStub` is nil, the call of `Start` made after `k` recorded calls
returns the value that `startReturnsOnCall` holds for `k` if it holds one, and the
default `startReturns` otherwise.  The value held for `k` is the one configured by
`StartReturnsOnCall(k, e)`, a configuration for another index changes nothing for
this call, and the default is the one configured by `StartReturns`.  A zero-value
fake returns nil from every call of `Start` and of `Stop`, whatever calls were made
before. -/
theorem C25_return_selection (fake : mock.Runtime) (ctxt : Option Nat)
    (cccid : Option CCContext) (cds : Option ChaincodeDeploymentSpec) :
    (fake.StartStub = none →
      (∀ e, mapLookup fake.startReturnsOnCall fake.StartCallCount = some e →
        (fake.Start ctxt cccid cds).1 = e) ∧
      (mapLookup fake.startReturnsOnCall fake.StartCallCount = none →
        (fake.Start ctxt cccid cds).1 = fake.startReturns) ∧
      (∀ i e, i ≠ fake.StartCallCount →
        ((fake.StartReturnsOnCall i e).Start ctxt cccid cds).1 =
          (fake.Start ctxt cccid cds).1)) ∧
    (∀ e, ((fake.StartReturnsOnCall fake.StartCallCount e).Start ctxt cccid cds).1 = e) ∧
    (∀ d, mapLookup fake.startReturnsOnCall fake.StartCallCount = none →
      ((fake.StartReturns d).Start ctxt cccid cds).1 = d) ∧
    (∀ ops : List mock.Op, (∀ op ∈ ops, op.isStart = true ∨ op.isStop = true) →
      ((ops.foldl mock.Runtime.apply mock.Runtime.zero).Start ctxt cccid cds).1 = none ∧
      ((ops.foldl mock.Runtime.apply mock.Runtime.zero).Stop ctxt cccid cds).1 = none) := by
  refine ⟨?_, ?_, ?_, ?_⟩
  · intro hstub
    refine ⟨?_, ?_, ?_⟩
    · intro e he
      rw [mock.Runtime.StartCallCount] at he
      simp only [mock.Runtime.Start, hstub, he]
    · intro hnone
      rw [mock.Runtime.StartCallCount] at hnone
      simp only [mock.Runtime.Start, hstub, hnone]
    · intro i e hi
      rw [mock.Runtime.StartCallCount] at hi
      simp only [mock.Runtime.Start, mock.Runtime.StartReturnsOnCall, hstub]
      rw [mapLookup_mapStore_ne fake.startReturnsOnCall i _ e (Ne.symm hi)]
  · intro e
    simp only [mock.Runtime.Start, mock.Runtime.StartReturnsOnCall, mock.Runtime.StartCallCount]
    rw [mapLookup_mapStore_self]
  · intro d hnone
    rw [mock.Runtime.StartCallCount] at hnone
    simp only [mock.Runtime.Start, mock.Runtime.StartReturns, hnone]
  · intro ops hops
    obtain ⟨h1, h2, h3, h4, h5, h6⟩ := mock.calls_keep_configuration ops hops mock.Runtime.zero
    constructor
    · simp only [mock.Runtime.Start, h1, h2, h3]
      rfl
    · simp only [mock.Runtime.Stop, h4, h5, h6]
      rfl

/-- Witness of C25: a fake without a stub, with the default return "default" and
the return "second" configured for call 1, returns the default from its first call
of `Start`. -/
theorem C25_return_selection_witness :
    (mock.Runtime.Start
      { mock.Runtime.zero with
        startReturns := some "default",
        startReturnsOnCall := some [(1, some "second")] } (some 1) none none).1 =
      some "default" :=
  ((C25_return_selection
    { mock.Runtime.zero with
      startReturns := some "default",
      startReturnsOnCall := some [(1, some "second")] } (some 1) none none).1 rfl).2.1
    (by decide)

/-- C26: on every fake, `StartStub` is nil after `StartReturns(e)` and after
`StartReturnsOnCall(i, e)`, whatever stub was installed before, so that the next
call of `Start` returns a configured value: after `StartReturns(e)` the per-call
value of the call if there is one and `e` otherwise, after
`StartReturnsOnCall(i, e)` the value `e` if the call is the `i`-th one, and
otherwise the per-call value configured earlier or the default.  `StartReturns`
leaves the per-call values, the recorded calls of both methods, the invocations and
the configuration of `Stop` as they are. -/
theorem C26_returns_discard_stub (fake : mock.Runtime) (e : Option String) (i : Int)
    (ctxt : Option Nat) (cccid : Option CCContext) (cds : Option ChaincodeDeploymentSpec) :
    (fake.StartReturns e).StartStub = none ∧
    (fake.StartReturnsOnCall i e).StartStub = none ∧
    ((fake.StartReturns e).Start ctxt cccid cds).1 =
      (match mapLookup fake.startReturnsOnCall fake.StartCallCount with
        | some ret => ret
        | none => e) ∧
    ((fake.StartReturnsOnCall i e).Start ctxt cccid cds).1 =
      (if i = fake.StartCallCount then e
        else match mapLookup fake.startReturnsOnCall fake.StartCallCount with
          | some ret => ret
          | none => fake.startReturns) ∧
    (∀ stub, ({ fake with StartStub := stub } : mock.Runtime).StartReturns e =
        fake.StartReturns e ∧
      ({ fake with StartStub := stub } : mock.Runtime).StartReturnsOnCall i e =
        fake.StartReturnsOnCall i e) ∧
    ((fake.StartReturns e).startReturnsOnCall = fake.startReturnsOnCall ∧
      (fake.StartReturns e).startArgsForCall = fake.startArgsForCall ∧
      (fake.StartReturns e).StartCallCount = fake.StartCallCount ∧
      (∀ j, (fake.StartReturns e).StartArgsForCall j = fake.StartArgsForCall j) ∧
      (fake.StartReturns e).invocations = fake.invocations ∧
      (fake.StartReturns e).stopArgsForCall = fake.stopArgsForCall ∧
      (fake.StartReturns e).StopStub = fake.StopStub ∧
      (fake.StartReturns e).stopReturns = fake.stopReturns ∧
      (fake.StartReturns e).stopReturnsOnCall = fake.stopReturnsOnCall) := by
  refine ⟨rfl, rfl, rfl, ?_, fun stub => ⟨rfl, rfl⟩,
    ⟨rfl, rfl, rfl, fun j => rfl, rfl, rfl, rfl, rfl, rfl⟩⟩
  simp only [mock.Runtime.Start, mock.Runtime.StartReturnsOnCall, mock.Runtime.StartCallCount]
  by_cases hi : i = (fake.startArgsForCall.length : Int)
  · rw [if_pos hi, hi, mapLookup_mapStore_self]
  · rw [if_neg hi, mapLookup_mapStore_ne fake.startReturnsOnCall i _ e (Ne.symm hi)]

/-! ## The bounds invariant of the query iterator -/

/-- Every sequence of calls on an iterator within its bounds completes, and leaves
an iterator within its bounds over the same results. -/
theorem run_keeps_Inv (cs : List Call) :
    ∀ mri : mockResultsIterator, mri.Inv →
      (run mri cs).1.length = cs.length ∧ (run mri cs).2.Inv ∧
      (run mri cs).2.kvs = mri.kvs := by
  induction cs with
  | nil => intro mri h; exact ⟨rfl, h, rfl⟩
  | cons c cs ih =>
    intro mri h
    obtain ⟨o, mri', hc⟩ := call_total mri c h.1 h.2
    obtain ⟨_, _, _, h4, h5, h6, _, _⟩ := call_spec mri mri' c o h.2 hc
    have hinv : mri'.Inv := ⟨by have := h.1; omega, h5⟩
    obtain ⟨i1, i2, i3⟩ := ih mri' hinv
    rw [run_cons_some mri mri' c cs o hc]
    exact ⟨by simp [i1], i2, by rw [i3, h6]⟩

/-- C27: the predicate `0 <= current <= len(kvs)` holds for an iterator built with
its results only (`current` is 0), and for every iterator on which it holds: `Next`
returns (no index is out of range), the only element of `kvs` it reads is the one at
`current`, read when `0 <= current < len(kvs)`, and it leaves an iterator on which
the predicate holds, over the same `kvs`; `Close` does too; and so does every
sequence of calls of `Next` and `Close`, all of which complete. -/
theorem C27_bounds_invariant (kvs : List (Option KV)) (mri : mockResultsIterator) :
    (mockResultsIterator.mk 0 kvs).Inv ∧
    (mri.Inv →
      (∃ r mri', mri.Next = some (r, mri') ∧ mri'.Inv ∧ mri'.kvs = mri.kvs ∧
        ((mri.current = mri.kvs.length ∧ r = (QueryResult.nil, none) ∧ mri' = mri) ∨
         (0 ≤ mri.current ∧ mri.current < mri.kvs.length ∧
          mri'.current = mri.current + 1 ∧
          ∃ p, mri.kvs[mri.current.toNat]? = some p ∧ r = (QueryResult.kv p, none)))) ∧
      (mri.Close.Inv ∧ mri.Close.kvs = mri.kvs) ∧
      (∀ cs : List Call, (run mri cs).1.length = cs.length ∧ (run mri cs).2.Inv ∧
        (run mri cs).2.kvs = mri.kvs)) := by
  refine ⟨⟨le_refl _, by simp⟩, ?_⟩
  intro h
  refine ⟨?_, ⟨⟨by simp [mockResultsIterator.Close], by simp [mockResultsIterator.Close]⟩, rfl⟩,
    fun cs => run_keeps_Inv cs mri h⟩
  by_cases hend : mri.current = mri.kvs.length
  · exact ⟨_, _, mockResultsIterator.Next_at_end mri hend, h, rfl, Or.inl ⟨hend, rfl, rfl⟩⟩
  · have h1 : mri.current < mri.kvs.length := by
      have := h.2
      omega
    obtain ⟨p, hp, hn⟩ := mockResultsIterator.Next_in_range mri h.1 h1
    refine ⟨_, _, hn, ⟨?_, ?_⟩, rfl, Or.inr ⟨h.1, h1, rfl, p, hp, rfl⟩⟩
    · have := h.1
      show 0 ≤ mri.current + 1
      omega
    · show mri.current + 1 ≤ (mri.kvs.length : Int)
      omega

/-- Witness of C27: an iterator at position 1 of two results; `Next` leaves it at
position 2, within the bounds. -/
theorem C27_bounds_invariant_witness :
    ∃ r mri', (mockResultsIterator.mk 1 [some ⟨"ns", "a", [1]⟩, none]).Next = some (r, mri') ∧
      mri'.Inv ∧ mri'.kvs = [some ⟨"ns", "a", [1]⟩, none] ∧
      (((1 : Int) = ([some ⟨"ns", "a", [1]⟩, none] : List (Option KV)).length ∧
          r = (QueryResult.nil, none) ∧
          mri' = mockResultsIterator.mk 1 [some ⟨"ns", "a", [1]⟩, none]) ∨
       ((0 : Int) ≤ 1 ∧ (1 : Int) < ([some ⟨"ns", "a", [1]⟩, none] : List (Option KV)).length ∧
        mri'.current = 1 + 1 ∧
        ∃ p, ([some ⟨"ns", "a", [1]⟩, none] : List (Option KV))[(1 : Int).toNat]? = some p ∧
          r = (QueryResult.kv p, none))) :=
  ((C27_bounds_invariant [] (mockResultsIterator.mk 1 [some ⟨"ns", "a", [1]⟩, none])).2
    (by decide)).1

/-! ## The mock query simulator -/

/-- C28: `ExecuteQuery` and `GetHistoryForKey` return what `commonQuery` returns for
the same arguments.  `commonQuery` fails with "query executor not initialized" when
the iterator table is nil; it fails with "namespace <ns> not found for <query>" when
the table gives no table for the namespace, which is so when the table has no entry
for the namespace; and otherwise it returns the pointer stored for the query in the
table of the namespace with a nil error, the nil pointer when no iterator is stored
for the query. -/
theorem C28_query_lookup (meqe : mockExecQuerySimulator) (ns query : String) :
    meqe.ExecuteQuery ns query = meqe.commonQuery ns query ∧
    meqe.GetHistoryForKey ns query = meqe.commonQuery ns query ∧
    (meqe.resultsIter = none →
      (meqe.commonQuery ns query).1 =
        (ResultsIterator.nil, some "query executor not initialized")) ∧
    (∀ table, meqe.resultsIter = some table →
      ((mapLookup (some table) ns).join = none →
        (meqe.commonQuery ns query).1 =
          (ResultsIterator.nil, some ("namespace " ++ ns ++ " not found for " ++ query))) ∧
      ((∀ e ∈ table, e.1 ≠ ns) → (mapLookup (some table) ns).join = none) ∧
      (∀ nsiter, mapLookup (some table) ns = some (some nsiter) →
        (meqe.commonQuery ns query).1 =
          (ResultsIterator.mock (mapLookup (some nsiter) query).join, none) ∧
        ((∀ e ∈ nsiter, e.1 ≠ query) →
          (meqe.commonQuery ns query).1 = (ResultsIterator.mock none, none)))) := by
  have hmiss : ∀ {ν : Type} (entries : List (String × ν)) (k : String),
      (∀ e ∈ entries, e.1 ≠ k) → mapLookup (some entries) k = none := by
    intro ν entries k hk
    simp only [mapLookup, Option.map_eq_none', List.find?_eq_none, decide_eq_true_eq]
    exact hk
  refine ⟨rfl, rfl, ?_, ?_⟩
  · intro hnil
    simp only [mockExecQuerySimulator.commonQuery, hnil]
  · intro table htable
    refine ⟨?_, ?_, ?_⟩
    · intro hns
      simp only [mockExecQuerySimulator.commonQuery, htable, hns]
    · intro hk
      rw [hmiss table ns hk]
      rfl
    · intro nsiter hns
      have hmain : (meqe.commonQuery ns query).1 =
          (ResultsIterator.mock (mapLookup (some nsiter) query).join, none) := by
        simp only [mockExecQuerySimulator.commonQuery, htable, hns, Option.join,
          Option.some_bind, id_eq]
        cases hq : (mapLookup (some nsiter) query) with
        | none => rfl
        | some iter =>
          cases iter with
          | none => rfl
          | some it => rfl
      refine ⟨hmain, ?_⟩
      intro hk
      rw [hmain, hmiss nsiter query hk]
      rfl

/-- Witness of C28 with the table of the test: the namespace "cc" holds one iterator
for the query "goodquery", which `commonQuery` returns with a nil error. -/
theorem C28_query_lookup_witness :
    (mockExecQuerySimulator.commonQuery
      ⟨some [("cc", some [("goodquery", some ⟨0, [none]⟩)])]⟩ "cc" "goodquery").1 =
      (ResultsIterator.mock
        (mapLookup (some [("goodquery", some (mockResultsIterator.mk 0 [none]))])
          "goodquery").join, none) :=
  (((C28_query_lookup ⟨some [("cc", some [("goodquery", some ⟨0, [none]⟩)])]⟩ "cc"
    "goodquery").2.2.2 [("cc", some [("goodquery", some ⟨0, [none]⟩)])] rfl).2.2
    [("goodquery", some ⟨0, [none]⟩)] (by decide)).1

/-! ## The block counter of the tests -/

/-- The loop of `initMockPeer` leaves the block number 1 for every channel that it
creates and the entries of the other channels as they were; when it runs to its end
it has created every channel of the list. -/
theorem initMockPeerLoop_spec (MockCreateChain : String → Option String) (chainIDs : List String) :
    ∀ entries : List (String × Nat),
      ((initMockPeerLoop MockCreateChain chainIDs entries).1 = none →
        createdChannels MockCreateChain chainIDs = chainIDs) ∧
      ∀ id, (id ∈ createdChannels MockCreateChain chainIDs →
          mapLookup (some (initMockPeerLoop MockCreateChain chainIDs entries).2) id = some 1) ∧
        (id ∉ createdChannels MockCreateChain chainIDs →
          mapLookup (some (initMockPeerLoop MockCreateChain chainIDs entries).2) id =
            mapLookup (some entries) id) := by
  induction chainIDs with
  | nil =>
    intro entries
    exact ⟨fun _ => rfl, fun id => ⟨fun h => by simp [createdChannels] at h, fun _ => rfl⟩⟩
  | cons id0 ids ih =>
    intro entries
    cases hc : MockCreateChain id0 with
    | some err =>
      have hcreated : createdChannels MockCreateChain (id0 :: ids) = [] := by
        simp [createdChannels, List.takeWhile_cons, hc]
      refine ⟨fun hok => by simp [initMockPeerLoop, hc] at hok, fun id => ?_⟩
      rw [hcreated]
      refine ⟨fun h => by simp at h, fun _ => ?_⟩
      simp only [initMockPeerLoop, hc]
    | none =>
      have hcreated : createdChannels MockCreateChain (id0 :: ids) =
          id0 :: createdChannels MockCreateChain ids := by
        simp [createdChannels, List.takeWhile_cons, hc]
      obtain ⟨hall, hids⟩ := ih (mapStore entries id0 1)
      simp only [initMockPeerLoop, hc]
      rw [hcreated]
      refine ⟨fun hok => by rw [hall hok], fun id => ?_⟩
      obtain ⟨h1, h2⟩ := hids id
      constructor
      · intro hmem
        by_cases hin : id ∈ createdChannels MockCreateChain ids
        · exact h1 hin
        · have hid : id = id0 := by
            rcases List.mem_cons.mp hmem with h | h
            · exact h
            · exact absurd h hin
          rw [h2 hin, hid]
          exact mapLookup_mapStore_self entries id0 1
      · intro hnot
        have hin : id ∉ createdChannels MockCreateChain ids :=
          fun h => hnot (List.mem_cons_of_mem _ h)
        have hne : id ≠ id0 := fun h => hnot (by rw [h]; exact List.mem_cons_self _ _)
        rw [h2 hin]
        exact mapLookup_mapStore_ne (some entries) id0 id 1 hne

/-- A call of `endTx` whose simulation ends without error, on a map that is not
nil. -/
theorem endTx_ok (entries : List (String × Nat)) (ChainID : String)
    (endTxSimulationCIS : Nat → Option String)
    (hsim : endTxSimulationCIS ((mapLookup (some entries) ChainID).getD 0) = none) :
    endTx (some entries) ChainID endTxSimulationCIS =
      Except.ok (some (mapStore entries ChainID
        ((((mapLookup (some entries) ChainID).getD 0) + 1) % 2 ^ 64))) := by
  simp only [endTx, hsim]

/-- Calls of `endTx` whose simulations end without error, on a map that is not nil
and holds the block number `n` for a channel: all the calls return, and the block
number of the channel is then `n` plus the number of calls on the channel, in
`uint64` arithmetic. -/
theorem endTxAll_spec (ch : String) (calls : List (String × (Nat → Option String)))
    (hcalls : ∀ c ∈ calls, ∀ b, c.2 b = none) :
    ∀ (entries : List (String × Nat)) (n : Nat), mapLookup (some entries) ch = some n →
      ∃ entries' n', endTxAll (some entries) calls = Except.ok (some entries') ∧
        mapLookup (some entries') ch = some n' ∧
        n' % 2 ^ 64 = (n + calls.countP (fun c => decide (c.1 = ch))) % 2 ^ 64 ∧
        (n < 2 ^ 64 → n' < 2 ^ 64) := by
  induction calls with
  | nil =>
    intro entries n hn
    exact ⟨entries, n, rfl, hn, by simp, fun h => h⟩
  | cons c cs ih =>
    intro entries n hn
    have hrest : ∀ c' ∈ cs, ∀ b, c'.2 b = none := fun c' hc' => hcalls c' (List.mem_cons_of_mem _ hc')
    have hstep := endTx_ok entries c.1 c.2 (hcalls c (List.mem_cons_self _ _) _)
    by_cases hch : c.1 = ch
    · have hn1 : mapLookup (some (mapStore entries c.1
          ((((mapLookup (some entries) c.1).getD 0) + 1) % 2 ^ 64))) ch =
          some ((n + 1) % 2 ^ 64) := by
        rw [hch, hn, mapLookup_mapStore_self]
        rfl
      obtain ⟨entries', n', h1, h2, h3, h4⟩ := ih hrest _ _ hn1
      refine ⟨entries', n', ?_, h2, ?_, fun _ => h4 (Nat.mod_lt _ (by norm_num))⟩
      · simp only [endTxAll, hstep]
        exact h1
      · rw [h3, List.countP_cons]
        simp only [hch, decide_True, ↓reduceIte]
        omega
    · have hn1 : mapLookup (some (mapStore entries c.1
          ((((mapLookup (some entries) c.1).getD 0) + 1) % 2 ^ 64))) ch = some n := by
        rw [← hn]
        exact mapLookup_mapStore_ne (some entries) c.1 ch _ (Ne.symm hch)
      obtain ⟨entries', n', h1, h2, h3, h4⟩ := ih hrest _ _ hn1
      refine ⟨entries', n', ?_, h2, ?_, h4⟩
      · simp only [endTxAll, hstep]
        exact h1
      · rw [h3, List.countP_cons]
        simp [hch]

/-- C29, as stated, fails when the `uint64` block number wraps: `endTx` on a channel
whose block number is `2^64 - 1` leaves the block number 0, and after
`initMockPeer` and `2^64 - 1` successful calls of `endTx` on the channel its block
number is 0, not `2^64`. -/
theorem C29_counterexample :
    (∃ g, endTx (some [("testchainid", 2 ^ 64 - 1)]) "testchainid" (fun _ => none) =
        Except.ok g ∧ mapLookup g "testchainid" = some 0) ∧
    (∃ g, endTxAll (initMockPeer (fun _ => none) ["testchainid"]).2
        (List.replicate (2 ^ 64 - 1) ("testchainid", fun _ => none)) = Except.ok g ∧
      mapLookup g "testchainid" = some 0) := by
  constructor
  · exact ⟨_, rfl, by decide⟩
  · have hinit : mapLookup (some (initMockPeerLoop (fun _ => none) ["testchainid"] []).2)
        "testchainid" = some 1 := by decide
    obtain ⟨entries', n', h1, h2, h3, h4⟩ :=
      endTxAll_spec "testchainid"
        (List.replicate (2 ^ 64 - 1) ("testchainid", fun _ => none))
        (fun c hc b => by rw [List.eq_of_mem_replicate hc]) _ 1 hinit
    refine ⟨some entries', h1, ?_⟩
    rw [h2]
    rw [List.countP_replicate] at h3
    simp only [decide_True, ↓reduceIte] at h3
    have h5 := h4 (by norm_num)
    have h6 : n' = 0 := by omega
    rw [h6]

/-- C29, amended: `initMockPeer` leaves the block number 1 for every channel that it
creates, also when it fails at a later channel, and when it returns without error
it has created every channel of its list.  A call of `endTx` whose simulation ends
without error, on a channel whose block number `n` is below `2^64 - 1`, returns and
leaves the block number `n + 1` for the channel and the block numbers of all other
channels as they were; a call whose simulation ends with an error ends the test and
assigns nothing.  So after `initMockPeer` and calls of `endTx` that all end without
error, `k` of them on a created channel, the block number of the channel is
`1 + k`, as long as `1 + k` is below `2^64`. -/
theorem C29_block_counter (MockCreateChain : String → Option String) (chainIDs : List String)
    (globalBlockNum : Option (List (String × Nat))) (ch : String) (n : Nat)
    (sim : Nat → Option String) (calls : List (String × (Nat → Option String))) :
    (∀ id ∈ createdChannels MockCreateChain chainIDs,
      mapLookup (initMockPeer MockCreateChain chainIDs).2 id = some 1) ∧
    ((initMockPeer MockCreateChain chainIDs).1 = none →
      createdChannels MockCreateChain chainIDs = chainIDs) ∧
    (mapLookup globalBlockNum ch = some n → n + 1 < 2 ^ 64 → sim n = none →
      ∃ g, endTx globalBlockNum ch sim = Except.ok g ∧ mapLookup g ch = some (n + 1) ∧
        ∀ other, other ≠ ch → mapLookup g other = mapLookup globalBlockNum other) ∧
    (∀ err, sim ((mapLookup globalBlockNum ch).getD 0) = some err →
      endTx globalBlockNum ch sim =
        Except.error (Abort.fatal ("simulation failed with error " ++ err))) ∧
    (ch ∈ createdChannels MockCreateChain chainIDs →
      (∀ c ∈ calls, ∀ b, c.2 b = none) →
      1 + calls.countP (fun c => decide (c.1 = ch)) < 2 ^ 64 →
      ∃ g, endTxAll (initMockPeer MockCreateChain chainIDs).2 calls = Except.ok g ∧
        mapLookup g ch = some (1 + calls.countP (fun c => decide (c.1 = ch)))) := by
  refine ⟨?_, ?_, ?_, ?_, ?_⟩
  · intro id hid
    exact ((initMockPeerLoop_spec MockCreateChain chainIDs []).2 id).1 hid
  · intro hok
    exact (initMockPeerLoop_spec MockCreateChain chainIDs []).1 hok
  · intro hn hlt hsim
    cases globalBlockNum with
    | none => simp [mapLookup] at hn
    | some entries =>
      have hstep := endTx_ok entries ch sim (by rw [hn]; exact hsim)
      rw [hn] at hstep
      refine ⟨_, hstep, ?_, ?_⟩
      · rw [mapLookup_mapStore_self]
        simp only [Option.getD_some]
        rw [Nat.mod_eq_of_lt hlt]
      · intro other hne
        exact mapLookup_mapStore_ne (some entries) ch other _ hne
  · intro err herr
    simp only [endTx, herr]
  · intro hch hcalls hlt
    have hinit := ((initMockPeerLoop_spec MockCreateChain chainIDs []).2 ch).1 hch
    obtain ⟨entries', n', h1, h2, h3, h4⟩ := endTxAll_spec ch calls hcalls _ 1 hinit
    refine ⟨some entries', h1, ?_⟩
    rw [h2]
    have h5 := h4 (by norm_num)
    rw [Nat.mod_eq_of_lt h5, Nat.mod_eq_of_lt hlt] at h3
    rw [h3]

/-- Witness of C29 (amended): `initMockPeer` for the channels "testchainid",
"secondchain" and "thirdchain" fails at the third; two calls of `endTx` on the
first and one on the second leave the block number 3 for the first. -/
theorem C29_block_counter_witness :
    ∃ g, endTxAll (initMockPeer (fun id => if id = "thirdchain" then some "no ledger" else none)
          ["testchainid", "secondchain", "thirdchain"]).2
        [("testchainid", fun _ => none), ("secondchain", fun _ => none),
          ("testchainid", fun _ => none)] = Except.ok g ∧
      mapLookup g "testchainid" =
        some (1 + List.countP (fun c => decide (c.1 = "testchainid"))
          [("testchainid", fun (_ : Nat) => (none : Option String)),
            ("secondchain", fun _ => none), ("testchainid", fun _ => none)]) :=
  (C29_block_counter (fun id => if id = "thirdchain" then some "no ledger" else none)
    ["testchainid", "secondchain", "thirdchain"] none "testchainid" 0
    (fun _ => none)
    [("testchainid", fun _ => none), ("secondchain", fun _ => none),
      ("testchainid", fun _ => none)]).2.2.2.2 (by decide)
    (fun c hc b => by
      simp only [List.mem_cons, List.mem_singleton, List.not_mem_nil, or_false] at hc
      rcases hc with h | h | h <;> rw [h])
    (by decide)

/-! ## The message `VersionFieldProto` -/

/-- C30, as stated, fails for the nil message: `Reset` on the nil pointer panics, so
that there is no message after it whose accessors could return an empty value,
while both accessors return nil on the nil pointer itself. -/
theorem C30_counterexample :
    VersionFieldProto.Reset none = none ∧
    VersionFieldProto.GetVersionBytes none = none ∧
    VersionFieldProto.GetMetadata none = none := ⟨rfl, rfl, rfl⟩

/-- C30, amended: `GetVersionBytes` and `GetMetadata` return nil on the nil message
and otherwise exactly the fields `VersionBytes` and `Metadata`, and for every
message `m` that is not nil, `m.Reset()` returns and leaves the zero value, on
which both accessors return the nil slice, which is empty. -/
theorem C30_nil_safe_accessors (m : Option VersionFieldProto) (hm : m ≠ none) :
    VersionFieldProto.GetVersionBytes none = none ∧
    VersionFieldProto.GetMetadata none = none ∧
    (∀ v, m = some v → VersionFieldProto.GetVersionBytes m = v.VersionBytes ∧
      VersionFieldProto.GetMetadata m = v.Metadata) ∧
    (∃ v', VersionFieldProto.Reset m = some v' ∧ v' = VersionFieldProto.zero ∧
      VersionFieldProto.GetVersionBytes (some v') = none ∧
      VersionFieldProto.GetMetadata (some v') = none ∧
      ((VersionFieldProto.GetVersionBytes (some v')).getD []).length = 0 ∧
      ((VersionFieldProto.GetMetadata (some v')).getD []).length = 0) := by
  cases m with
  | none => exact absurd rfl hm
  | some v =>
    refine ⟨rfl, rfl, ?_, ⟨VersionFieldProto.zero, rfl, rfl, rfl, rfl, rfl, rfl⟩⟩
    intro w hw
    cases hw
    exact ⟨rfl, rfl⟩

/-- Witness of C30 (amended): a message with a version and metadata; after `Reset`
both accessors return nil. -/
theorem C30_nil_safe_accessors_witness :
    ∃ v', VersionFieldProto.Reset (some ⟨some [1, 0], some [7], (), none, 4⟩) = some v' ∧
      v' = VersionFieldProto.zero ∧
      VersionFieldProto.GetVersionBytes (some v') = none ∧
      VersionFieldProto.GetMetadata (some v') = none ∧
      ((VersionFieldProto.GetVersionBytes (some v')).getD []).length = 0 ∧
      ((VersionFieldProto.GetMetadata (some v')).getD []).length = 0 :=
  (C30_nil_safe_accessors (some ⟨some [1, 0], some [7], (), none, 4⟩)
    (by decide)).2.2.2

end Justledger
